import Mathlib

/-!
# HiCHPoolInfo: pool metrics derivation (`PoolsGet`) of `go_hds_restapi.go`

A shallow embedding of `PoolsGet` from the answer of the HTTP request on (the
guard `CheckIsInString`, the test of the number of keys and the record loop), of
the row builders
`PoolInfoFormatTable` / `PoolInfoFormatCSV` and of `RoundFloat64`, together with
the part of Go's `float64` arithmetic and of `strconv.FormatFloat` that they use;
and of three smaller pieces of the same file: the LDEV string and the
reservations that `LunsGetReserve` writes for a LUN, `CheckVersion`, and the
choice among the listed storage systems in `StorageDeviceIDGet`.

## Numbers

A Go `float64` is modelled by `F64`: a finite value is a sign, a natural
mantissa and a binary exponent (value `±man * 2 ^ exp`, so that `-0` is the
finite value with `neg = true` and `man = 0`), next to the two infinities and
NaN.  Every arithmetic operation computes the exact result and rounds it once
to the nearest double, ties to even (`F64.round`), as IEEE 754 prescribes.
All definitions are computable on `Nat` / `Int` / `Bool`.
-/

namespace HiCHPoolInfo

/-! ## float64 -/

/-- Go `float64`: a finite value `(-1)^neg * man * 2^exp`, an infinity, or NaN. -/
inductive F64 where
  | fin (neg : Bool) (man : Nat) (exp : Int)
  | inf (neg : Bool)
  | nan
  deriving DecidableEq, Repr

namespace F64

/-- Number of binary digits of `n` (`0` for `0`); `fuel` bounds the recursion. -/
def bitLengthAux : Nat → Nat → Nat
  | 0, _ => 0
  | fuel + 1, n => if n = 0 then 0 else bitLengthAux fuel (n / 2) + 1

/-- Number of binary digits of `n`. -/
def bitLength (n : Nat) : Nat := bitLengthAux n n

/-- Multiply `n` by `2 ^ k` for `k ≥ 0`; the identity for `k < 0`. -/
def shiftUp (n : Nat) (k : Int) : Nat := n * 2 ^ k.toNat

/-- The integer `⌊log₂ (num / den)⌋` for positive `num` and `den`. -/
def ilog2 (num den : Nat) : Int :=
  let d : Int := (bitLength num : Int) - (bitLength den : Int)
  if shiftUp den d ≤ shiftUp num (-d) then d else d - 1

/-- Smallest binary exponent of a double (the unit of the subnormal range). -/
def minExp : Int := -1074

/-- Round the exact value `(-1)^neg * num / den` (`den ≠ 0`) to the nearest
double, ties to even; values too large for a double become an infinity. -/
def round (neg : Bool) (num den : Nat) : F64 :=
  if num = 0 then fin neg 0 0
  else
    let e : Int := max (ilog2 num den - 52) minExp
    let n := shiftUp num (-e)
    let d := shiftUp den e
    let q := n / d
    let r := n % d
    let m := if d < 2 * r ∨ (2 * r = d ∧ q % 2 = 1) then q + 1 else q
    if m = 0 then fin neg 0 0
    else if 0 ≤ e ∧ 2 ^ 1024 ≤ shiftUp m e then inf neg
    else fin neg m e

/-- The double of a natural number literal. -/
def ofNat (n : Nat) : F64 := round false n 1

/-- Go unary minus. -/
def neg : F64 → F64
  | fin s m e => fin (!s) m e
  | inf s => inf (!s)
  | nan => nan

/-- Go `x + y` on `float64`. -/
def add : F64 → F64 → F64
  | nan, _ => nan
  | _, nan => nan
  | inf s, inf t => if s = t then inf s else nan
  | inf s, fin _ _ _ => inf s
  | fin _ _ _, inf t => inf t
  | fin s1 m1 e1, fin s2 m2 e2 =>
    let e := min e1 e2
    let a : Int := if s1 then -(shiftUp m1 (e1 - e) : Int) else (shiftUp m1 (e1 - e) : Int)
    let b : Int := if s2 then -(shiftUp m2 (e2 - e) : Int) else (shiftUp m2 (e2 - e) : Int)
    let c := a + b
    if c = 0 then fin (s1 && s2) 0 0
    else round (decide (c < 0)) (shiftUp c.natAbs e) (shiftUp 1 (-e))

/-- Go `x - y` on `float64`. -/
def sub (x y : F64) : F64 := add x (neg y)

/-- Go `x * y` on `float64`. -/
def mul : F64 → F64 → F64
  | nan, _ => nan
  | _, nan => nan
  | inf s, inf t => inf (xor s t)
  | inf s, fin t m _ => if m = 0 then nan else inf (xor s t)
  | fin s m _, inf t => if m = 0 then nan else inf (xor s t)
  | fin s1 m1 e1, fin s2 m2 e2 =>
    round (xor s1 s2) (shiftUp (m1 * m2) (e1 + e2)) (shiftUp 1 (-(e1 + e2)))

/-- Go `x / y` on `float64`: division by zero gives an infinity or NaN, it
does not fail. -/
def div : F64 → F64 → F64
  | nan, _ => nan
  | _, nan => nan
  | inf _, inf _ => nan
  | inf s, fin t _ _ => inf (xor s t)
  | fin s _ _, inf t => fin (xor s t) 0 0
  | fin s1 m1 e1, fin s2 m2 e2 =>
    if m2 = 0 then (if m1 = 0 then nan else inf (xor s1 s2))
    else round (xor s1 s2) (shiftUp (shiftUp m1 e1) (-e2)) (shiftUp (shiftUp m2 e2) (-e1))

/-- Go `x == y` on `float64` (`-0 == 0`, NaN equals nothing). -/
def eq : F64 → F64 → Bool
  | fin s1 m1 e1, fin s2 m2 e2 =>
    if m1 = 0 ∧ m2 = 0 then true
    else s1 = s2 ∧ shiftUp m1 (e1 - min e1 e2) = shiftUp m2 (e2 - min e1 e2)
  | inf s, inf t => s = t
  | _, _ => false

/-- Go `x < y` on `float64` (false as soon as one side is NaN). -/
def lt : F64 → F64 → Bool
  | nan, _ => false
  | _, nan => false
  | inf s, inf t => s && !t
  | inf s, fin _ _ _ => s
  | fin _ _ _, inf t => !t
  | fin s1 m1 e1, fin s2 m2 e2 =>
    let e := min e1 e2
    let a : Int := if s1 then -(shiftUp m1 (e1 - e) : Int) else (shiftUp m1 (e1 - e) : Int)
    let b : Int := if s2 then -(shiftUp m2 (e2 - e) : Int) else (shiftUp m2 (e2 - e) : Int)
    decide (a < b)

/-- Go `x >= y` on `float64`. -/
def ge (x y : F64) : Bool := lt y x || eq x y

/-- Go `math.Modf`: integer part and fractional part, both with the sign of the
argument; `Modf(±Inf) = (±Inf, NaN)`. -/
def Modf : F64 → F64 × F64
  | nan => (nan, nan)
  | inf s => (inf s, nan)
  | fin s m e =>
    if 0 ≤ e then (fin s m e, fin s 0 0)
    else (fin s (m / 2 ^ (-e).toNat) 0, fin s (m % 2 ^ (-e).toNat) e)

/-- Go `math.Floor`. -/
def Floor : F64 → F64
  | nan => nan
  | inf s => inf s
  | fin s m e =>
    if m = 0 ∨ 0 ≤ e then fin s m e
    else if s then
      round true (m / 2 ^ (-e).toNat + (if m % 2 ^ (-e).toNat = 0 then 0 else 1)) 1
    else round false (m / 2 ^ (-e).toNat) 1

/-- Go `math.Ceil`, which is `-Floor(-x)`. -/
def Ceil (x : F64) : F64 := neg (Floor (neg x))

/-- Go `math.Pow(10, float64(places))` for a non-negative `places`. -/
def Pow10 (places : Nat) : F64 := ofNat (10 ^ places)

end F64

/-! ## strconv.FormatFloat and RoundFloat64 -/

/-- Left-pad the decimal digits `s` with zeros up to `width` characters. -/
def padZeros (width : Nat) (s : String) : String :=
  String.mk (List.replicate (width - s.length) '0') ++ s

/-- Go `strconv.FormatFloat(f, 'f', prec, 64)` for `prec ≥ 0`: the exact value
of `f` written with `prec` decimals, rounded to nearest with ties to even; the
sign is the sign bit of `f` (so a negative value that rounds to zero prints as
`-0.00`), and the non-finite values print as `+Inf`, `-Inf`, `NaN`. -/
def FormatFloat (f : F64) (prec : Nat) : String :=
  match f with
  | .nan => "NaN"
  | .inf false => "+Inf"
  | .inf true => "-Inf"
  | .fin s m e =>
    let num := F64.shiftUp (m * 10 ^ prec) e
    let den := F64.shiftUp 1 (-e)
    let q := num / den
    let r := num % den
    let n := if den < 2 * r ∨ (2 * r = den ∧ q % 2 = 1) then q + 1 else q
    (if s then "-" else "") ++ Nat.repr (n / 10 ^ prec) ++
      (if prec = 0 then "" else "." ++ padZeros prec (Nat.repr (n % 10 ^ prec)))

/-- Source `RoundFloat64(val, places)`: scale by `10^places`, take the ceiling
when the fractional part returned by `math.Modf` is `>= 0.5` and the floor
otherwise, and scale back. -/
def RoundFloat64 (val : F64) (places : Nat) : F64 :=
  let roundOn : F64 := F64.round false 1 2
  let pow := F64.Pow10 places
  let digit := F64.mul pow val
  let div := (F64.Modf digit).2
  let round := if F64.ge div roundOn then F64.Ceil digit else F64.Floor digit
  F64.div round pow

/-! ## Decoded JSON, parameters and program state -/

/-- A Go `interface{}` value as produced by `json.Unmarshal`: `nil` (JSON null,
or the result of indexing a map with an absent key), a bool, a `float64`, a
string, a `[]interface{}` or a `map[string]interface{}` (its entries, with
distinct keys). -/
inductive Value where
  | nil
  | bool (b : Bool)
  | float64 (x : F64)
  | string (s : String)
  | slice (xs : List Value)
  | map (kvs : List (String × Value))

/-- Go map indexing `m[key]`: the value stored under `key`, `nil` when absent. -/
def index : List (String × Value) → String → Value
  | [], _ => .nil
  | (k, v) :: rest, key => if k = key then v else index rest key

/-- Go `v != nil` for an interface value. -/
def Value.notNil : Value → Bool
  | .nil => false
  | _ => true

/-- Go `v == "lit"` between an interface value and a string: true exactly when
the value holds that string; it never fails. -/
def Value.eqString : Value → String → Bool
  | .string s, lit => s = lit
  | _, _ => false

/-- Source `Params`. `RoundPrecision` (a Go `int`, set to 2 by `main`) is kept
as a natural number: negative precisions are not modelled. -/
structure Params where
  Protocol : String
  Port : String
  Host : String
  RequestType : String
  URL : String
  RequestBody : String
  Username : String
  Password : String
  Token : String
  StorageDeviceID : String
  SessionID : F64
  OutputStyle : String
  OutputType : String
  ElementStringStart : String
  ElementStringEnd : String
  RoundPrecision : Nat
  MaxElementCount : Int
  RestVersion : String
  APIVersionElement : String
  DataElement : String
  CSVString : String

/-- Source `PoolInfo`. -/
structure PoolInfo where
  PoolID : String
  PoolType : String
  PoolName : String
  usedPhysicalCapacityRate : String
  totalPhysicalCapacity : String
  usedPhysicalCapacity : String
  availablePhysicalVolumeCapacity : String
  availableVolumeCapacity : String
  OverallSavings : String
  FMCCompressionRatio : String
  PhysFMCPoolVolCapTotal : String
  PhysFMCPoolVolCapFree : String
  PhysFMCPoolVolCapUsed : String
  EffectiveGBFree : String
  CompressionRatioTotal : String
  deriving DecidableEq, Repr

/-- The Go zero value of `PoolInfo` (`var PoolElement PoolInfo`). -/
def PoolInfo.zero : PoolInfo :=
  ⟨"", "", "", "", "", "", "", "", "", "", "", "", "", "", ""⟩

/-- The variables of `PoolsGet` that live across the record loop, and what the
function has written so far: the lines given to `Verbose.Println` and the
`Data` argument of every call of `OutputStandardFormat`, oldest first. -/
structure World where
  PoolElement : PoolInfo
  OutData : List (List String)
  State : Bool
  verbose : List String
  rendered : List (List (List String))
  deriving DecidableEq, Repr

/-- How a piece of the program ends: normally with a value, with a Go run-time
panic (a failed type assertion), or with `os.Exit(code)`; the state reached is
kept in each case. -/
inductive Res (α : Type) where
  | ok (a : α) (w : World)
  | panic (w : World)
  | exit (code : Nat) (w : World)
  deriving DecidableEq, Repr

/-- The state a result ends in. -/
def Res.world {α : Type} : Res α → World
  | .ok _ w => w
  | .panic w => w
  | .exit _ w => w

/-- Whether a result is a normal return. -/
def Res.isOk {α : Type} : Res α → Bool
  | .ok _ _ => true
  | _ => false

/-- A statement sequence of `PoolsGet`: a state transformer that may panic or exit. -/
def Exec (α : Type) : Type := World → Res α

/-- Sequencing: a panic or an exit ends the run. -/
def Exec.bind {α β : Type} (m : Exec α) (f : α → Exec β) : Exec β := fun w =>
  match m w with
  | .ok a w1 => f a w1
  | .panic w1 => .panic w1
  | .exit c w1 => .exit c w1

instance : Monad Exec where
  pure a := fun w => .ok a w
  bind := Exec.bind

/-- Go type assertion `v.(float64)`: panics unless `v` holds a `float64`. -/
def assertFloat64 (v : Value) : Exec F64 := fun w =>
  match v with
  | .float64 x => .ok x w
  | _ => .panic w

/-- Go type assertion `v.(string)`. -/
def assertString (v : Value) : Exec String := fun w =>
  match v with
  | .string s => .ok s w
  | _ => .panic w

/-- Go type assertion `v.([]interface{})`. -/
def assertSlice (v : Value) : Exec (List Value) := fun w =>
  match v with
  | .slice xs => .ok xs w
  | _ => .panic w

/-- Go type assertion `v.(map[string]interface{})`. -/
def assertMap (v : Value) : Exec (List (String × Value)) := fun w =>
  match v with
  | .map kvs => .ok kvs w
  | _ => .panic w

/-- Source `Verbose.Println(line)`. -/
def VerbosePrintln (line : String) : Exec Unit := fun w =>
  .ok () { w with verbose := w.verbose ++ [line] }

/-- Assignment to fields of the loop-wide variable `PoolElement`. -/
def setPoolElement (f : PoolInfo → PoolInfo) : Exec Unit := fun w =>
  .ok () { w with PoolElement := f w.PoolElement }

/-- Go `os.Exit(code)`. -/
def osExit {α : Type} (code : Nat) : Exec α := fun w => .exit code w

/-! ## Row builders and the renderer interface -/

/-- Source `PoolInfoFormatTable`: the rows of one pool for the console table. -/
def PoolInfoFormatTable (PoolDataSet : PoolInfo) (p : Params) : List (List String) × Bool :=
  let OutData : List (List String) := []
  let OutData := OutData ++ [[p.ElementStringStart]]
  let OutData := OutData ++ [["Pool ID", PoolDataSet.PoolID]]
  let OutData := OutData ++ [["Pool name", PoolDataSet.PoolName]]
  let OutData := OutData ++ [["Total physical capacity [GB]", PoolDataSet.totalPhysicalCapacity]]
  let OutData := OutData ++ [["Used physical capacity [GB]", PoolDataSet.usedPhysicalCapacity]]
  let OutData := OutData ++
    [["Free physical capacity [GB]", PoolDataSet.availablePhysicalVolumeCapacity]]
  let OutData := OutData ++ [["Compression ratio FMC", PoolDataSet.FMCCompressionRatio]]
  let OutData := OutData ++ [["Compression ratio total", PoolDataSet.CompressionRatioTotal]]
  let OutData := OutData ++ [["Effective total GB free [GB]", PoolDataSet.EffectiveGBFree]]
  let OutData := OutData ++ [[p.ElementStringEnd]]
  (OutData, false)

/-- Source `PoolInfoFormatCSV`: the rows of one pool appended to the rows
collected so far. -/
def PoolInfoFormatCSV (OutData : List (List String)) (PoolDataSet : PoolInfo) (p : Params) :
    List (List String) × Bool :=
  let TempData := OutData
  let TempData := TempData ++ [[p.ElementStringStart]]
  let TempData := TempData ++ [["Pool ID(string)", PoolDataSet.PoolID]]
  let TempData := TempData ++ [["Pool name(string)", PoolDataSet.PoolName]]
  let TempData := TempData ++
    [["Total physical capacity [GB](float64)", PoolDataSet.totalPhysicalCapacity]]
  let TempData := TempData ++
    [["Used physical capacity [GB](float64)", PoolDataSet.usedPhysicalCapacity]]
  let TempData := TempData ++
    [["Free physical capacity [GB](float64)", PoolDataSet.availablePhysicalVolumeCapacity]]
  let TempData := TempData ++ [["Compression ratio FMC", PoolDataSet.FMCCompressionRatio]]
  let TempData := TempData ++
    [["Compression ratio total(string)", PoolDataSet.CompressionRatioTotal]]
  let TempData := TempData ++
    [["Effective total GB free [GB](float64)", PoolDataSet.EffectiveGBFree]]
  let TempData := TempData ++ [[p.ElementStringEnd]]
  (TempData, false)

/-- Source `OutputStandardFormat(Data, p)`, at its interface: the rows handed to
the renderer are recorded; the state it returns (that of `OutputTable` or
`OutputCSV`) is always `false`. -/
def OutputStandardFormat (Data : List (List String)) (_p : Params) : Exec Bool := fun w =>
  .ok false { w with rendered := w.rendered ++ [Data] }

/-- The `switch p.OutputStyle` block that ends every branch of the record loop:
`stdout` builds the table rows of `PoolElement` into `OutData` and renders them
at once, `csv` appends the rows of `PoolElement` to `OutData`. -/
def selectOutput (p : Params) : Exec Unit := fun w =>
  if p.OutputStyle = "stdout" then
    let r := PoolInfoFormatTable w.PoolElement p
    (do let _ ← OutputStandardFormat r.1 p; pure ()) { w with OutData := r.1, State := r.2 }
  else if p.OutputStyle = "csv" then
    let r := PoolInfoFormatCSV w.OutData w.PoolElement p
    .ok () { w with OutData := r.1, State := r.2 }
  else .ok () w

/-! ## The record loop of PoolsGet -/

/-- The conversion constant `Mb2Gb = 1024.0`. -/
def Mb2Gb : F64 := F64.ofNat 1024

/-- Lines 698-707 of `PoolsGet`: the local `availablePhysicalVolumeCapacity`,
read from the element of that name when it is not nil and from
`availableVolumeCapacity` otherwise. -/
def effectiveFree (ParsedMap : List (String × Value)) : Exec F64 :=
  if (index ParsedMap "availablePhysicalVolumeCapacity").notNil then
    assertFloat64 (index ParsedMap "availablePhysicalVolumeCapacity")
  else
    assertFloat64 (index ParsedMap "availableVolumeCapacity")

/-- Lines 719-774: the branch "FMC Only disk pool (All flash pool)". -/
def allFlashBranch (p : Params) (ParsedMap : List (String × Value))
    (availablePhysicalVolumeCapacity : F64) : Exec Unit := do
  VerbosePrintln "All FMC Pool (All flash Pool)"
  let poolId ← assertFloat64 (index ParsedMap "poolId")
  setPoolElement fun e => { e with PoolID := FormatFloat poolId 0 }
  let poolName ← assertString (index ParsedMap "poolName")
  setPoolElement fun e => { e with PoolName := poolName }
  let totalPhysicalCapacity ← assertFloat64 (index ParsedMap "totalPhysicalCapacity")
  setPoolElement fun e => { e with
    totalPhysicalCapacity := FormatFloat (F64.div totalPhysicalCapacity Mb2Gb) p.RoundPrecision }
  let usedPhysicalCapacity ← assertFloat64 (index ParsedMap "usedPhysicalCapacity")
  setPoolElement fun e => { e with
    usedPhysicalCapacity := FormatFloat (F64.div usedPhysicalCapacity Mb2Gb) p.RoundPrecision }
  setPoolElement fun e => { e with
    availablePhysicalVolumeCapacity :=
      FormatFloat (F64.div availablePhysicalVolumeCapacity Mb2Gb) p.RoundPrecision }
  let totalPoolCapacity ← assertFloat64 (index ParsedMap "totalPoolCapacity")
  let usedPhysicalCapacity ← assertFloat64 (index ParsedMap "usedPhysicalCapacity")
  let CompressionRatioTotal :=
    F64.div (F64.sub totalPoolCapacity availablePhysicalVolumeCapacity) usedPhysicalCapacity
  setPoolElement fun e => { e with
    CompressionRatioTotal := FormatFloat CompressionRatioTotal p.RoundPrecision }
  let usedFMCPoolVolumesCapacity ← assertFloat64 (index ParsedMap "usedFMCPoolVolumesCapacity")
  let usedPhysicalFMCPoolVolumesCapacity ←
    assertFloat64 (index ParsedMap "usedPhysicalFMCPoolVolumesCapacity")
  setPoolElement fun e => { e with
    FMCCompressionRatio :=
      FormatFloat (F64.div usedFMCPoolVolumesCapacity usedPhysicalFMCPoolVolumesCapacity)
        p.RoundPrecision }
  let CompressionRatioTotal := RoundFloat64 CompressionRatioTotal p.RoundPrecision
  setPoolElement fun e => { e with
    EffectiveGBFree :=
      FormatFloat (F64.mul (F64.div availablePhysicalVolumeCapacity Mb2Gb) CompressionRatioTotal)
        p.RoundPrecision }
  selectOutput p

/-- Lines 775-830: the branch "FMC containing disk pool". -/
def mixedBranch (p : Params) (ParsedMap : List (String × Value))
    (availablePhysicalVolumeCapacity : F64) : Exec Unit := do
  VerbosePrintln "FMC containing Pool"
  let poolId ← assertFloat64 (index ParsedMap "poolId")
  setPoolElement fun e => { e with PoolID := FormatFloat poolId 0 }
  let poolName ← assertString (index ParsedMap "poolName")
  setPoolElement fun e => { e with PoolName := poolName }
  let totalPhysicalCapacity ← assertFloat64 (index ParsedMap "totalPhysicalCapacity")
  setPoolElement fun e => { e with
    totalPhysicalCapacity := FormatFloat (F64.div totalPhysicalCapacity Mb2Gb) p.RoundPrecision }
  let usedPhysicalCapacity ← assertFloat64 (index ParsedMap "usedPhysicalCapacity")
  setPoolElement fun e => { e with
    usedPhysicalCapacity := FormatFloat (F64.div usedPhysicalCapacity Mb2Gb) p.RoundPrecision }
  setPoolElement fun e => { e with
    availablePhysicalVolumeCapacity :=
      FormatFloat (F64.div availablePhysicalVolumeCapacity Mb2Gb) p.RoundPrecision }
  let totalPoolCapacity ← assertFloat64 (index ParsedMap "totalPoolCapacity")
  let usedPhysicalCapacity ← assertFloat64 (index ParsedMap "usedPhysicalCapacity")
  let CompressionRatioTotal :=
    F64.div (F64.sub totalPoolCapacity availablePhysicalVolumeCapacity) usedPhysicalCapacity
  setPoolElement fun e => { e with
    CompressionRatioTotal := FormatFloat CompressionRatioTotal p.RoundPrecision }
  let usedFMCPoolVolumesCapacity ← assertFloat64 (index ParsedMap "usedFMCPoolVolumesCapacity")
  let usedPhysicalFMCPoolVolumesCapacity ←
    assertFloat64 (index ParsedMap "usedPhysicalFMCPoolVolumesCapacity")
  setPoolElement fun e => { e with
    FMCCompressionRatio :=
      FormatFloat (F64.div usedFMCPoolVolumesCapacity usedPhysicalFMCPoolVolumesCapacity)
        p.RoundPrecision }
  let CompressionRatioTotal := RoundFloat64 CompressionRatioTotal p.RoundPrecision
  setPoolElement fun e => { e with
    EffectiveGBFree :=
      FormatFloat (F64.mul (F64.div availablePhysicalVolumeCapacity Mb2Gb) CompressionRatioTotal)
        p.RoundPrecision }
  selectOutput p

/-- Lines 841-898: the body of the `RT` / `HDT` block ("No FMC HDT Pool"). -/
def tieredBranch (p : Params) (ParsedMap : List (String × Value))
    (availablePhysicalVolumeCapacity : F64) : Exec Unit := do
  VerbosePrintln "No FMC HDT Pool"
  let poolId ← assertFloat64 (index ParsedMap "poolId")
  setPoolElement fun e => { e with PoolID := FormatFloat poolId 0 }
  let poolName ← assertString (index ParsedMap "poolName")
  setPoolElement fun e => { e with PoolName := poolName }
  let totalPoolCapacity ← assertFloat64 (index ParsedMap "totalPoolCapacity")
  setPoolElement fun e => { e with
    totalPhysicalCapacity := FormatFloat (F64.div totalPoolCapacity Mb2Gb) p.RoundPrecision }
  let totalPoolCapacity ← assertFloat64 (index ParsedMap "totalPoolCapacity")
  setPoolElement fun e => { e with
    usedPhysicalCapacity :=
      FormatFloat (F64.div (F64.sub totalPoolCapacity availablePhysicalVolumeCapacity) Mb2Gb)
        p.RoundPrecision }
  setPoolElement fun e => { e with
    availablePhysicalVolumeCapacity :=
      FormatFloat (F64.div availablePhysicalVolumeCapacity Mb2Gb) p.RoundPrecision }
  setPoolElement fun e => { e with FMCCompressionRatio := "-1.00" }
  setPoolElement fun e => { e with CompressionRatioTotal := "-1.00" }
  setPoolElement fun e => { e with
    EffectiveGBFree :=
      FormatFloat (F64.div availablePhysicalVolumeCapacity Mb2Gb) p.RoundPrecision }
  selectOutput p

/-- Lines 904-960: the body of the `HDP` block ("No FMC HDP Pool"). -/
def hdpBranch (p : Params) (ParsedMap : List (String × Value))
    (availablePhysicalVolumeCapacity : F64) : Exec Unit := do
  VerbosePrintln "No FMC HDP Pool"
  let poolId ← assertFloat64 (index ParsedMap "poolId")
  setPoolElement fun e => { e with PoolID := FormatFloat poolId 0 }
  let poolName ← assertString (index ParsedMap "poolName")
  setPoolElement fun e => { e with PoolName := poolName }
  let totalPoolCapacity ← assertFloat64 (index ParsedMap "totalPoolCapacity")
  let TotalPoolCapacity := F64.div totalPoolCapacity Mb2Gb
  setPoolElement fun e => { e with
    totalPhysicalCapacity := FormatFloat TotalPoolCapacity p.RoundPrecision }
  let FreePoolCapacity := F64.div availablePhysicalVolumeCapacity Mb2Gb
  setPoolElement fun e => { e with
    availablePhysicalVolumeCapacity := FormatFloat FreePoolCapacity p.RoundPrecision }
  setPoolElement fun e => { e with
    usedPhysicalCapacity :=
      FormatFloat (F64.sub TotalPoolCapacity FreePoolCapacity) p.RoundPrecision }
  setPoolElement fun e => { e with CompressionRatioTotal := "-1.00" }
  setPoolElement fun e => { e with FMCCompressionRatio := "-1.00" }
  setPoolElement fun e => { e with EffectiveGBFree := e.availablePhysicalVolumeCapacity }
  selectOutput p

/-- Lines 966-1022: the body of the `HTI` block ("No FMC HTI Pool"). -/
def htiBranch (p : Params) (ParsedMap : List (String × Value))
    (availablePhysicalVolumeCapacity : F64) : Exec Unit := do
  VerbosePrintln "No FMC HTI Pool"
  let poolId ← assertFloat64 (index ParsedMap "poolId")
  setPoolElement fun e => { e with PoolID := FormatFloat poolId 0 }
  let poolName ← assertString (index ParsedMap "poolName")
  setPoolElement fun e => { e with PoolName := poolName }
  let totalPoolCapacity ← assertFloat64 (index ParsedMap "totalPoolCapacity")
  let TotalPoolCapacity := F64.div totalPoolCapacity Mb2Gb
  setPoolElement fun e => { e with
    totalPhysicalCapacity := FormatFloat TotalPoolCapacity p.RoundPrecision }
  let FreePoolCapacity := F64.div availablePhysicalVolumeCapacity Mb2Gb
  setPoolElement fun e => { e with
    availablePhysicalVolumeCapacity := FormatFloat FreePoolCapacity p.RoundPrecision }
  setPoolElement fun e => { e with
    usedPhysicalCapacity :=
      FormatFloat (F64.sub TotalPoolCapacity FreePoolCapacity) p.RoundPrecision }
  setPoolElement fun e => { e with CompressionRatioTotal := "-1.00" }
  setPoolElement fun e => { e with FMCCompressionRatio := "-1.00" }
  setPoolElement fun e => { e with EffectiveGBFree := e.availablePhysicalVolumeCapacity }
  selectOutput p

/-- Lines 832-1026: the `else` part of the FMC test, three `if` blocks in a row. -/
def noFMCBranches (p : Params) (ParsedMap : List (String × Value))
    (availablePhysicalVolumeCapacity : F64) : Exec Unit := do
  let poolType ← assertString (index ParsedMap "poolType")
  if poolType = "RT" ∨ poolType = "HDT" then
    tieredBranch p ParsedMap availablePhysicalVolumeCapacity
  if (index ParsedMap "poolType").eqString "HDP" then
    hdpBranch p ParsedMap availablePhysicalVolumeCapacity
  if (index ParsedMap "poolType").eqString "HTI" then
    htiBranch p ParsedMap availablePhysicalVolumeCapacity

/-- Lines 709-1026: the FMC test and, under it, the five branches. -/
def poolBranches (p : Params) (ParsedMap : List (String × Value))
    (availablePhysicalVolumeCapacity : F64) : Exec Unit := do
  if (index ParsedMap "usedFMCPoolVolumesCapacity").notNil then
    let totalPhysicalCapacity ← assertFloat64 (index ParsedMap "totalPhysicalCapacity")
    let availablePhysicalFMCPoolVolumesCapacity ←
      assertFloat64 (index ParsedMap "availablePhysicalFMCPoolVolumesCapacity")
    if F64.eq totalPhysicalCapacity availablePhysicalFMCPoolVolumesCapacity then
      allFlashBranch p ParsedMap availablePhysicalVolumeCapacity
    else
      mixedBranch p ParsedMap availablePhysicalVolumeCapacity
  else
    noFMCBranches p ParsedMap availablePhysicalVolumeCapacity

/-- Lines 682-1032: the body of the record loop for one element `ParsedMap`.
The two assertions at its head are the arguments of the `Debug.Println` call of
line 686, which are evaluated whatever the logger does with them. -/
def poolRecord (p : Params) (ParsedMap : List (String × Value)) : Exec Unit := do
  let _ ← assertFloat64 (index ParsedMap "poolId")
  let _ ← assertString (index ParsedMap "poolName")
  let availablePhysicalVolumeCapacity ← effectiveFree ParsedMap
  poolBranches p ParsedMap availablePhysicalVolumeCapacity

/-- Lines 680-1034: the loop over the elements of the `data` array. -/
def recordLoop (p : Params) : List Value → Exec Unit
  | [] => pure ()
  | Value1 :: rest => do
    let ParsedMap ← assertMap Value1
    poolRecord p ParsedMap
    recordLoop p rest

/-- Whether the characters of `t` are the first characters of `s`. -/
def startsWith : List Char → List Char → Bool
  | _, [] => true
  | [], _ :: _ => false
  | c :: s, d :: t => decide (c = d) && startsWith s t

/-- Go `strings.Index(output, ToCompare) != -1`: whether `ToCompare` occurs
somewhere in `output`. The strings are compared character by character, which
for well-formed UTF-8 finds an occurrence exactly when the comparison of the
bytes does. -/
def containsString : List Char → List Char → Bool
  | [], t => t.isEmpty
  | c :: s, t => startsWith (c :: s) t || containsString s t

/-- Source `CheckIsInString` (lines 2273-2292): `os.Exit(202)` when `ToCompare`
does not occur in `output`, and the value `false` otherwise. The lines written
to the `Error` and `Debug` loggers are not part of the state. -/
def CheckIsInString (output ToCompare : String) : Exec Bool := fun w =>
  if containsString output.data ToCompare.data = false then
    .exit 202 w
  else
    .ok false w

/-- Source `PoolsGet`, from the answer `Out` of `HTTPRequest` on. The request
itself and the JSON decoder are not modelled: `JSONUnmarshalOut` is the object
that `JSONUnmarshal(Out)` returns, and of `JSONUnmarshal` only the
`State = false` it returns is kept (its `os.Exit(20)`, its `os.Exit(21)` and
the panic of its type assertion, on a text that is not a JSON object, happen
inside the decoder, before it returns anything).
The `Error.Println(Out)` guarded by `CheckIsInString` writes to a logger that is
not part of the state. -/
def PoolsGet (p : Params) (Out : String) (JSONUnmarshalOut : List (String × Value)) :
    Exec (String × Bool) := do
  VerbosePrintln "Get general information of all Pools start"
  if (← CheckIsInString Out p.DataElement) then
    pure ()
  (fun w => .ok () { w with State := false })
  if JSONUnmarshalOut.length ≠ 1 then
    osExit 41
  let data ← assertSlice (index JSONUnmarshalOut "data")
  VerbosePrintln "Get general information of all Pools end"
  (fun w => .ok () { w with OutData := [] })
  recordLoop p data
  if p.OutputStyle = "csv" then
    (fun w => (do let _ ← OutputStandardFormat w.OutData p; pure ()) w)
  pure ("", false)

/-- The state in which `PoolsGet` starts: `State := true`, `PoolElement` the
zero value, nothing collected and nothing written yet. -/
def World.init : World := ⟨PoolInfo.zero, [], true, [], []⟩

/-! ## Typed views of a record, concrete inputs -/

/-- The values a record of an FMC pool is read at. -/
structure FMCNumbers where
  poolId : F64
  poolName : String
  effectiveFree : F64
  totalPhysicalCapacity : F64
  availablePhysicalFMCPoolVolumesCapacity : F64
  usedPhysicalCapacity : F64
  totalPoolCapacity : F64
  usedFMCPoolVolumesCapacity : F64
  usedPhysicalFMCPoolVolumesCapacity : F64

/-- The record `m` has `usedFMCPoolVolumesCapacity` and every element the two
FMC branches read, with the values `r`: it is classified `AllFlashCompressed`
or `MixedCompressed`. -/
def HasFMCFields (m : List (String × Value)) (r : FMCNumbers) : Prop :=
  index m "poolId" = .float64 r.poolId ∧
  index m "poolName" = .string r.poolName ∧
  (∀ w, effectiveFree m w = .ok r.effectiveFree w) ∧
  index m "totalPhysicalCapacity" = .float64 r.totalPhysicalCapacity ∧
  index m "availablePhysicalFMCPoolVolumesCapacity" =
    .float64 r.availablePhysicalFMCPoolVolumesCapacity ∧
  index m "usedPhysicalCapacity" = .float64 r.usedPhysicalCapacity ∧
  index m "totalPoolCapacity" = .float64 r.totalPoolCapacity ∧
  index m "usedFMCPoolVolumesCapacity" = .float64 r.usedFMCPoolVolumesCapacity ∧
  index m "usedPhysicalFMCPoolVolumesCapacity" = .float64 r.usedPhysicalFMCPoolVolumesCapacity

/-- The values a record of a pool without FMC is read at. -/
structure PlainNumbers where
  poolId : F64
  poolName : String
  poolType : String
  effectiveFree : F64
  totalPoolCapacity : F64

/-- The record `m` has no `usedFMCPoolVolumesCapacity` and has the elements the
three blocks without FMC read, with the values `r`. -/
def HasPlainFields (m : List (String × Value)) (r : PlainNumbers) : Prop :=
  index m "poolId" = .float64 r.poolId ∧
  index m "poolName" = .string r.poolName ∧
  (∀ w, effectiveFree m w = .ok r.effectiveFree w) ∧
  index m "usedFMCPoolVolumesCapacity" = .nil ∧
  index m "poolType" = .string r.poolType ∧
  index m "totalPoolCapacity" = .float64 r.totalPoolCapacity

/-- The block of rows of `e` was emitted between the states `w` and `w1`: in
`stdout` mode as one more call of the renderer, with the table rows of `e`; in
`csv` mode as the CSV rows of `e` appended to `OutData`, nothing rendered yet. -/
def EmittedBlock (p : Params) (w w1 : World) (e : PoolInfo) : Prop :=
  (p.OutputStyle = "stdout" → w1.rendered = w.rendered ++ [(PoolInfoFormatTable e p).1]) ∧
  (p.OutputStyle = "csv" →
    w1.OutData = w.OutData ++ (PoolInfoFormatCSV [] e p).1 ∧ w1.rendered = w.rendered)

/-- The parameters as `main` sets them for the pool report, for an output
style; host, port and credentials play no part in what follows. -/
def mainParams (OutputStyle : String) : Params :=
  { Protocol := "https", Port := "443", Host := "localhost", RequestType := "", URL := "",
    RequestBody := "", Username := "", Password := "", Token := "", StorageDeviceID := "",
    SessionID := F64.fin false 0 0, OutputStyle := OutputStyle, OutputType := "pool",
    ElementStringStart := "Lacsap-Hitachi-Start", ElementStringEnd := "Lacsap-Hitachi-End",
    RoundPrecision := 2, MaxElementCount := 16348, RestVersion := "", APIVersionElement := "",
    DataElement := "data", CSVString := "," }

/-- The record of Scenario A (pool 20 of the test data kept in the source, with
the free physical capacity of the scenario). -/
def scenarioA : List (String × Value) :=
  [("poolId", .float64 (F64.ofNat 20)), ("poolName", .string "FMC_HDP"),
   ("poolType", .string "HDP"),
   ("totalPoolCapacity", .float64 (F64.ofNat 10062024)),
   ("availableVolumeCapacity", .float64 (F64.ofNat 8838690)),
   ("availablePhysicalVolumeCapacity", .float64 (F64.ofNat 8838690)),
   ("usedPhysicalCapacity", .float64 (F64.ofNat 316512)),
   ("totalPhysicalCapacity", .float64 (F64.ofNat 4910262)),
   ("availablePhysicalFMCPoolVolumesCapacity", .float64 (F64.ofNat 4910262)),
   ("usedFMCPoolVolumesCapacity", .float64 (F64.ofNat 1223334)),
   ("usedPhysicalFMCPoolVolumesCapacity", .float64 (F64.ofNat 316498))]

/-- The numbers of Scenario A. -/
def scenarioANumbers : FMCNumbers :=
  { poolId := F64.ofNat 20, poolName := "FMC_HDP", effectiveFree := F64.ofNat 8838690,
    totalPhysicalCapacity := F64.ofNat 4910262,
    availablePhysicalFMCPoolVolumesCapacity := F64.ofNat 4910262,
    usedPhysicalCapacity := F64.ofNat 316512, totalPoolCapacity := F64.ofNat 10062024,
    usedFMCPoolVolumesCapacity := F64.ofNat 1223334,
    usedPhysicalFMCPoolVolumesCapacity := F64.ofNat 316498 }

/-- A pool without FMC elements: type `poolType`, `totalPoolCapacity` and
`availableVolumeCapacity` in MiB. -/
def plainRecord (poolType : String) (total free : Nat) : List (String × Value) :=
  [("poolId", .float64 (F64.ofNat 0)), ("poolName", .string "FMD_Pool"),
   ("poolType", .string poolType),
   ("totalPoolCapacity", .float64 (F64.ofNat total)),
   ("availableVolumeCapacity", .float64 (F64.ofNat free))]

/-- The numbers of `plainRecord`. -/
def plainNumbers (poolType : String) (total free : Nat) : PlainNumbers :=
  { poolId := F64.ofNat 0, poolName := "FMD_Pool", poolType := poolType,
    effectiveFree := F64.ofNat free, totalPoolCapacity := F64.ofNat total }

/-! ## Running the branches -/

/-- The `PoolElement` the two FMC branches leave (lines 727-760 and 783-816). -/
def fmcElement (p : Params) (e : PoolInfo) (r : FMCNumbers) : PoolInfo :=
  { e with
    PoolID := FormatFloat r.poolId 0
    PoolName := r.poolName
    totalPhysicalCapacity := FormatFloat (F64.div r.totalPhysicalCapacity Mb2Gb) p.RoundPrecision
    usedPhysicalCapacity := FormatFloat (F64.div r.usedPhysicalCapacity Mb2Gb) p.RoundPrecision
    availablePhysicalVolumeCapacity :=
      FormatFloat (F64.div r.effectiveFree Mb2Gb) p.RoundPrecision
    CompressionRatioTotal :=
      FormatFloat (F64.div (F64.sub r.totalPoolCapacity r.effectiveFree) r.usedPhysicalCapacity)
        p.RoundPrecision
    FMCCompressionRatio :=
      FormatFloat (F64.div r.usedFMCPoolVolumesCapacity r.usedPhysicalFMCPoolVolumesCapacity)
        p.RoundPrecision
    EffectiveGBFree :=
      FormatFloat (F64.mul (F64.div r.effectiveFree Mb2Gb)
        (RoundFloat64
          (F64.div (F64.sub r.totalPoolCapacity r.effectiveFree) r.usedPhysicalCapacity)
          p.RoundPrecision)) p.RoundPrecision }

/-- The `PoolElement` the `RT` / `HDT` block leaves (lines 869-883). -/
def tieredElement (p : Params) (e : PoolInfo) (r : PlainNumbers) : PoolInfo :=
  { e with
    PoolID := FormatFloat r.poolId 0
    PoolName := r.poolName
    totalPhysicalCapacity := FormatFloat (F64.div r.totalPoolCapacity Mb2Gb) p.RoundPrecision
    usedPhysicalCapacity :=
      FormatFloat (F64.div (F64.sub r.totalPoolCapacity r.effectiveFree) Mb2Gb) p.RoundPrecision
    availablePhysicalVolumeCapacity :=
      FormatFloat (F64.div r.effectiveFree Mb2Gb) p.RoundPrecision
    FMCCompressionRatio := "-1.00"
    CompressionRatioTotal := "-1.00"
    EffectiveGBFree := FormatFloat (F64.div r.effectiveFree Mb2Gb) p.RoundPrecision }

/-- The `PoolElement` the `HDP` and the `HTI` block leave (lines 907-947 and
969-1009). -/
def thinElement (p : Params) (e : PoolInfo) (r : PlainNumbers) : PoolInfo :=
  { e with
    PoolID := FormatFloat r.poolId 0
    PoolName := r.poolName
    totalPhysicalCapacity := FormatFloat (F64.div r.totalPoolCapacity Mb2Gb) p.RoundPrecision
    availablePhysicalVolumeCapacity :=
      FormatFloat (F64.div r.effectiveFree Mb2Gb) p.RoundPrecision
    usedPhysicalCapacity :=
      FormatFloat (F64.sub (F64.div r.totalPoolCapacity Mb2Gb) (F64.div r.effectiveFree Mb2Gb))
        p.RoundPrecision
    CompressionRatioTotal := "-1.00"
    FMCCompressionRatio := "-1.00"
    EffectiveGBFree := FormatFloat (F64.div r.effectiveFree Mb2Gb) p.RoundPrecision }

/-- A statement sequence that writes nothing through `Verbose.Println`. -/
def KeepsVerbose {α : Type} (m : Exec α) : Prop := ∀ w, (m w).world.verbose = w.verbose

/-- The state after the `switch p.OutputStyle` block. -/
def afterOutput (p : Params) (w : World) : World := (selectOutput p w).world


/-- The block of the three blocks without FMC that the pool type selects. -/
def plainBranch (p : Params) (m : List (String × Value)) (r : PlainNumbers) : Exec Unit :=
  if r.poolType = "RT" ∨ r.poolType = "HDT" then tieredBranch p m r.effectiveFree
  else if r.poolType = "HDP" then hdpBranch p m r.effectiveFree
  else htiBranch p m r.effectiveFree


/-- The `PoolElement` the loop body leaves for the record `m`: the values its
block of rows carries. -/
def emittedElement (p : Params) (m : List (String × Value)) (w : World) : PoolInfo :=
  (poolRecord p m w).world.PoolElement

/-- Zero (the positive one). -/
def F64.zero : F64 := F64.fin false 0 0

/-- Not NaN and not an infinity: every number decoded from JSON is finite. -/
def F64.isFinite : F64 → Bool
  | .fin _ _ _ => true
  | _ => false

/-- The sign bit is clear or the value is a zero; NaN is excluded. -/
def F64.NonNeg : F64 → Prop
  | .fin s m _ => s = false ∨ m = 0
  | .inf s => s = false
  | .nan => False


/-- Every capacity of the record is a finite number that is `>= 0`. -/
def NonNegativeCapacities (r : FMCNumbers) : Prop :=
  ∀ x ∈ [r.effectiveFree, r.totalPhysicalCapacity, r.availablePhysicalFMCPoolVolumesCapacity,
      r.usedPhysicalCapacity, r.totalPoolCapacity, r.usedFMCPoolVolumesCapacity,
      r.usedPhysicalFMCPoolVolumesCapacity],
    x.isFinite = true ∧ F64.ge x F64.zero = true

/-- An all-flash FMC record whose free physical capacity (2048 MiB) exceeds its
`totalPoolCapacity` (1024 MiB); every capacity is non-negative. -/
def overfullRecord : List (String × Value) :=
  [("poolId", .float64 (F64.ofNat 7)), ("poolName", .string "FMC_Pool"),
   ("poolType", .string "HDP"),
   ("totalPoolCapacity", .float64 (F64.ofNat 1024)),
   ("availableVolumeCapacity", .float64 (F64.ofNat 2048)),
   ("availablePhysicalVolumeCapacity", .float64 (F64.ofNat 2048)),
   ("usedPhysicalCapacity", .float64 (F64.ofNat 1024)),
   ("totalPhysicalCapacity", .float64 (F64.ofNat 4096)),
   ("availablePhysicalFMCPoolVolumesCapacity", .float64 (F64.ofNat 4096)),
   ("usedFMCPoolVolumesCapacity", .float64 (F64.ofNat 1024)),
   ("usedPhysicalFMCPoolVolumesCapacity", .float64 (F64.ofNat 512))]

/-- The numbers of `overfullRecord`. -/
def overfullNumbers : FMCNumbers :=
  { poolId := F64.ofNat 7, poolName := "FMC_Pool", effectiveFree := F64.ofNat 2048,
    totalPhysicalCapacity := F64.ofNat 4096,
    availablePhysicalFMCPoolVolumesCapacity := F64.ofNat 4096,
    usedPhysicalCapacity := F64.ofNat 1024, totalPoolCapacity := F64.ofNat 1024,
    usedFMCPoolVolumesCapacity := F64.ofNat 1024,
    usedPhysicalFMCPoolVolumesCapacity := F64.ofNat 512 }


/-- The record of Scenario B: a tiered (`RT`) pool of 10000000 MiB with
4000000 MiB free and no physical or FMC element. -/
def scenarioB : List (String × Value) := plainRecord "RT" 10000000 4000000

/-- The record of Scenario C: Scenario A with `usedPhysicalCapacity` 0. -/
def scenarioC : List (String × Value) :=
  [("poolId", .float64 (F64.ofNat 20)), ("poolName", .string "FMC_HDP"),
   ("poolType", .string "HDP"),
   ("totalPoolCapacity", .float64 (F64.ofNat 10062024)),
   ("availableVolumeCapacity", .float64 (F64.ofNat 8838690)),
   ("availablePhysicalVolumeCapacity", .float64 (F64.ofNat 8838690)),
   ("usedPhysicalCapacity", .float64 (F64.ofNat 0)),
   ("totalPhysicalCapacity", .float64 (F64.ofNat 4910262)),
   ("availablePhysicalFMCPoolVolumesCapacity", .float64 (F64.ofNat 4910262)),
   ("usedFMCPoolVolumesCapacity", .float64 (F64.ofNat 1223334)),
   ("usedPhysicalFMCPoolVolumesCapacity", .float64 (F64.ofNat 316498))]

/-- The numbers of Scenario C. -/
def scenarioCNumbers : FMCNumbers :=
  { poolId := F64.ofNat 20, poolName := "FMC_HDP", effectiveFree := F64.ofNat 8838690,
    totalPhysicalCapacity := F64.ofNat 4910262,
    availablePhysicalFMCPoolVolumesCapacity := F64.ofNat 4910262,
    usedPhysicalCapacity := F64.ofNat 0, totalPoolCapacity := F64.ofNat 10062024,
    usedFMCPoolVolumesCapacity := F64.ofNat 1223334,
    usedPhysicalFMCPoolVolumesCapacity := F64.ofNat 316498 }

/-- The record `m` has no `usedFMCPoolVolumesCapacity`, has a number as
`poolId`, a string as `poolName`, an effective free capacity, and as `poolType`
the string `poolType`, which is none of `RT`, `HDT`, `HDP`, `HTI`. -/
def IsUnclassifiable (m : List (String × Value)) (poolType : String) : Prop :=
  (∃ poolId, index m "poolId" = .float64 poolId) ∧
  (∃ poolName, index m "poolName" = .string poolName) ∧
  (∃ free, ∀ w, effectiveFree m w = .ok free w) ∧
  index m "usedFMCPoolVolumesCapacity" = .nil ∧
  index m "poolType" = .string poolType ∧
  poolType ≠ "RT" ∧ poolType ≠ "HDT" ∧ poolType ≠ "HDP" ∧ poolType ≠ "HTI"

/-- The strings `FormatFloat` writes for the values that are not finite. -/
def IsNonFiniteText (s : String) : Prop := s = "+Inf" ∨ s = "-Inf" ∨ s = "NaN"



/-- The record `m` is classified: it has the FMC elements, or it has none and
its pool type is `RT`, `HDT`, `HDP` or `HTI`. -/
def Classifiable (m : List (String × Value)) : Prop :=
  (∃ r, HasFMCFields m r) ∨
  (∃ r, HasPlainFields m r ∧
    (r.poolType = "RT" ∨ r.poolType = "HDT" ∨ r.poolType = "HDP" ∨ r.poolType = "HTI"))

/-- The CSV rows of the record `m` processed on its own, from the initial state. -/
def csvRows (p : Params) (m : List (String × Value)) : List (List String) :=
  (PoolInfoFormatCSV [] (emittedElement p m World.init) p).1

/-- The table rows of the record `m` processed on its own, from the initial state. -/
def tableRows (p : Params) (m : List (String × Value)) : List (List String) :=
  (PoolInfoFormatTable (emittedElement p m World.init) p).1

/-- The rows an element of the `data` array adds to `OutData` in `csv` mode when
it is processed on its own. -/
def recordRows (p : Params) : Value → List (List String)
  | .map m => (poolRecord p m World.init).world.OutData
  | _ => []

/-- The tables an element of the `data` array has rendered in `stdout` mode when
it is processed on its own. -/
def recordTables (p : Params) : Value → List (List (List String))
  | .map m => (poolRecord p m World.init).world.rendered
  | _ => []

/-- Every element of the array is a record that is classified or is skipped for
its unknown pool type: none makes the loop panic. -/
def AllRecordsRun (data : List Value) : Prop :=
  ∀ v ∈ data, ∃ m, v = .map m ∧ (Classifiable m ∨ ∃ poolType, IsUnclassifiable m poolType)

/-- The state in which `PoolsGet` enters the record loop: the two lines about
the general information written, `State` as returned by `JSONUnmarshal`,
`OutData` empty. -/
def World.atLoop : World :=
  { World.init with
    State := false
    OutData := []
    verbose := ["Get general information of all Pools start",
      "Get general information of all Pools end"] }

/-- An array of three records: Scenario A, a pool of the unknown type `XYZ`,
and the `HDP` pool 0 of the test data kept in the source. -/
def sampleArray : List Value :=
  [.map scenarioA, .map (plainRecord "XYZ" 1024 128), .map (plainRecord "HDP" 11739672 2808204)]

/-- A raw answer that names the data element, as `HTTPRequest` returns it: of
the text only the occurrence of `data` matters to `PoolsGet`, which decodes the
rest with `JSONUnmarshal`. -/
def sampleOut : String := "\x7b \"data\": [ ... ] \x7d"

/-- A raw answer with a second key next to `data`. -/
def twoKeysOut : String := "\x7b \"data\": [ ... ], \"errorSource\": \"x\" \x7d"

/-- The natural number nearest to `num / den`, the even one of the two when
`num / den` lies halfway between them. -/
def roundHalfEven (num den : Nat) : Nat :=
  let q := num / den
  let r := num % den
  if den < 2 * r ∨ (2 * r = den ∧ q % 2 = 1) then q + 1 else q

/-- The text of `n` units of `10^-prec` with `prec` decimals, after a minus sign
when `neg` is set: for `prec = 2`, `n` hundredths. -/
def renderFixed (neg : Bool) (n prec : Nat) : String :=
  (if neg then "-" else "") ++ Nat.repr (n / 10 ^ prec) ++
    (if prec = 0 then "" else "." ++ padZeros prec (Nat.repr (n % 10 ^ prec)))

/-- The number of units of `10^-prec` that `FormatFloat` writes for the finite
value `man * 2^exp`. -/
def F64.fixedDigits (man : Nat) (exp : Int) (prec : Nat) : Nat :=
  roundHalfEven (F64.shiftUp (man * 10 ^ prec) exp) (F64.shiftUp 1 (-exp))

/-- The value `x` is finite, has the sign bit `s` and the magnitude `N / 2^k`
exactly. -/
def F64.IsExact (x : F64) (s : Bool) (N k : Nat) : Prop :=
  ∃ m j : Nat, x = F64.fin s m (-(j : Int)) ∧ m * 2 ^ k = N * 2 ^ j

/-- The natural number `n` is a nearest one to `num / den`, and the even one of
the two nearest when `num / den` lies halfway between two natural numbers. -/
def IsNearestEven (n num den : Nat) : Prop :=
  2 * num ≤ 2 * (n * den) + den ∧ 2 * (n * den) ≤ 2 * num + den ∧
  ((2 * num = 2 * (n * den) + den ∨ 2 * (n * den) = 2 * num + den) → n % 2 = 0)

/-! ## LunsGetReserve: the LDEV string and the reservations -/

/-- Go `int64(f)`: a finite value is truncated toward zero. What Go gives for
an infinity, for NaN or for a value outside `int64` depends on the platform;
the model takes the minimum of `int64`, as amd64 does. -/
def F64.toInt64 : F64 → Int
  | .fin s m e =>
    let a : Nat := F64.shiftUp m e / F64.shiftUp 1 (-e)
    let v : Int := if s then -(a : Int) else (a : Int)
    if -(2 ^ 63 : Int) ≤ v ∧ v < (2 ^ 63 : Int) then v else -(2 ^ 63 : Int)
  | _ => -(2 ^ 63 : Int)

/-- Go `strconv.FormatInt(i, base)` for `2 ≤ base ≤ 36`: the digits of `i` in
that base, lower-case letters for the digits from ten on, after a minus sign
when `i` is negative. -/
def FormatInt (i : Int) (base : Nat) : List Char :=
  (if i < 0 then ['-'] else []) ++ Nat.toDigits base i.natAbs

/-- Lines 576-588 of `LunsGetReserve`: the LDEV number of a LUN written in
hexadecimal, padded to four digits with leading zeros, a colon before its last
two characters. -/
def LdevString (ldevId : F64) : String :=
  let s := FormatInt (F64.toInt64 ldevId) 16
  let s := if s.length < 4 then List.replicate (4 - s.length) '0' ++ s else s
  String.mk (s.take (s.length - 2) ++ ':' :: s.drop (s.length - 2))

/-- The body of the loop over `luHostReserve` (lines 563-573) for the entry
`key3`, `reserve`, on the pair `ReserveString`, `ReserveSet`; `none` is the
panic of the type assertion `reserve.(bool)`. -/
def reserveStep (acc : String × Bool) (key3 : String) (reserve : Value) :
    Option (String × Bool) :=
  match reserve with
  | .bool true =>
    some (if acc.1 = "" then "(" ++ key3 ++ "=" ++ "true"
      else acc.1 ++ "; " ++ key3 ++ "=" ++ "true", true)
  | .bool false => some acc
  | _ => none

/-- The loop over `luHostReserve` (lines 563-573); the list holds the entries of
the map in the order in which `range` visits them, which Go does not fix. -/
def reserveLoop : List (String × Value) → String × Bool → Option (String × Bool)
  | [], acc => some acc
  | (key3, reserve) :: rest, acc => (reserveStep acc key3 reserve).bind (reserveLoop rest)

/-- Lines 559-596 of `LunsGetReserve`: what the line written for a LUN shows
after `reservations: `, namely `ReserveString` closed by a parenthesis when
`ReserveSet` is set and `none` otherwise. -/
def reservations (luHostReserve : List (String × Value)) : Option String :=
  (reserveLoop luHostReserve ("", false)).map fun r => if r.2 then r.1 ++ ")" else "none"

/-- The value of a hexadecimal digit character (lower or upper case); other
characters count as zero. -/
def hexValue (c : Char) : Nat :=
  if '0' ≤ c ∧ c ≤ '9' then c.toNat - '0'.toNat
  else if 'a' ≤ c ∧ c ≤ 'f' then c.toNat - 'a'.toNat + 10
  else if 'A' ≤ c ∧ c ≤ 'F' then c.toNat - 'A'.toNat + 10
  else 0

/-- The number a string of hexadecimal digits denotes. -/
def readHex (s : List Char) : Nat := s.foldl (fun acc c => 16 * acc + hexValue c) 0

/-- The luHostReserve map whose entries, in the order of the iteration, are the
boolean flags `flags`. -/
def flagMap (flags : List (String × Bool)) : List (String × Value) :=
  flags.map fun kb => (kb.1, Value.bool kb.2)

/-- The keys of the flags that are set, in the order of the iteration. -/
def trueKeys (flags : List (String × Bool)) : List String :=
  (flags.filter fun kb => kb.2).map fun kb => kb.1

/-! ## CheckVersion -/

/-- How a Go function that keeps no state ends: it returns a value, it panics
at run time, or it calls `os.Exit(code)`. -/
inductive Outcome (α : Type) where
  | returns (a : α)
  | panics
  | exits (code : Nat)
  deriving DecidableEq, Repr

/-- Sequencing: a panic or an exit ends the function. -/
def Outcome.bind {α β : Type} (x : Outcome α) (f : α → Outcome β) : Outcome β :=
  match x with
  | .returns a => f a
  | .panics => .panics
  | .exits code => .exits code

/-- Go `strings.Index(s, sep)` for a separator of one ASCII character: the
position of its first occurrence, `-1` when there is none. Positions count
characters; at an ASCII separator the slices of the characters and of the bytes
are the same strings. -/
def Index : List Char → Char → Int
  | [], _ => -1
  | c :: rest, sep => if c = sep then 0 else if Index rest sep < 0 then -1 else Index rest sep + 1

/-- Go `strings.LastIndex(s, sep)` for a separator of one ASCII character: the
position of its last occurrence, `-1` when there is none. -/
def LastIndex : List Char → Char → Int
  | [], _ => -1
  | c :: rest, sep =>
    if 0 ≤ LastIndex rest sep then LastIndex rest sep + 1 else if c = sep then 0 else -1

/-- Go slice expression `s[lo:hi]` on a string: `none` is the run-time panic
"slice bounds out of range", raised unless `0 ≤ lo ≤ hi ≤ len(s)`. -/
def slice (s : List Char) (lo hi : Int) : Option (List Char) :=
  if 0 ≤ lo ∧ lo ≤ hi ∧ hi ≤ (s.length : Int) then some ((s.take hi.toNat).drop lo.toNat)
  else none

/-- The number a string of decimal digits denotes. -/
def decimalValue (s : List Char) : Nat := s.foldl (fun n c => 10 * n + (c.toNat - '0'.toNat)) 0

/-- The unsigned part of `strconv.ParseInt(s, 10, 64)`: at least one character,
decimal digits only (`none` is the syntax error). -/
def parseDigits (s : List Char) : Option Nat :=
  if s ≠ [] ∧ s.all Char.isDigit = true then some (decimalValue s) else none

/-- Go `strconv.ParseInt(s, 10, 64)`: an optional sign and decimal digits, the
value within `int64`; `none` stands for `err != nil` (a syntax error or a value
out of range). -/
def ParseInt (s : List Char) : Option Int :=
  match s with
  | [] => none
  | c :: rest =>
    if c = '+' then
      (parseDigits rest).bind fun n => if n < 2 ^ 63 then some (n : Int) else none
    else if c = '-' then
      (parseDigits rest).bind fun n => if n ≤ 2 ^ 63 then some (-(n : Int)) else none
    else (parseDigits (c :: rest)).bind fun n => if n < 2 ^ 63 then some (n : Int) else none

/-- One of the six conversions of `CheckVersion`: the slice expression is
evaluated first (it may panic), then `ParseInt`, whose error ends the program
with status 203. -/
def versionPart (s : List Char) (lo hi : Int) : Outcome Int :=
  match slice s lo hi with
  | none => .panics
  | some t =>
    match ParseInt t with
    | none => .exits 203
    | some v => .returns v

/-- Source `CheckVersion(InputValue, VersionToCheckAgainst)` (lines 2299-2371). -/
def CheckVersion (InputValue VersionToCheckAgainst : String) : Outcome Bool :=
  let I := InputValue.data
  let V := VersionToCheckAgainst.data
  (versionPart I 0 (Index I '.')).bind fun ActualVersionFirst =>
  (versionPart I (Index I '.' + 1) (LastIndex I '.')).bind fun ActualVersionMid =>
  (versionPart I (LastIndex I '.' + 1) I.length).bind fun ActualVersionLast =>
  (versionPart V 0 (Index V '.')).bind fun VersionToCheckFirst =>
  (versionPart V (Index V '.' + 1) (LastIndex V '.')).bind fun VersionToCheckMid =>
  (versionPart V (LastIndex V '.' + 1) V.length).bind fun VersionToCheckLast =>
  if ActualVersionFirst < VersionToCheckFirst then .exits 204
  else if ActualVersionFirst = VersionToCheckFirst then
    if ActualVersionMid < VersionToCheckMid then .exits 204
    else if ActualVersionMid = VersionToCheckMid then
      if ActualVersionLast < VersionToCheckLast then .exits 204 else .returns false
    else .returns false
  else .returns false

/-- The string `s` is a decimal integer without sign: one digit or more. -/
def IsDecimal (s : List Char) : Prop := s ≠ [] ∧ ∀ c ∈ s, c.isDigit = true

/-- The version string `a.b.c` of three components. -/
def versionString (a b c : List Char) : String := String.mk (a ++ '.' :: (b ++ '.' :: c))

/-- The triple `(a, b, c)` is below `(x, y, z)` in the lexicographic order. -/
def LexBelow (a b c x y z : Nat) : Prop := a < x ∨ (a = x ∧ (b < y ∨ (b = y ∧ c < z)))

instance (a b c x y z : Nat) : Decidable (LexBelow a b c x y z) := by
  unfold LexBelow; infer_instance

/-! ## StorageDeviceIDGet: the choice among several storage systems -/

/-- Lines 1591-1656 of `StorageDeviceIDGet`, after the storage systems of
`StorageDeviceIDSlice` have been listed as the options 2, 3, ... (so that
`ElementNumber` is 2 plus their number): the three checks of the number
`inputint` read from the console, and the selection. `registered` is what
`HCSRegisterStorage` returns for option 1. -/
def chooseStorage (StorageDeviceIDSlice : List String) (registered : String) (inputint : Int) :
    Outcome String :=
  let ElementNumber : Int := 2 + StorageDeviceIDSlice.length
  if inputint > ElementNumber then .exits 100
  else if inputint = 0 then .exits 100
  else if inputint = 1 then .returns registered
  else if 0 ≤ inputint - 2 ∧ inputint - 2 < StorageDeviceIDSlice.length then
    match StorageDeviceIDSlice.get? (inputint - 2).toNat with
    | some id => .returns id
    | none => .panics
  else .panics

/-! ## Exact values -/

/-- The value `x` is finite and equal to `v / 2^K` exactly. -/
def F64.HasValue (x : F64) (v : Int) (K : Nat) : Prop :=
  ∃ (s : Bool) (m : Nat) (e : Int), x = F64.fin s m e ∧
    (if s then -(m : Int) else (m : Int)) * (F64.shiftUp 1 e : Int) * 2 ^ K =
      v * (F64.shiftUp 1 (-e) : Int)

/-- The number of hundredths, with its sign, that `FormatFloat` writes at 2
decimals for a finite value; zero for the values that are not finite. -/
def F64.hundredths : F64 → Int
  | .fin s m e => if s then -(F64.fixedDigits m e 2 : Int) else (F64.fixedDigits m e 2 : Int)
  | _ => 0

/-- The string `text` is the number `h / 100` written with 2 decimals: the
digits of the absolute value of `h`, after a minus sign when `h` is negative
(zero may be written `0.00` or `-0.00`). -/
def IsTextOfHundredths (text : String) (h : Int) : Prop :=
  ∃ s : Bool, text = renderFixed s h.natAbs 2 ∧ (h < 0 → s = true) ∧ (0 < h → s = false)

/-- The used capacity in GB as the block of the pool type computes it: the
difference of the capacities divided by 1024 in the `RT` / `HDT` block, the
difference of the two quotients in the `HDP` and `HTI` blocks. -/
def usedGB (r : PlainNumbers) : F64 :=
  if r.poolType = "RT" ∨ r.poolType = "HDT" then
    F64.div (F64.sub r.totalPoolCapacity r.effectiveFree) Mb2Gb
  else F64.sub (F64.div r.totalPoolCapacity Mb2Gb) (F64.div r.effectiveFree Mb2Gb)



/-- The product `100 * m / 2^j` is farther than `2^-27` from every midpoint
`k + 1/2` between two natural numbers: with `r` the remainder of `100 * m` by
`2^j`, the distance of `2 * r` from `2^j`, times `2^26`, exceeds `2^j`. -/
def AwayFromMidpoint (m j : Nat) : Prop :=
  2 ^ j < 2 ^ 26 * (2 * ((100 * m) % 2 ^ j) - 2 ^ j) ∨
  2 ^ j < 2 ^ 26 * (2 ^ j - 2 * ((100 * m) % 2 ^ j))

instance (m j : Nat) : Decidable (AwayFromMidpoint m j) := by
  unfold AwayFromMidpoint; infer_instance

/-- A record with the FMC elements whose total ratio is a tie at 2 decimals:
Scenario A with `totalPoolCapacity` 9658690 and `usedPhysicalCapacity` 160000,
so that the ratio is `820000 / 160000 = 5.125`. -/
def tieRecord : List (String × Value) :=
  [("poolId", .float64 (F64.ofNat 20)), ("poolName", .string "FMC_HDP"),
   ("poolType", .string "HDP"),
   ("totalPoolCapacity", .float64 (F64.ofNat 9658690)),
   ("availableVolumeCapacity", .float64 (F64.ofNat 8838690)),
   ("availablePhysicalVolumeCapacity", .float64 (F64.ofNat 8838690)),
   ("usedPhysicalCapacity", .float64 (F64.ofNat 160000)),
   ("totalPhysicalCapacity", .float64 (F64.ofNat 4910262)),
   ("availablePhysicalFMCPoolVolumesCapacity", .float64 (F64.ofNat 4910262)),
   ("usedFMCPoolVolumesCapacity", .float64 (F64.ofNat 1223334)),
   ("usedPhysicalFMCPoolVolumesCapacity", .float64 (F64.ofNat 316498))]

/-- The numbers of `tieRecord`. -/
def tieNumbers : FMCNumbers :=
  { poolId := F64.ofNat 20, poolName := "FMC_HDP", effectiveFree := F64.ofNat 8838690,
    totalPhysicalCapacity := F64.ofNat 4910262,
    availablePhysicalFMCPoolVolumesCapacity := F64.ofNat 4910262,
    usedPhysicalCapacity := F64.ofNat 160000, totalPoolCapacity := F64.ofNat 9658690,
    usedFMCPoolVolumesCapacity := F64.ofNat 1223334,
    usedPhysicalFMCPoolVolumesCapacity := F64.ofNat 316498 }

/-- The total ratio of a record with the FMC elements as lines 744-745 compute
it: `(totalPoolCapacity - effectiveFree) / usedPhysicalCapacity`. -/
def totalRatio (r : FMCNumbers) : F64 :=
  F64.div (F64.sub r.totalPoolCapacity r.effectiveFree) r.usedPhysicalCapacity

/-! ## The float64 model on known values -/

set_option maxRecDepth 100000 in
/-- The model agrees with IEEE 754 doubles on textbook values: `1/3` and
`0.1 + 0.2` have the bit patterns `0x3FD5555555555555` and
`0x3FD3333333333334`, the double nearest to 3.005 lies below 3.005 and its
product with 100 rounds to exactly 300.5, a quotient by zero is an infinity or
NaN, and `FormatFloat` rounds the halfway value 0.125 to the even neighbour. -/
theorem float64_known_values :
    F64.div (F64.ofNat 1) (F64.ofNat 3) = F64.fin false 6004799503160661 (-54) ∧
    F64.add (F64.round false 1 10) (F64.round false 2 10) =
      F64.fin false 5404319552844596 (-54) ∧
    F64.round false 3005 1000 = F64.fin false 6766658440124170 (-51) ∧
    F64.eq (F64.mul (F64.ofNat 100) (F64.round false 3005 1000)) (F64.round false 601 2) = true ∧
    F64.div (F64.ofNat 1) (F64.ofNat 0) = F64.inf false ∧
    F64.div (F64.ofNat 0) (F64.ofNat 0) = F64.nan ∧
    FormatFloat (F64.div (F64.ofNat 128) (F64.ofNat 1024)) 2 = "0.12" ∧
    FormatFloat (F64.div (F64.ofNat 384) (F64.ofNat 1024)) 2 = "0.38" := by
  refine ⟨by decide, by decide, by decide, by decide, by decide, by decide, by decide, by decide⟩

/-! ## Execution lemmas -/

theorem bind_apply {α β : Type} (m : Exec α) (f : α → Exec β) (w : World) :
    (m >>= f) w = Exec.bind m f w := rfl

theorem pure_apply {α : Type} (a : α) (w : World) : (pure a : Exec α) w = .ok a w := rfl

theorem keeps_pure {α : Type} (a : α) : KeepsVerbose (pure a : Exec α) := fun _ => rfl

theorem keeps_bind {α β : Type} {m : Exec α} {f : α → Exec β} (hm : KeepsVerbose m)
    (hf : ∀ a, KeepsVerbose (f a)) : KeepsVerbose (m >>= f) := by
  intro w
  have h1 := hm w
  rw [bind_apply]
  unfold Exec.bind
  cases h : m w with
  | ok a w1 =>
    rw [h] at h1
    simpa [Res.world] using (hf a w1).trans h1
  | panic w1 => rw [h] at h1; simpa [Res.world] using h1
  | exit c w1 => rw [h] at h1; simpa [Res.world] using h1

theorem keeps_assertFloat64 (v : Value) : KeepsVerbose (assertFloat64 v) := by
  intro w; cases v <;> rfl

theorem keeps_assertString (v : Value) : KeepsVerbose (assertString v) := by
  intro w; cases v <;> rfl

theorem keeps_setPoolElement (f : PoolInfo → PoolInfo) : KeepsVerbose (setPoolElement f) :=
  fun _ => rfl

theorem keeps_selectOutput (p : Params) : KeepsVerbose (selectOutput p) := by
  intro w
  unfold selectOutput
  split
  · rfl
  · split <;> rfl

/-- A sequence that starts with `Verbose.Println line` and writes no further
line ends, however it ends, with exactly that line added. -/
theorem verbose_first {α : Type} (line : String) (f : Unit → Exec α)
    (hf : ∀ u, KeepsVerbose (f u)) (w : World) :
    ((VerbosePrintln line >>= f) w).world.verbose = w.verbose ++ [line] := by
  rw [bind_apply]
  simp only [Exec.bind, VerbosePrintln]
  exact hf () _

theorem allFlashBranch_verbose (p : Params) (m : List (String × Value)) (avail : F64)
    (w : World) :
    (allFlashBranch p m avail w).world.verbose = w.verbose ++ ["All FMC Pool (All flash Pool)"] := by
  unfold allFlashBranch
  apply verbose_first
  intro u
  repeat (first
    | exact keeps_selectOutput p
    | (apply keeps_bind (keeps_assertFloat64 _); intro _)
    | (apply keeps_bind (keeps_assertString _); intro _)
    | (apply keeps_bind (keeps_setPoolElement _); intro _))

theorem mixedBranch_verbose (p : Params) (m : List (String × Value)) (avail : F64)
    (w : World) :
    (mixedBranch p m avail w).world.verbose = w.verbose ++ ["FMC containing Pool"] := by
  unfold mixedBranch
  apply verbose_first
  intro u
  repeat (first
    | exact keeps_selectOutput p
    | (apply keeps_bind (keeps_assertFloat64 _); intro _)
    | (apply keeps_bind (keeps_assertString _); intro _)
    | (apply keeps_bind (keeps_setPoolElement _); intro _))

/-- The head of the loop body on a record whose `poolId` is a number, whose
`poolName` is a string and whose effective free capacity reads as `avail`. -/
theorem poolRecord_head (p : Params) (m : List (String × Value)) (w : World)
    (poolId : F64) (poolName : String) (avail : F64)
    (hid : index m "poolId" = .float64 poolId)
    (hname : index m "poolName" = .string poolName)
    (hfree : effectiveFree m w = .ok avail w) :
    poolRecord p m w = poolBranches p m avail w := by
  simp only [poolRecord, bind_apply, Exec.bind, assertFloat64, assertString, hid, hname, hfree]


theorem selectOutput_eq (p : Params) (w : World) :
    selectOutput p w = .ok () (afterOutput p w) := by
  unfold afterOutput selectOutput
  split
  · rfl
  · split <;> rfl

theorem afterOutput_poolElement (p : Params) (w : World) :
    (afterOutput p w).PoolElement = w.PoolElement := by
  unfold afterOutput selectOutput
  split
  · rfl
  · split <;> rfl

theorem afterOutput_verbose (p : Params) (w : World) :
    (afterOutput p w).verbose = w.verbose := keeps_selectOutput p w

theorem afterOutput_emitted (p : Params) (w0 w : World) (hO : w.OutData = w0.OutData)
    (hR : w.rendered = w0.rendered) :
    EmittedBlock p w0 (afterOutput p w) w.PoolElement := by
  unfold afterOutput
  constructor
  · intro h
    simp [selectOutput, h, OutputStandardFormat, bind_apply, Exec.bind, pure_apply, Res.world, hR]
  · intro h
    have h1 : ¬ p.OutputStyle = "stdout" := by rw [h]; decide
    simp [selectOutput, h, Res.world, hR, hO, PoolInfoFormatCSV]

theorem allFlashBranch_run (p : Params) (m : List (String × Value)) (r : FMCNumbers) (w : World)
    (h : HasFMCFields m r) :
    allFlashBranch p m r.effectiveFree w =
      .ok () (afterOutput p { w with
        verbose := w.verbose ++ ["All FMC Pool (All flash Pool)"]
        PoolElement := fmcElement p w.PoolElement r }) := by
  obtain ⟨hid, hname, _, htp, _, hup, hT, huf, hupf⟩ := h
  simp only [allFlashBranch, bind_apply, Exec.bind, VerbosePrintln, assertFloat64, assertString,
    setPoolElement, hid, hname, htp, hup, hT, huf, hupf, fmcElement, selectOutput_eq]

theorem mixedBranch_run (p : Params) (m : List (String × Value)) (r : FMCNumbers) (w : World)
    (h : HasFMCFields m r) :
    mixedBranch p m r.effectiveFree w =
      .ok () (afterOutput p { w with
        verbose := w.verbose ++ ["FMC containing Pool"]
        PoolElement := fmcElement p w.PoolElement r }) := by
  obtain ⟨hid, hname, _, htp, _, hup, hT, huf, hupf⟩ := h
  simp only [mixedBranch, bind_apply, Exec.bind, VerbosePrintln, assertFloat64, assertString,
    setPoolElement, hid, hname, htp, hup, hT, huf, hupf, fmcElement, selectOutput_eq]

theorem tieredBranch_run (p : Params) (m : List (String × Value)) (r : PlainNumbers) (w : World)
    (h : HasPlainFields m r) :
    tieredBranch p m r.effectiveFree w =
      .ok () (afterOutput p { w with
        verbose := w.verbose ++ ["No FMC HDT Pool"]
        PoolElement := tieredElement p w.PoolElement r }) := by
  obtain ⟨hid, hname, _, _, _, hT⟩ := h
  simp only [tieredBranch, bind_apply, Exec.bind, VerbosePrintln, assertFloat64, assertString,
    setPoolElement, hid, hname, hT, tieredElement, selectOutput_eq]

theorem hdpBranch_run (p : Params) (m : List (String × Value)) (r : PlainNumbers) (w : World)
    (h : HasPlainFields m r) :
    hdpBranch p m r.effectiveFree w =
      .ok () (afterOutput p { w with
        verbose := w.verbose ++ ["No FMC HDP Pool"]
        PoolElement := thinElement p w.PoolElement r }) := by
  obtain ⟨hid, hname, _, _, _, hT⟩ := h
  simp only [hdpBranch, bind_apply, Exec.bind, VerbosePrintln, assertFloat64, assertString,
    setPoolElement, hid, hname, hT, thinElement, selectOutput_eq]

theorem htiBranch_run (p : Params) (m : List (String × Value)) (r : PlainNumbers) (w : World)
    (h : HasPlainFields m r) :
    htiBranch p m r.effectiveFree w =
      .ok () (afterOutput p { w with
        verbose := w.verbose ++ ["No FMC HTI Pool"]
        PoolElement := thinElement p w.PoolElement r }) := by
  obtain ⟨hid, hname, _, _, _, hT⟩ := h
  simp only [htiBranch, bind_apply, Exec.bind, VerbosePrintln, assertFloat64, assertString,
    setPoolElement, hid, hname, hT, thinElement, selectOutput_eq]

/-- The loop body on a record with the FMC elements. -/
theorem poolRecord_fmc (p : Params) (m : List (String × Value)) (r : FMCNumbers) (w : World)
    (h : HasFMCFields m r) :
    poolRecord p m w =
      .ok () (afterOutput p { w with
        verbose := w.verbose ++
          [if F64.eq r.totalPhysicalCapacity r.availablePhysicalFMCPoolVolumesCapacity = true
            then "All FMC Pool (All flash Pool)" else "FMC containing Pool"]
        PoolElement := fmcElement p w.PoolElement r }) := by
  have h0 := h
  obtain ⟨hid, hname, hfree, htp, hapf, _, _, huf, _⟩ := h
  rw [poolRecord_head p m w r.poolId r.poolName r.effectiveFree hid hname (hfree w)]
  simp only [poolBranches, huf, Value.notNil, if_true, bind_apply, Exec.bind, assertFloat64,
    htp, hapf]
  split
  · exact allFlashBranch_run p m r w h0
  · exact mixedBranch_run p m r w h0

/-- The loop body on a record without FMC elements of a known pool type runs
one block only. -/
theorem poolRecord_plain (p : Params) (m : List (String × Value)) (r : PlainNumbers) (w : World)
    (h : HasPlainFields m r)
    (hpt : r.poolType = "RT" ∨ r.poolType = "HDT" ∨ r.poolType = "HDP" ∨ r.poolType = "HTI") :
    poolRecord p m w = plainBranch p m r w := by
  have h0 := h
  obtain ⟨hid, hname, hfree, hnil, hty, _⟩ := h
  rw [poolRecord_head p m w r.poolId r.poolName r.effectiveFree hid hname (hfree w)]
  have e1 := tieredBranch_run p m r w h0
  have e2 := hdpBranch_run p m r w h0
  have e3 := htiBranch_run p m r w h0
  rcases hpt with h1 | h1 | h1 | h1 <;> rw [h1] at hty <;>
    simp +decide only [poolBranches, hnil, Value.notNil, noFMCBranches, bind_apply, Exec.bind,
      assertString, hty, Value.eqString, plainBranch, h1, if_true, if_false, true_or, or_true,
      or_self, e1, e2, e3, pure_apply, Bool.false_eq_true]

/-! ## Signs -/

theorem digitChar_ne_minus (k : Nat) (h : k < 10) : Nat.digitChar k ≠ '-' := by
  interval_cases k <;> decide

theorem toDigitsCore_no_minus (fuel : Nat) :
    ∀ (n : Nat) (acc : List Char), (∀ c ∈ acc, c ≠ '-') →
      ∀ c ∈ Nat.toDigitsCore 10 fuel n acc, c ≠ '-' := by
  induction fuel with
  | zero => intro n acc h; simpa [Nat.toDigitsCore] using h
  | succ f ih =>
    intro n acc h
    have hacc : ∀ c ∈ Nat.digitChar (n % 10) :: acc, c ≠ '-' := by
      intro c hc
      rcases List.mem_cons.1 hc with rfl | hc
      · exact digitChar_ne_minus _ (Nat.mod_lt _ (by decide))
      · exact h c hc
    unfold Nat.toDigitsCore
    simp only
    split
    · exact hacc
    · exact ih _ _ hacc

theorem toDigitsCore_ne_nil (fuel : Nat) :
    ∀ (n : Nat) (acc : List Char), acc ≠ [] → Nat.toDigitsCore 10 fuel n acc ≠ [] := by
  induction fuel with
  | zero => intro n acc h; simpa [Nat.toDigitsCore] using h
  | succ f ih =>
    intro n acc _
    unfold Nat.toDigitsCore
    simp only
    split
    · exact List.cons_ne_nil _ _
    · exact ih _ _ (List.cons_ne_nil _ _)

/-- The decimal digits of a natural number start with a character other than `-`. -/
theorem repr_head (n : Nat) : ∃ c cs, (Nat.repr n).data = c :: cs ∧ c ≠ '-' := by
  have h1 : ∀ c ∈ Nat.toDigits 10 n, c ≠ '-' := by
    unfold Nat.toDigits
    exact toDigitsCore_no_minus _ _ _ (by simp)
  have h2 : Nat.toDigits 10 n ≠ [] := by
    unfold Nat.toDigits Nat.toDigitsCore
    simp only
    split
    · exact List.cons_ne_nil _ _
    · exact toDigitsCore_ne_nil _ _ _ (List.cons_ne_nil _ _)
  have h3 : (Nat.repr n).data = Nat.toDigits 10 n := rfl
  rw [h3]
  cases h : Nat.toDigits 10 n with
  | nil => exact absurd h h2
  | cons c cs => exact ⟨c, cs, rfl, h1 c (by rw [h]; exact List.mem_cons_self _ _)⟩

/-- A value that `FormatFloat` writes as `-1.00` is finite, has the sign bit set
and is not zero. -/
theorem formatFloat_sentinel (x : F64) (h : FormatFloat x 2 = "-1.00") :
    ∃ m e, x = F64.fin true m e ∧ m ≠ 0 := by
  cases x with
  | nan => exact absurd h (by decide)
  | inf s => cases s <;> exact absurd h (by decide)
  | fin s m e =>
    cases s with
    | false =>
      exfalso
      simp only [FormatFloat] at h
      obtain ⟨c, cs, hc, hne⟩ := repr_head
        ((if F64.shiftUp 1 (-e) < 2 * (F64.shiftUp (m * 10 ^ 2) e % F64.shiftUp 1 (-e)) ∨
            2 * (F64.shiftUp (m * 10 ^ 2) e % F64.shiftUp 1 (-e)) = F64.shiftUp 1 (-e) ∧
              F64.shiftUp (m * 10 ^ 2) e / F64.shiftUp 1 (-e) % 2 = 1
          then F64.shiftUp (m * 10 ^ 2) e / F64.shiftUp 1 (-e) + 1
          else F64.shiftUp (m * 10 ^ 2) e / F64.shiftUp 1 (-e)) / 10 ^ 2)
      have h2 := congrArg String.data h
      simp only [String.data_append, hc] at h2
      simp at h2
      exact hne h2.1
    | true =>
      refine ⟨m, e, rfl, ?_⟩
      rintro rfl
      have : FormatFloat (F64.fin true 0 e) 2 = "-0.00" := by
        simp [FormatFloat, F64.shiftUp]
        decide
      rw [this] at h
      exact absurd h (by decide)

theorem shiftUp_eq_zero (m : Nat) (k : Int) : F64.shiftUp m k = 0 ↔ m = 0 := by
  unfold F64.shiftUp
  constructor
  · intro h
    rcases Nat.mul_eq_zero.1 h with h | h
    · exact h
    · exact absurd h (by positivity)
  · rintro rfl; simp

theorem ge_zero_iff_nonneg (x : F64) : F64.ge x F64.zero = true ↔ F64.NonNeg x := by
  cases x with
  | nan => simp [F64.ge, F64.lt, F64.eq, F64.zero, F64.NonNeg]
  | inf s => cases s <;> simp [F64.ge, F64.lt, F64.eq, F64.zero, F64.NonNeg]
  | fin s m e =>
    have h0 : ∀ k : Int, F64.shiftUp 0 k = 0 := fun k => (shiftUp_eq_zero 0 k).2 rfl
    have h1 := shiftUp_eq_zero m (e - min 0 e)
    have h2 := shiftUp_eq_zero m (e - min e 0)
    cases s
    · simp [F64.ge, F64.lt, F64.eq, F64.zero, F64.NonNeg, h0]
      omega
    · simp [F64.ge, F64.lt, F64.eq, F64.zero, F64.NonNeg, h0]

theorem round_zero (s : Bool) (d : Nat) : F64.round s 0 d = F64.fin s 0 0 := by
  simp [F64.round]

theorem round_sign (s : Bool) (n d : Nat) :
    (∃ m e, F64.round s n d = F64.fin s m e) ∨ F64.round s n d = F64.inf s := by
  unfold F64.round
  simp only
  split_ifs <;> first | exact Or.inl ⟨_, _, rfl⟩ | exact Or.inr rfl

theorem nonneg_round_false (n d : Nat) : F64.NonNeg (F64.round false n d) := by
  rcases round_sign false n d with ⟨m, e, h⟩ | h
  · rw [h]; simp [F64.NonNeg]
  · rw [h]; simp [F64.NonNeg]

/-- A quotient of a non-negative value by a finite positive one is non-negative. -/
theorem nonneg_div (x : F64) (m : Nat) (e : Int) (hx : F64.NonNeg x) (hm : m ≠ 0) :
    F64.NonNeg (F64.div x (F64.fin false m e)) := by
  cases x with
  | nan => exact absurd hx (by simp [F64.NonNeg])
  | inf s => simpa [F64.div, F64.NonNeg] using hx
  | fin s1 m1 e1 =>
    simp only [F64.div, hm, if_false, Bool.xor_false]
    rcases hx with h | h
    · rw [h]; exact nonneg_round_false _ _
    · rw [h]
      have : F64.shiftUp (F64.shiftUp 0 e1) (-e) = 0 := by simp [F64.shiftUp]
      rw [this, round_zero]
      simp [F64.NonNeg]

/-- A difference `x - y` of finite values with `x >= y` is non-negative. -/
theorem nonneg_sub (x y : F64) (hx : x.isFinite = true) (hy : y.isFinite = true)
    (h : F64.ge x y = true) : F64.NonNeg (F64.sub x y) := by
  cases x with
  | nan => simp [F64.isFinite] at hx
  | inf s => simp [F64.isFinite] at hx
  | fin s1 m1 e1 =>
    cases y with
    | nan => simp [F64.isFinite] at hy
    | inf s => simp [F64.isFinite] at hy
    | fin s2 m2 e2 =>
      simp only [F64.sub, F64.neg, F64.add]
      simp only [F64.ge, F64.lt, F64.eq] at h
      rw [min_comm e2 e1] at h
      have hA := shiftUp_eq_zero m1 (e1 - min e1 e2)
      have hB := shiftUp_eq_zero m2 (e2 - min e1 e2)
      generalize F64.shiftUp m1 (e1 - min e1 e2) = A at h hA ⊢
      generalize F64.shiftUp m2 (e2 - min e1 e2) = B at h hB ⊢
      have hnn : ¬ ((if s1 = true then -(A : Int) else (A : Int)) +
          (if (!s2) = true then -(B : Int) else (B : Int)) < 0) := by
        cases s1 <;> cases s2 <;> simp at h ⊢ <;> omega
      generalize (if s1 = true then -(A : Int) else (A : Int)) +
          (if (!s2) = true then -(B : Int) else (B : Int)) = c at hnn ⊢
      by_cases hc : c = 0
      · rw [if_pos hc]; exact Or.inr rfl
      · rw [if_neg hc, decide_eq_false hnn]
        exact nonneg_round_false _ _


/-! ## What the loop body leaves behind -/

/-- On a record with the FMC elements the loop body returns, leaves the
`PoolElement` of the FMC formulas and emits its block. -/
theorem poolRecord_fmc_facts (p : Params) (m : List (String × Value)) (r : FMCNumbers)
    (w : World) (h : HasFMCFields m r) :
    (poolRecord p m w).isOk = true ∧
    emittedElement p m w = fmcElement p w.PoolElement r ∧
    EmittedBlock p w (poolRecord p m w).world (emittedElement p m w) := by
  unfold emittedElement
  rw [poolRecord_fmc p m r w h]
  refine ⟨rfl, ?_, ?_⟩
  · simp only [Res.world, afterOutput_poolElement]
  · simp only [Res.world, afterOutput_poolElement]
    exact afterOutput_emitted p w _ rfl rfl

/-- On a record without FMC elements of type `RT` or `HDT` the loop body
returns, writes the line of the tiered block, leaves the `PoolElement` of its
formulas and emits its block. -/
theorem poolRecord_tiered_facts (p : Params) (m : List (String × Value)) (r : PlainNumbers)
    (w : World) (h : HasPlainFields m r) (ht : r.poolType = "RT" ∨ r.poolType = "HDT") :
    (poolRecord p m w).isOk = true ∧
    (poolRecord p m w).world.verbose = w.verbose ++ ["No FMC HDT Pool"] ∧
    emittedElement p m w = tieredElement p w.PoolElement r ∧
    EmittedBlock p w (poolRecord p m w).world (emittedElement p m w) := by
  have hpt : r.poolType = "RT" ∨ r.poolType = "HDT" ∨ r.poolType = "HDP" ∨ r.poolType = "HTI" := by
    rcases ht with h1 | h1
    · exact Or.inl h1
    · exact Or.inr (Or.inl h1)
  have e : plainBranch p m r w = tieredBranch p m r.effectiveFree w := by
    unfold plainBranch
    rw [if_pos ht]
  unfold emittedElement
  rw [poolRecord_plain p m r w h hpt, e, tieredBranch_run p m r w h]
  refine ⟨rfl, ?_, ?_, ?_⟩
  · simp only [Res.world, afterOutput_verbose]
  · simp only [Res.world, afterOutput_poolElement]
  · simp only [Res.world, afterOutput_poolElement]
    exact afterOutput_emitted p w _ rfl rfl

/-- On a record without FMC elements of type `HDP` or `HTI` the loop body
returns, writes the line of that block, leaves the `PoolElement` of its
formulas and emits its block. -/
theorem poolRecord_thin_facts (p : Params) (m : List (String × Value)) (r : PlainNumbers)
    (w : World) (h : HasPlainFields m r) (ht : r.poolType = "HDP" ∨ r.poolType = "HTI") :
    (poolRecord p m w).isOk = true ∧
    (poolRecord p m w).world.verbose =
      w.verbose ++ [if r.poolType = "HDP" then "No FMC HDP Pool" else "No FMC HTI Pool"] ∧
    emittedElement p m w = thinElement p w.PoolElement r ∧
    EmittedBlock p w (poolRecord p m w).world (emittedElement p m w) := by
  have hpt : r.poolType = "RT" ∨ r.poolType = "HDT" ∨ r.poolType = "HDP" ∨ r.poolType = "HTI" := by
    rcases ht with h1 | h1
    · exact Or.inr (Or.inr (Or.inl h1))
    · exact Or.inr (Or.inr (Or.inr h1))
  unfold emittedElement
  rw [poolRecord_plain p m r w h hpt]
  rcases ht with h1 | h1
  · have k : ¬ (r.poolType = "RT" ∨ r.poolType = "HDT") := by rw [h1]; decide
    have e : plainBranch p m r w = hdpBranch p m r.effectiveFree w := by
      unfold plainBranch
      rw [if_neg k, if_pos h1]
    rw [e, hdpBranch_run p m r w h, if_pos h1]
    refine ⟨rfl, ?_, ?_, ?_⟩
    · simp only [Res.world, afterOutput_verbose]
    · simp only [Res.world, afterOutput_poolElement]
    · simp only [Res.world, afterOutput_poolElement]
      exact afterOutput_emitted p w _ rfl rfl
  · have k : ¬ (r.poolType = "RT" ∨ r.poolType = "HDT") := by rw [h1]; decide
    have k2 : ¬ (r.poolType = "HDP") := by rw [h1]; decide
    have e : plainBranch p m r w = htiBranch p m r.effectiveFree w := by
      unfold plainBranch
      rw [if_neg k, if_neg k2]
    rw [e, htiBranch_run p m r w h, if_neg k2]
    refine ⟨rfl, ?_, ?_, ?_⟩
    · simp only [Res.world, afterOutput_verbose]
    · simp only [Res.world, afterOutput_poolElement]
    · simp only [Res.world, afterOutput_poolElement]
      exact afterOutput_emitted p w _ rfl rfl

/-- Scenario A is a record with the FMC elements. -/
theorem scenarioA_fields : HasFMCFields scenarioA scenarioANumbers :=
  ⟨rfl, rfl, fun _ => rfl, rfl, rfl, rfl, rfl, rfl, rfl⟩

/-- The record `overfullRecord` has the FMC elements. -/
theorem overfull_fields : HasFMCFields overfullRecord overfullNumbers :=
  ⟨rfl, rfl, fun _ => rfl, rfl, rfl, rfl, rfl, rfl, rfl⟩

/-- Every `plainRecord` is a record without FMC elements. -/
theorem plainRecord_fields (poolType : String) (total free : Nat) :
    HasPlainFields (plainRecord poolType total free) (plainNumbers poolType total free) :=
  ⟨rfl, rfl, fun _ => rfl, rfl, rfl, rfl⟩

/-- The rows a CSV block adds are ten. -/
theorem csv_block_length (e : PoolInfo) (p : Params) :
    (PoolInfoFormatCSV [] e p).1.length = 10 := rfl


/-- A finite value that is `>= 0` and not `== 0` has a clear sign bit and a
non-zero mantissa. -/
theorem pos_of_nonneg_ne_zero (y : F64) (hf : y.isFinite = true) (hn : F64.NonNeg y)
    (hz : F64.eq y F64.zero = false) : ∃ m e, y = F64.fin false m e ∧ m ≠ 0 := by
  cases y with
  | nan => simp [F64.isFinite] at hf
  | inf s => simp [F64.isFinite] at hf
  | fin s m e =>
    have hm : m ≠ 0 := by
      rintro rfl
      simp [F64.eq, F64.zero] at hz
    rcases hn with h | h
    · exact ⟨m, e, by rw [h], hm⟩
    · exact absurd h hm

/-- A quotient of a non-negative value by a finite non-negative one (zero
included) is never a finite value below zero. -/
theorem div_not_negative (x y : F64) (hx : F64.NonNeg x) (hf : y.isFinite = true)
    (hy : F64.NonNeg y) : ¬ ∃ m e, F64.div x y = F64.fin true m e ∧ m ≠ 0 := by
  rintro ⟨m, e, hd, hm⟩
  cases y with
  | nan => simp [F64.isFinite] at hf
  | inf s => simp [F64.isFinite] at hf
  | fin s2 m2 e2 =>
    by_cases h2 : m2 = 0
    · subst h2
      cases x with
      | nan => simp [F64.div] at hd
      | inf s => simp [F64.div] at hd
      | fin s1 m1 e1 =>
        simp only [F64.div, if_true] at hd
        split at hd <;> simp at hd
    · have hs : s2 = false := by
        rcases hy with h | h
        · exact h
        · exact absurd h h2
      subst hs
      have hnn := nonneg_div x m2 e2 hx h2
      rw [hd] at hnn
      rcases hnn with h | h
      · simp at h
      · exact hm h

/-- The capacities of Scenario A are finite and non-negative. -/
theorem scenarioA_nonneg : NonNegativeCapacities scenarioANumbers := by
  intro x hx
  simp only [scenarioANumbers, List.mem_cons, List.mem_singleton, List.not_mem_nil, or_false] at hx
  rcases hx with h | h | h | h | h | h | h <;> rw [h] <;> decide

/-- The capacities of `overfullRecord` are finite and non-negative. -/
theorem overfull_nonneg : NonNegativeCapacities overfullNumbers := by
  intro x hx
  simp only [overfullNumbers, List.mem_cons, List.mem_singleton, List.not_mem_nil, or_false] at hx
  rcases hx with h | h | h | h | h | h | h <;> rw [h] <;> decide

/-! ## C1 -/

/-- C1. The effective free capacity is read from `availablePhysicalVolumeCapacity`
when that element is not nil and from `availableVolumeCapacity` otherwise, and
the loop body hands exactly this value to the code of every branch. -/
theorem C1_effective_free_fallback (p : Params) (m : List (String × Value)) :
    effectiveFree m =
      assertFloat64
        (if (index m "availablePhysicalVolumeCapacity").notNil = true
          then index m "availablePhysicalVolumeCapacity"
          else index m "availableVolumeCapacity") ∧
    poolRecord p m =
      (assertFloat64 (index m "poolId") >>= fun _ =>
        assertString (index m "poolName") >>= fun _ =>
          assertFloat64
            (if (index m "availablePhysicalVolumeCapacity").notNil = true
              then index m "availablePhysicalVolumeCapacity"
              else index m "availableVolumeCapacity") >>= fun free =>
            poolBranches p m free) := by
  have h : effectiveFree m =
      assertFloat64
        (if (index m "availablePhysicalVolumeCapacity").notNil = true
          then index m "availablePhysicalVolumeCapacity"
          else index m "availableVolumeCapacity") := by
    unfold effectiveFree
    split <;> rfl
  refine ⟨h, ?_⟩
  rw [← h]
  rfl

/-! ## C2 -/

/-- C2. On a record with `usedFMCPoolVolumesCapacity` the FMC test comes first:
the all-flash branch runs when `totalPhysicalCapacity ==
availablePhysicalFMCPoolVolumesCapacity` and the mixed branch otherwise, and
the line written through `Verbose.Println` is that of the branch; `poolType`
is not looked at. -/
theorem C2_fmc_test_first (p : Params) (m : List (String × Value)) (w : World)
    (poolId : F64) (poolName : String) (avail tp apf : F64)
    (hid : index m "poolId" = .float64 poolId)
    (hname : index m "poolName" = .string poolName)
    (hfree : effectiveFree m w = .ok avail w)
    (hfmc : (index m "usedFMCPoolVolumesCapacity").notNil = true)
    (htp : index m "totalPhysicalCapacity" = .float64 tp)
    (hapf : index m "availablePhysicalFMCPoolVolumesCapacity" = .float64 apf) :
    poolRecord p m w =
      (if F64.eq tp apf = true then allFlashBranch p m avail w else mixedBranch p m avail w) ∧
    (poolRecord p m w).world.verbose =
      w.verbose ++
        [if F64.eq tp apf = true then "All FMC Pool (All flash Pool)" else "FMC containing Pool"] := by
  have h : poolRecord p m w =
      (if F64.eq tp apf = true then allFlashBranch p m avail w else mixedBranch p m avail w) := by
    rw [poolRecord_head p m w poolId poolName avail hid hname hfree]
    simp only [poolBranches, hfmc, if_true, bind_apply, Exec.bind, assertFloat64, htp, hapf]
    split <;> rfl
  refine ⟨h, ?_⟩
  rw [h]
  split
  · exact allFlashBranch_verbose p m avail w
  · exact mixedBranch_verbose p m avail w

/-- Witness of C2 on Scenario A: the record has `usedFMCPoolVolumesCapacity`, its
two compared capacities are equal, and the line of the all-flash branch is the
one written. -/
theorem C2_fmc_test_first_witness :
    (index scenarioA "usedFMCPoolVolumesCapacity").notNil = true ∧
    F64.eq (F64.ofNat 4910262) (F64.ofNat 4910262) = true ∧
    (poolRecord (mainParams "stdout") scenarioA World.init).world.verbose =
      World.init.verbose ++
        [if F64.eq (F64.ofNat 4910262) (F64.ofNat 4910262) = true
          then "All FMC Pool (All flash Pool)" else "FMC containing Pool"] :=
  ⟨rfl, by decide,
    (C2_fmc_test_first (mainParams "stdout") scenarioA World.init (F64.ofNat 20) "FMC_HDP"
      (F64.ofNat 8838690) (F64.ofNat 4910262) (F64.ofNat 4910262) rfl rfl rfl rfl rfl rfl).2⟩

/-! ## C3 -/

/-- C3. A record without `usedFMCPoolVolumesCapacity` whose `poolType` is `RT`,
`HDT`, `HDP` or `HTI` runs exactly one of the three blocks (the tiered one for
`RT` and `HDT`, the thin-provisioning one for `HDP`, the thin-image one for
`HTI`): the loop body is that block alone, it returns, it writes the one line
of that block, and it emits one block of rows (ten rows in `csv` mode, one
rendered table in `stdout` mode). -/
theorem C3_plain_record_one_block (p : Params) (m : List (String × Value)) (r : PlainNumbers)
    (w : World) (h : HasPlainFields m r)
    (hpt : r.poolType = "RT" ∨ r.poolType = "HDT" ∨ r.poolType = "HDP" ∨ r.poolType = "HTI") :
    poolRecord p m w =
      (if r.poolType = "RT" ∨ r.poolType = "HDT" then tieredBranch p m r.effectiveFree w
       else if r.poolType = "HDP" then hdpBranch p m r.effectiveFree w
       else htiBranch p m r.effectiveFree w) ∧
    (poolRecord p m w).isOk = true ∧
    (poolRecord p m w).world.verbose =
      w.verbose ++
        [if r.poolType = "RT" ∨ r.poolType = "HDT" then "No FMC HDT Pool"
         else if r.poolType = "HDP" then "No FMC HDP Pool" else "No FMC HTI Pool"] ∧
    EmittedBlock p w (poolRecord p m w).world (emittedElement p m w) ∧
    (p.OutputStyle = "csv" →
      (poolRecord p m w).world.OutData.length = w.OutData.length + 10) ∧
    (p.OutputStyle = "stdout" →
      (poolRecord p m w).world.rendered.length = w.rendered.length + 1) := by
  have hrun : poolRecord p m w =
      (if r.poolType = "RT" ∨ r.poolType = "HDT" then tieredBranch p m r.effectiveFree w
       else if r.poolType = "HDP" then hdpBranch p m r.effectiveFree w
       else htiBranch p m r.effectiveFree w) := by
    rw [poolRecord_plain p m r w h hpt]
    unfold plainBranch
    split
    · rfl
    · split <;> rfl
  have hfacts : (poolRecord p m w).isOk = true ∧
      (poolRecord p m w).world.verbose =
        w.verbose ++
          [if r.poolType = "RT" ∨ r.poolType = "HDT" then "No FMC HDT Pool"
           else if r.poolType = "HDP" then "No FMC HDP Pool" else "No FMC HTI Pool"] ∧
      EmittedBlock p w (poolRecord p m w).world (emittedElement p m w) := by
    by_cases ht : r.poolType = "RT" ∨ r.poolType = "HDT"
    · obtain ⟨a, b, _, d⟩ := poolRecord_tiered_facts p m r w h ht
      rw [if_pos ht]
      exact ⟨a, b, d⟩
    · have ht2 : r.poolType = "HDP" ∨ r.poolType = "HTI" := by
        rcases hpt with h1 | h1 | h1 | h1
        · exact absurd (Or.inl h1) ht
        · exact absurd (Or.inr h1) ht
        · exact Or.inl h1
        · exact Or.inr h1
      obtain ⟨a, b, _, d⟩ := poolRecord_thin_facts p m r w h ht2
      rw [if_neg ht]
      exact ⟨a, b, d⟩
  obtain ⟨a, b, d⟩ := hfacts
  refine ⟨hrun, a, b, d, ?_, ?_⟩
  · intro hc
    rw [(d.2 hc).1, List.length_append, csv_block_length]
  · intro hs
    rw [d.1 hs, List.length_append]
    rfl

/-- Witness of C3: an `HDP` pool of 11739672 MiB with 2808204 MiB free, in `csv`
mode, adds its ten rows to the rows collected so far. -/
theorem C3_plain_record_one_block_witness :
    HasPlainFields (plainRecord "HDP" 11739672 2808204) (plainNumbers "HDP" 11739672 2808204) ∧
    (poolRecord (mainParams "csv") (plainRecord "HDP" 11739672 2808204) World.init).isOk = true ∧
    (poolRecord (mainParams "csv") (plainRecord "HDP" 11739672 2808204)
      World.init).world.OutData.length = World.init.OutData.length + 10 :=
  ⟨plainRecord_fields "HDP" 11739672 2808204,
    (C3_plain_record_one_block (mainParams "csv") (plainRecord "HDP" 11739672 2808204)
      (plainNumbers "HDP" 11739672 2808204) World.init (plainRecord_fields "HDP" 11739672 2808204)
      (Or.inr (Or.inr (Or.inl rfl)))).2.1,
    (C3_plain_record_one_block (mainParams "csv") (plainRecord "HDP" 11739672 2808204)
      (plainNumbers "HDP" 11739672 2808204) World.init (plainRecord_fields "HDP" 11739672 2808204)
      (Or.inr (Or.inr (Or.inl rfl)))).2.2.2.2.1 rfl⟩

/-! ## C4 -/

set_option maxRecDepth 100000 in
/-- C4. A record with the FMC elements (either FMC branch), at precision 2: the
loop body returns, emits the block of its `PoolElement`, and that element holds
`FormatFloat` at 2 decimals of `totalPhysicalCapacity/1024`,
`usedPhysicalCapacity/1024`, `effectiveFree/1024`,
`usedFMCPoolVolumesCapacity/usedPhysicalFMCPoolVolumesCapacity` and
`(totalPoolCapacity - effectiveFree)/usedPhysicalCapacity` (also when a divisor
is zero); on Scenario A these five are 4795.18, 309.09, 8631.53, 3.87, 3.87. -/
theorem C4_fmc_values (p : Params) (m : List (String × Value)) (r : FMCNumbers) (w : World)
    (hp : p.RoundPrecision = 2) (h : HasFMCFields m r) :
    ((poolRecord p m w).isOk = true ∧
      EmittedBlock p w (poolRecord p m w).world (emittedElement p m w) ∧
      (emittedElement p m w).totalPhysicalCapacity =
        FormatFloat (F64.div r.totalPhysicalCapacity Mb2Gb) 2 ∧
      (emittedElement p m w).usedPhysicalCapacity =
        FormatFloat (F64.div r.usedPhysicalCapacity Mb2Gb) 2 ∧
      (emittedElement p m w).availablePhysicalVolumeCapacity =
        FormatFloat (F64.div r.effectiveFree Mb2Gb) 2 ∧
      (emittedElement p m w).FMCCompressionRatio =
        FormatFloat
          (F64.div r.usedFMCPoolVolumesCapacity r.usedPhysicalFMCPoolVolumesCapacity) 2 ∧
      (emittedElement p m w).CompressionRatioTotal =
        FormatFloat
          (F64.div (F64.sub r.totalPoolCapacity r.effectiveFree) r.usedPhysicalCapacity) 2) ∧
    ((emittedElement (mainParams "stdout") scenarioA World.init).totalPhysicalCapacity = "4795.18" ∧
      (emittedElement (mainParams "stdout") scenarioA World.init).usedPhysicalCapacity = "309.09" ∧
      (emittedElement (mainParams "stdout") scenarioA World.init).availablePhysicalVolumeCapacity =
        "8631.53" ∧
      (emittedElement (mainParams "stdout") scenarioA World.init).FMCCompressionRatio = "3.87" ∧
      (emittedElement (mainParams "stdout") scenarioA World.init).CompressionRatioTotal =
        "3.87") := by
  obtain ⟨a, b, c⟩ := poolRecord_fmc_facts p m r w h
  refine ⟨⟨a, c, ?_, ?_, ?_, ?_, ?_⟩, ?_, ?_, ?_, ?_, ?_⟩
  · rw [b]; simp only [fmcElement, hp]
  · rw [b]; simp only [fmcElement, hp]
  · rw [b]; simp only [fmcElement, hp]
  · rw [b]; simp only [fmcElement, hp]
  · rw [b]; simp only [fmcElement, hp]
  · decide
  · decide
  · decide
  · decide
  · decide

/-- Witness of C4 on Scenario A, with the parameters of `main`. -/
theorem C4_fmc_values_witness :
    (mainParams "stdout").RoundPrecision = 2 ∧ HasFMCFields scenarioA scenarioANumbers ∧
    (poolRecord (mainParams "stdout") scenarioA World.init).isOk = true ∧
    (emittedElement (mainParams "stdout") scenarioA World.init).totalPhysicalCapacity =
      FormatFloat (F64.div scenarioANumbers.totalPhysicalCapacity Mb2Gb) 2 :=
  ⟨rfl, scenarioA_fields,
    (C4_fmc_values (mainParams "stdout") scenarioA scenarioANumbers World.init rfl
      scenarioA_fields).1.1,
    (C4_fmc_values (mainParams "stdout") scenarioA scenarioANumbers World.init rfl
      scenarioA_fields).1.2.2.1⟩

/-! ## C5 -/

set_option maxRecDepth 100000 in
/-- C5. A record with the FMC elements, at precision 2: `Effective total GB
free` is `FormatFloat` at 2 decimals of `(effectiveFree/1024)` times
`RoundFloat64(totalCompressionRatio, 2)`, the ratio being
`(totalPoolCapacity - effectiveFree)/usedPhysicalCapacity`; on Scenario A it is
33404.03. -/
theorem C5_effective_gb_free (p : Params) (m : List (String × Value)) (r : FMCNumbers)
    (w : World) (hp : p.RoundPrecision = 2) (h : HasFMCFields m r) :
    (emittedElement p m w).EffectiveGBFree =
      FormatFloat
        (F64.mul (F64.div r.effectiveFree Mb2Gb)
          (RoundFloat64
            (F64.div (F64.sub r.totalPoolCapacity r.effectiveFree) r.usedPhysicalCapacity) 2))
        2 ∧
    (emittedElement (mainParams "stdout") scenarioA World.init).EffectiveGBFree = "33404.03" := by
  obtain ⟨_, b, _⟩ := poolRecord_fmc_facts p m r w h
  refine ⟨?_, ?_⟩
  · rw [b]; simp only [fmcElement, hp]
  · decide

/-- Witness of C5 on Scenario A, in `csv` mode. -/
theorem C5_effective_gb_free_witness :
    (mainParams "csv").RoundPrecision = 2 ∧ HasFMCFields scenarioA scenarioANumbers ∧
    (emittedElement (mainParams "csv") scenarioA World.init).EffectiveGBFree =
      FormatFloat
        (F64.mul (F64.div scenarioANumbers.effectiveFree Mb2Gb)
          (RoundFloat64
            (F64.div (F64.sub scenarioANumbers.totalPoolCapacity scenarioANumbers.effectiveFree)
              scenarioANumbers.usedPhysicalCapacity) 2))
        2 :=
  ⟨rfl, scenarioA_fields,
    (C5_effective_gb_free (mainParams "csv") scenarioA scenarioANumbers World.init rfl
      scenarioA_fields).1⟩

/-! ## C6 -/

/-- C6. A record without FMC elements of type `RT` or `HDT` (Tiered), at
precision 2: the element emitted holds `FormatFloat` at 2 decimals of
`totalPoolCapacity/1024`, of `(totalPoolCapacity - effectiveFree)/1024` and of
`effectiveFree/1024`, and `Effective total GB free` equals the free value. -/
theorem C6_tiered_values (p : Params) (m : List (String × Value)) (r : PlainNumbers) (w : World)
    (hp : p.RoundPrecision = 2) (h : HasPlainFields m r)
    (ht : r.poolType = "RT" ∨ r.poolType = "HDT") :
    (poolRecord p m w).isOk = true ∧
    EmittedBlock p w (poolRecord p m w).world (emittedElement p m w) ∧
    (emittedElement p m w).totalPhysicalCapacity =
      FormatFloat (F64.div r.totalPoolCapacity Mb2Gb) 2 ∧
    (emittedElement p m w).usedPhysicalCapacity =
      FormatFloat (F64.div (F64.sub r.totalPoolCapacity r.effectiveFree) Mb2Gb) 2 ∧
    (emittedElement p m w).availablePhysicalVolumeCapacity =
      FormatFloat (F64.div r.effectiveFree Mb2Gb) 2 ∧
    (emittedElement p m w).EffectiveGBFree =
      (emittedElement p m w).availablePhysicalVolumeCapacity := by
  obtain ⟨a, _, b, c⟩ := poolRecord_tiered_facts p m r w h ht
  refine ⟨a, c, ?_, ?_, ?_, ?_⟩
  · rw [b]; simp only [tieredElement, hp]
  · rw [b]; simp only [tieredElement, hp]
  · rw [b]; simp only [tieredElement, hp]
  · rw [b]; simp only [tieredElement, hp]

set_option maxRecDepth 100000 in
/-- Witness of C6: an `RT` pool of 12560520 MiB with 12181134 MiB free shows
12266.13, 370.49 and 11895.64 GB, and 11895.64 as effective free. -/
theorem C6_tiered_values_witness :
    (mainParams "stdout").RoundPrecision = 2 ∧
    HasPlainFields (plainRecord "RT" 12560520 12181134) (plainNumbers "RT" 12560520 12181134) ∧
    (emittedElement (mainParams "stdout") (plainRecord "RT" 12560520 12181134)
      World.init).usedPhysicalCapacity = "370.49" ∧
    (emittedElement (mainParams "stdout") (plainRecord "RT" 12560520 12181134)
      World.init).EffectiveGBFree = "11895.64" :=
  ⟨rfl, plainRecord_fields "RT" 12560520 12181134,
    ((C6_tiered_values (mainParams "stdout") (plainRecord "RT" 12560520 12181134)
      (plainNumbers "RT" 12560520 12181134) World.init rfl
      (plainRecord_fields "RT" 12560520 12181134) (Or.inl rfl)).2.2.2.1).trans (by decide),
    ((C6_tiered_values (mainParams "stdout") (plainRecord "RT" 12560520 12181134)
      (plainNumbers "RT" 12560520 12181134) World.init rfl
      (plainRecord_fields "RT" 12560520 12181134) (Or.inl rfl)).2.2.2.2.2).trans (by decide)⟩

/-! ## C7 -/

/-- C7. A record without FMC elements of type `HDP` or `HTI`, at precision 2:
the element emitted holds `FormatFloat` at 2 decimals of `totalPoolCapacity/1024`
as total, of `effectiveFree/1024` as free, of the difference of these two
quotients as used, and `Effective total GB free` is the free string itself. -/
theorem C7_thin_values (p : Params) (m : List (String × Value)) (r : PlainNumbers) (w : World)
    (hp : p.RoundPrecision = 2) (h : HasPlainFields m r)
    (ht : r.poolType = "HDP" ∨ r.poolType = "HTI") :
    (poolRecord p m w).isOk = true ∧
    EmittedBlock p w (poolRecord p m w).world (emittedElement p m w) ∧
    (emittedElement p m w).totalPhysicalCapacity =
      FormatFloat (F64.div r.totalPoolCapacity Mb2Gb) 2 ∧
    (emittedElement p m w).availablePhysicalVolumeCapacity =
      FormatFloat (F64.div r.effectiveFree Mb2Gb) 2 ∧
    (emittedElement p m w).usedPhysicalCapacity =
      FormatFloat
        (F64.sub (F64.div r.totalPoolCapacity Mb2Gb) (F64.div r.effectiveFree Mb2Gb)) 2 ∧
    (emittedElement p m w).EffectiveGBFree =
      (emittedElement p m w).availablePhysicalVolumeCapacity := by
  obtain ⟨a, _, b, c⟩ := poolRecord_thin_facts p m r w h ht
  refine ⟨a, c, ?_, ?_, ?_, ?_⟩
  · rw [b]; simp only [thinElement, hp]
  · rw [b]; simp only [thinElement, hp]
  · rw [b]; simp only [thinElement, hp]
  · rw [b]; simp only [thinElement, hp]

set_option maxRecDepth 100000 in
/-- Witness of C7: the `HDP` pool 0 of the test data kept in the source
(11739672 MiB, 2808204 MiB free) shows 11464.52 GB in total, 8722.14 used and
2742.39 free. -/
theorem C7_thin_values_witness :
    (mainParams "stdout").RoundPrecision = 2 ∧
    HasPlainFields (plainRecord "HDP" 11739672 2808204) (plainNumbers "HDP" 11739672 2808204) ∧
    (emittedElement (mainParams "stdout") (plainRecord "HDP" 11739672 2808204)
      World.init).totalPhysicalCapacity = "11464.52" ∧
    (emittedElement (mainParams "stdout") (plainRecord "HDP" 11739672 2808204)
      World.init).usedPhysicalCapacity = "8722.14" ∧
    (emittedElement (mainParams "stdout") (plainRecord "HDP" 11739672 2808204)
      World.init).EffectiveGBFree = "2742.39" :=
  ⟨rfl, plainRecord_fields "HDP" 11739672 2808204,
    ((C7_thin_values (mainParams "stdout") (plainRecord "HDP" 11739672 2808204)
      (plainNumbers "HDP" 11739672 2808204) World.init rfl
      (plainRecord_fields "HDP" 11739672 2808204) (Or.inl rfl)).2.2.1).trans (by decide),
    ((C7_thin_values (mainParams "stdout") (plainRecord "HDP" 11739672 2808204)
      (plainNumbers "HDP" 11739672 2808204) World.init rfl
      (plainRecord_fields "HDP" 11739672 2808204) (Or.inl rfl)).2.2.2.2.1).trans (by decide),
    ((C7_thin_values (mainParams "stdout") (plainRecord "HDP" 11739672 2808204)
      (plainNumbers "HDP" 11739672 2808204) World.init rfl
      (plainRecord_fields "HDP" 11739672 2808204) (Or.inl rfl)).2.2.2.2.2).trans (by decide)⟩

/-! ## C8 -/

/-- C8. A record without FMC elements of type `RT`, `HDT`, `HDP` or `HTI`: both
ratio fields of the element emitted are the string `-1.00`, whatever the
capacities and the precision are. -/
theorem C8_sentinel_ratios (p : Params) (m : List (String × Value)) (r : PlainNumbers)
    (w : World) (h : HasPlainFields m r)
    (hpt : r.poolType = "RT" ∨ r.poolType = "HDT" ∨ r.poolType = "HDP" ∨ r.poolType = "HTI") :
    (poolRecord p m w).isOk = true ∧
    EmittedBlock p w (poolRecord p m w).world (emittedElement p m w) ∧
    (emittedElement p m w).FMCCompressionRatio = "-1.00" ∧
    (emittedElement p m w).CompressionRatioTotal = "-1.00" := by
  by_cases ht : r.poolType = "RT" ∨ r.poolType = "HDT"
  · obtain ⟨a, _, b, c⟩ := poolRecord_tiered_facts p m r w h ht
    refine ⟨a, c, ?_, ?_⟩
    · rw [b]; rfl
    · rw [b]; rfl
  · have ht2 : r.poolType = "HDP" ∨ r.poolType = "HTI" := by
      rcases hpt with h1 | h1 | h1 | h1
      · exact absurd (Or.inl h1) ht
      · exact absurd (Or.inr h1) ht
      · exact Or.inl h1
      · exact Or.inr h1
    obtain ⟨a, _, b, c⟩ := poolRecord_thin_facts p m r w h ht2
    refine ⟨a, c, ?_, ?_⟩
    · rw [b]; rfl
    · rw [b]; rfl

/-- Witness of C8: a thin-image (`HTI`) pool. -/
theorem C8_sentinel_ratios_witness :
    HasPlainFields (plainRecord "HTI" 4096 1024) (plainNumbers "HTI" 4096 1024) ∧
    (emittedElement (mainParams "csv") (plainRecord "HTI" 4096 1024)
      World.init).FMCCompressionRatio = "-1.00" ∧
    (emittedElement (mainParams "csv") (plainRecord "HTI" 4096 1024)
      World.init).CompressionRatioTotal = "-1.00" :=
  ⟨plainRecord_fields "HTI" 4096 1024,
    (C8_sentinel_ratios (mainParams "csv") (plainRecord "HTI" 4096 1024)
      (plainNumbers "HTI" 4096 1024) World.init (plainRecord_fields "HTI" 4096 1024)
      (Or.inr (Or.inr (Or.inr rfl)))).2.2⟩

/-! ## C9 -/

set_option maxRecDepth 100000 in
/-- C9 fails as stated: `overfullRecord` is an FMC record (all-flash) with
non-negative capacities, 1024 MiB of `totalPoolCapacity`, 2048 MiB free and
1024 MiB used, and its computed total ratio `(1024 - 2048)/1024` is emitted as
`-1.00`. -/
theorem C9_counterexample :
    HasFMCFields overfullRecord overfullNumbers ∧
    NonNegativeCapacities overfullNumbers ∧
    (index overfullRecord "usedFMCPoolVolumesCapacity").notNil = true ∧
    (poolRecord (mainParams "stdout") overfullRecord World.init).isOk = true ∧
    (emittedElement (mainParams "stdout") overfullRecord World.init).CompressionRatioTotal =
      "-1.00" :=
  ⟨overfull_fields, overfull_nonneg, rfl, by decide, by decide⟩

/-- C9, amended. For a record with the FMC elements whose capacities are
non-negative and whose effective free capacity does not exceed
`totalPoolCapacity`, or a record without them of type `RT`, `HDT`, `HDP` or
`HTI`, at precision 2: each of the two ratio fields emitted is `-1.00` if and
only if the record has no `usedFMCPoolVolumesCapacity`. -/
theorem C9_sentinel_iff_no_fmc (p : Params) (m : List (String × Value)) (w : World)
    (hp : p.RoundPrecision = 2)
    (hcls :
      (∃ r, HasFMCFields m r ∧ NonNegativeCapacities r ∧
        F64.ge r.totalPoolCapacity r.effectiveFree = true) ∨
      (∃ r, HasPlainFields m r ∧
        (r.poolType = "RT" ∨ r.poolType = "HDT" ∨ r.poolType = "HDP" ∨ r.poolType = "HTI"))) :
    ((emittedElement p m w).FMCCompressionRatio = "-1.00" ↔
      index m "usedFMCPoolVolumesCapacity" = .nil) ∧
    ((emittedElement p m w).CompressionRatioTotal = "-1.00" ↔
      index m "usedFMCPoolVolumesCapacity" = .nil) := by
  rcases hcls with ⟨r, h, hn, hle⟩ | ⟨r, h, hpt⟩
  · obtain ⟨_, b, _⟩ := poolRecord_fmc_facts p m r w h
    have hfmc : index m "usedFMCPoolVolumesCapacity" ≠ .nil := by
      rw [h.2.2.2.2.2.2.2.1]; exact fun hh => Value.noConfusion hh
    have hfree := hn r.effectiveFree (by simp)
    have hup := hn r.usedPhysicalCapacity (by simp)
    have hT := hn r.totalPoolCapacity (by simp)
    have huf := hn r.usedFMCPoolVolumesCapacity (by simp)
    have hupf := hn r.usedPhysicalFMCPoolVolumesCapacity (by simp)
    constructor
    · constructor
      · intro hs
        rw [b] at hs
        simp only [fmcElement, hp] at hs
        exact absurd (formatFloat_sentinel _ hs)
          (div_not_negative _ _ ((ge_zero_iff_nonneg _).1 huf.2) hupf.1
            ((ge_zero_iff_nonneg _).1 hupf.2))
      · intro hs; exact absurd hs hfmc
    · constructor
      · intro hs
        rw [b] at hs
        simp only [fmcElement, hp] at hs
        exact absurd (formatFloat_sentinel _ hs)
          (div_not_negative _ _ (nonneg_sub _ _ hT.1 hfree.1 hle) hup.1
            ((ge_zero_iff_nonneg _).1 hup.2))
      · intro hs; exact absurd hs hfmc
  · have hnil : index m "usedFMCPoolVolumesCapacity" = .nil := h.2.2.2.1
    have hb : (emittedElement p m w).FMCCompressionRatio = "-1.00" ∧
        (emittedElement p m w).CompressionRatioTotal = "-1.00" := by
      by_cases ht : r.poolType = "RT" ∨ r.poolType = "HDT"
      · obtain ⟨_, _, b, _⟩ := poolRecord_tiered_facts p m r w h ht
        rw [b]; exact ⟨rfl, rfl⟩
      · have ht2 : r.poolType = "HDP" ∨ r.poolType = "HTI" := by
          rcases hpt with h1 | h1 | h1 | h1
          · exact absurd (Or.inl h1) ht
          · exact absurd (Or.inr h1) ht
          · exact Or.inl h1
          · exact Or.inr h1
        obtain ⟨_, _, b, _⟩ := poolRecord_thin_facts p m r w h ht2
        rw [b]; exact ⟨rfl, rfl⟩
    exact ⟨⟨fun _ => hnil, fun _ => hb.1⟩, ⟨fun _ => hnil, fun _ => hb.2⟩⟩

set_option maxRecDepth 100000 in
/-- Witness of the amended C9 on Scenario A, whose free capacity (8838690 MiB)
is below its `totalPoolCapacity` (10062024 MiB). -/
theorem C9_sentinel_iff_no_fmc_witness :
    (mainParams "stdout").RoundPrecision = 2 ∧
    HasFMCFields scenarioA scenarioANumbers ∧ NonNegativeCapacities scenarioANumbers ∧
    F64.ge scenarioANumbers.totalPoolCapacity scenarioANumbers.effectiveFree = true ∧
    ((emittedElement (mainParams "stdout") scenarioA World.init).CompressionRatioTotal = "-1.00" ↔
      index scenarioA "usedFMCPoolVolumesCapacity" = .nil) :=
  ⟨rfl, scenarioA_fields, scenarioA_nonneg, by decide,
    (C9_sentinel_iff_no_fmc (mainParams "stdout") scenarioA World.init rfl
      (Or.inl ⟨scenarioANumbers, scenarioA_fields, scenarioA_nonneg, by decide⟩)).2⟩

/-! ## C10 -/

set_option maxRecDepth 100000 in
/-- C10 fails as stated: on `overfullRecord` (non-negative capacities, both
divisors non-zero) the total ratio is `(1024 - 2048)/1024 = -1`, which is not
`>= 0`, and it is what the record shows. -/
theorem C10_counterexample :
    HasFMCFields overfullRecord overfullNumbers ∧
    NonNegativeCapacities overfullNumbers ∧
    F64.eq overfullNumbers.usedPhysicalCapacity F64.zero = false ∧
    F64.eq overfullNumbers.usedPhysicalFMCPoolVolumesCapacity F64.zero = false ∧
    F64.div (F64.sub overfullNumbers.totalPoolCapacity overfullNumbers.effectiveFree)
      overfullNumbers.usedPhysicalCapacity = F64.fin true 4503599627370496 (-52) ∧
    F64.ge
      (F64.div (F64.sub overfullNumbers.totalPoolCapacity overfullNumbers.effectiveFree)
        overfullNumbers.usedPhysicalCapacity) F64.zero = false ∧
    (emittedElement (mainParams "csv") overfullRecord World.init).CompressionRatioTotal =
      FormatFloat
        (F64.div (F64.sub overfullNumbers.totalPoolCapacity overfullNumbers.effectiveFree)
          overfullNumbers.usedPhysicalCapacity) 2 :=
  ⟨overfull_fields, overfull_nonneg, by decide, by decide, by decide, by decide, by decide⟩

/-- C10, amended. For a record with the FMC elements whose capacities are
non-negative, whose two divisors are not zero and whose effective free capacity
does not exceed `totalPoolCapacity`: the two ratios the record shows, the FMC
ratio and the total ratio, are `>= 0`. -/
theorem C10_ratios_nonneg (p : Params) (m : List (String × Value)) (r : FMCNumbers) (w : World)
    (h : HasFMCFields m r) (hn : NonNegativeCapacities r)
    (hup : F64.eq r.usedPhysicalCapacity F64.zero = false)
    (hupf : F64.eq r.usedPhysicalFMCPoolVolumesCapacity F64.zero = false)
    (hle : F64.ge r.totalPoolCapacity r.effectiveFree = true) :
    (emittedElement p m w).FMCCompressionRatio =
      FormatFloat (F64.div r.usedFMCPoolVolumesCapacity r.usedPhysicalFMCPoolVolumesCapacity)
        p.RoundPrecision ∧
    F64.ge (F64.div r.usedFMCPoolVolumesCapacity r.usedPhysicalFMCPoolVolumesCapacity)
      F64.zero = true ∧
    (emittedElement p m w).CompressionRatioTotal =
      FormatFloat
        (F64.div (F64.sub r.totalPoolCapacity r.effectiveFree) r.usedPhysicalCapacity)
        p.RoundPrecision ∧
    F64.ge (F64.div (F64.sub r.totalPoolCapacity r.effectiveFree) r.usedPhysicalCapacity)
      F64.zero = true := by
  obtain ⟨_, b, _⟩ := poolRecord_fmc_facts p m r w h
  have hfree := hn r.effectiveFree (by simp)
  have hu := hn r.usedPhysicalCapacity (by simp)
  have hT := hn r.totalPoolCapacity (by simp)
  have huf := hn r.usedFMCPoolVolumesCapacity (by simp)
  have hpf := hn r.usedPhysicalFMCPoolVolumesCapacity (by simp)
  obtain ⟨m1, e1, hy1, hm1⟩ :=
    pos_of_nonneg_ne_zero _ hpf.1 ((ge_zero_iff_nonneg _).1 hpf.2) hupf
  obtain ⟨m2, e2, hy2, hm2⟩ :=
    pos_of_nonneg_ne_zero _ hu.1 ((ge_zero_iff_nonneg _).1 hu.2) hup
  refine ⟨by rw [b]; rfl, ?_, by rw [b]; rfl, ?_⟩
  · rw [hy1]
    exact (ge_zero_iff_nonneg _).2 (nonneg_div _ m1 e1 ((ge_zero_iff_nonneg _).1 huf.2) hm1)
  · rw [hy2]
    exact (ge_zero_iff_nonneg _).2 (nonneg_div _ m2 e2 (nonneg_sub _ _ hT.1 hfree.1 hle) hm2)

set_option maxRecDepth 100000 in
/-- Witness of the amended C10 on Scenario A. -/
theorem C10_ratios_nonneg_witness :
    HasFMCFields scenarioA scenarioANumbers ∧ NonNegativeCapacities scenarioANumbers ∧
    F64.eq scenarioANumbers.usedPhysicalCapacity F64.zero = false ∧
    F64.eq scenarioANumbers.usedPhysicalFMCPoolVolumesCapacity F64.zero = false ∧
    F64.ge scenarioANumbers.totalPoolCapacity scenarioANumbers.effectiveFree = true ∧
    F64.ge
      (F64.div scenarioANumbers.usedFMCPoolVolumesCapacity
        scenarioANumbers.usedPhysicalFMCPoolVolumesCapacity) F64.zero = true ∧
    F64.ge
      (F64.div (F64.sub scenarioANumbers.totalPoolCapacity scenarioANumbers.effectiveFree)
        scenarioANumbers.usedPhysicalCapacity) F64.zero = true :=
  ⟨scenarioA_fields, scenarioA_nonneg, by decide, by decide, by decide,
    (C10_ratios_nonneg (mainParams "stdout") scenarioA scenarioANumbers World.init
      scenarioA_fields scenarioA_nonneg (by decide) (by decide) (by decide)).2.1,
    (C10_ratios_nonneg (mainParams "stdout") scenarioA scenarioANumbers World.init
      scenarioA_fields scenarioA_nonneg (by decide) (by decide) (by decide)).2.2.2⟩

/-! ## Exact float64 arithmetic on small dyadic numbers -/

/-- The text of a finite value, by its number of units of `10^-prec`. -/
theorem formatFloat_fin (s : Bool) (m : Nat) (e : Int) (prec : Nat) :
    FormatFloat (F64.fin s m e) prec = renderFixed s (F64.fixedDigits m e prec) prec := rfl

/-- With enough fuel, `n` is below `2` to the power of its number of digits. -/
theorem bitLengthAux_lt (fuel : Nat) :
    ∀ n, n ≤ fuel → n < 2 ^ F64.bitLengthAux fuel n := by
  induction fuel with
  | zero => intro n h; simp [F64.bitLengthAux]; omega
  | succ f ih =>
    intro n h
    unfold F64.bitLengthAux
    split
    · omega
    · have h1 := ih (n / 2) (by omega)
      rw [pow_succ]
      omega

/-- With enough fuel, a positive `n` has its leading digit set. -/
theorem bitLengthAux_le (fuel : Nat) :
    ∀ n, n ≤ fuel → 0 < n → 2 ^ (F64.bitLengthAux fuel n - 1) ≤ n := by
  induction fuel with
  | zero => intro n h h0; omega
  | succ f ih =>
    intro n h h0
    unfold F64.bitLengthAux
    rw [if_neg (by omega)]
    simp only [Nat.add_sub_cancel]
    by_cases h2 : n / 2 = 0
    · have : F64.bitLengthAux f (n / 2) = 0 := by
        rw [h2]; cases f <;> simp [F64.bitLengthAux]
      rw [this]; simp; omega
    · have h3 := ih (n / 2) (by omega) (by omega)
      have h4 := bitLengthAux_lt f (n / 2) (by omega)
      have h5 : 1 ≤ F64.bitLengthAux f (n / 2) := by
        by_contra hc
        have : F64.bitLengthAux f (n / 2) = 0 := by omega
        rw [this] at h4
        simp at h4
        omega
      obtain ⟨b, hb⟩ : ∃ b, F64.bitLengthAux f (n / 2) = b + 1 := ⟨_, (Nat.sub_add_cancel h5).symm⟩
      rw [hb] at h3 ⊢
      simp only [Nat.add_sub_cancel] at h3
      rw [pow_succ]
      omega

/-- Every `n` is below `2 ^ bitLength n`. -/
theorem bitLength_lt (n : Nat) : n < 2 ^ F64.bitLength n := bitLengthAux_lt n n (le_refl n)

/-- A positive `n` is at least `2 ^ (bitLength n - 1)`. -/
theorem bitLength_le (n : Nat) (h : 0 < n) : 2 ^ (F64.bitLength n - 1) ≤ n :=
  bitLengthAux_le n n (le_refl n) h

/-- For a quotient `num / den` equal to `N / 2^k` with `N < 2^53`, the binary
logarithm found by `ilog2` is at most `52 - k`. -/
theorem ilog2_le (num den N k : Nat) (hnum : 0 < num) (hden : 0 < den)
    (heq : num * 2 ^ k = N * den) (hN : N < 2 ^ 53) :
    F64.ilog2 num den + (k : Int) ≤ 52 := by
  unfold F64.ilog2
  simp only
  have hbn := bitLength_le num hnum
  have hbn1 : 1 ≤ F64.bitLength num := by
    by_contra hc
    have h0 : F64.bitLength num = 0 := by omega
    have := bitLength_lt num
    rw [h0] at this
    simp at this
    omega
  have hbd := bitLength_lt den
  generalize F64.bitLength num = bn at hbn hbn1 ⊢
  generalize F64.bitLength den = bd at hbd ⊢
  split
  · rename_i hchk
    unfold F64.shiftUp at hchk
    have e1 : ((bn : Int) - (bd : Int)).toNat = bn - bd := by omega
    have e2 : (-((bn : Int) - (bd : Int))).toNat = bd - bn := by omega
    rw [e1, e2] at hchk
    -- den * 2^(bn-bd) * 2^k ≤ num * 2^k * 2^(bd-bn) = N * den * 2^(bd-bn)
    have h1 : den * 2 ^ (bn - bd) * 2 ^ k ≤ N * den * 2 ^ (bd - bn) := by
      calc den * 2 ^ (bn - bd) * 2 ^ k ≤ num * 2 ^ (bd - bn) * 2 ^ k :=
            Nat.mul_le_mul_right _ hchk
        _ = num * 2 ^ k * 2 ^ (bd - bn) := by ring
        _ = N * den * 2 ^ (bd - bn) := by rw [heq]
    have h2 : den * (2 ^ (bn - bd + k)) ≤ den * (N * 2 ^ (bd - bn)) := by
      calc den * (2 ^ (bn - bd + k)) = den * 2 ^ (bn - bd) * 2 ^ k := by rw [pow_add]; ring
        _ ≤ N * den * 2 ^ (bd - bn) := h1
        _ = den * (N * 2 ^ (bd - bn)) := by ring
    have h3 : 2 ^ (bn - bd + k) ≤ N * 2 ^ (bd - bn) := Nat.le_of_mul_le_mul_left h2 hden
    have h4 : N * 2 ^ (bd - bn) < 2 ^ (53 + (bd - bn)) := by
      rw [pow_add]; exact Nat.mul_lt_mul_of_pos_right hN (by positivity)
    have h5 := (Nat.pow_lt_pow_iff_right (by norm_num : 1 < 2)).1 (lt_of_le_of_lt h3 h4)
    omega
  · -- 2^(bn-1+k) ≤ num * 2^k = N * den < 2^53 * 2^bd
    have h1 : 2 ^ (bn - 1 + k) ≤ num * 2 ^ k := by
      rw [pow_add]; exact Nat.mul_le_mul_right _ hbn
    have h2 : N * den < 2 ^ 53 * 2 ^ bd := Nat.mul_lt_mul'' hN hbd
    rw [heq] at h1
    have h3 : 2 ^ (bn - 1 + k) < 2 ^ (53 + bd) := by
      rw [pow_add 2 53 bd]; exact lt_of_le_of_lt h1 h2
    have h4 := (Nat.pow_lt_pow_iff_right (by norm_num : 1 < 2)).1 h3
    omega

/-- Rounding a quotient equal to `N / 2^k`, `N < 2^53`, `k ≤ 1074`, is exact. -/
theorem round_exact (s : Bool) (num den N k : Nat) (hden : 0 < den)
    (heq : num * 2 ^ k = N * den) (hN : N < 2 ^ 53) (hk : k ≤ 1074) :
    F64.IsExact (F64.round s num den) s N k := by
  by_cases hnum : num = 0
  · subst hnum
    have hN0 : N = 0 := by
      rcases Nat.mul_eq_zero.1 (by simpa using heq.symm : N * den = 0) with h | h
      · exact h
      · omega
    subst hN0
    refine ⟨0, 0, ?_, by simp⟩
    simp [F64.round]
  · have hL := ilog2_le num den N k (Nat.pos_of_ne_zero hnum) hden heq hN
    unfold F64.round
    rw [if_neg hnum]
    simp only
    generalize F64.ilog2 num den = L at hL
    obtain ⟨j, hj, hkj⟩ : ∃ j : Nat, max (L - 52) F64.minExp = -(j : Int) ∧ k ≤ j := by
      refine ⟨(-(max (L - 52) F64.minExp)).toNat, ?_, ?_⟩ <;> unfold F64.minExp <;> omega
    rw [hj]
    have hn : F64.shiftUp num (- -(j : Int)) = N * 2 ^ (j - k) * den := by
      unfold F64.shiftUp
      have : (- -(j : Int)).toNat = j := by omega
      rw [this]
      calc num * 2 ^ j = num * 2 ^ (k + (j - k)) := by rw [Nat.add_sub_cancel' hkj]
        _ = num * 2 ^ k * 2 ^ (j - k) := by rw [pow_add]; ring
        _ = N * 2 ^ (j - k) * den := by rw [heq]; ring
    have hd : F64.shiftUp den (-(j : Int)) = den := by
      unfold F64.shiftUp
      have : (-(j : Int)).toNat = 0 := by omega
      rw [this]; simp
    rw [hn, hd, Nat.mul_div_cancel _ hden, Nat.mul_mod_left]
    have hN0 : N ≠ 0 := by
      rintro rfl
      simp at heq
      exact hnum heq
    have hm : N * 2 ^ (j - k) ≠ 0 := Nat.mul_ne_zero hN0 (by positivity)
    have hc : ¬ (den < 2 * 0 ∨ 2 * 0 = den ∧ N * 2 ^ (j - k) % 2 = 1) := by omega
    rw [if_neg hc, if_neg hm]
    have hov : ¬ (0 ≤ -(j : Int) ∧ 2 ^ 1024 ≤ F64.shiftUp (N * 2 ^ (j - k)) (-(j : Int))) := by
      rintro ⟨h0, h1⟩
      have hj0 : j = 0 := by omega
      subst hj0
      have hk0 : k = 0 := by omega
      subst hk0
      unfold F64.shiftUp at h1
      have e0 : (-((0 : Nat) : Int)).toNat = 0 := by decide
      simp only [e0, Nat.sub_self, pow_zero, Nat.mul_one] at h1
      have h2 := (Nat.pow_lt_pow_iff_right (by norm_num : 1 < 2)).1 (lt_of_le_of_lt h1 hN)
      omega
    rw [if_neg hov]
    refine ⟨N * 2 ^ (j - k), j, rfl, ?_⟩
    calc N * 2 ^ (j - k) * 2 ^ k = N * 2 ^ (j - k + k) := by rw [pow_add]; ring
      _ = N * 2 ^ j := by rw [Nat.sub_add_cancel hkj]

/-- The result of `roundHalfEven` is nearest, the even one on a tie. -/
theorem roundHalfEven_nearest (num den : Nat) (hden : 0 < den) :
    IsNearestEven (roundHalfEven num den) num den := by
  unfold IsNearestEven roundHalfEven
  simp only
  have h1 := Nat.div_add_mod num den
  have h2 := Nat.mod_lt num hden
  have h3 : den * (num / den) = num / den * den := Nat.mul_comm _ _
  generalize num / den = q at h1 h3 ⊢
  generalize num % den = r at h1 h2 ⊢
  have h4 : (q + 1) * den = q * den + den := by ring
  generalize hqd : q * den = qd at h1 h3 h4 ⊢
  split_ifs with hc
  · rw [h4]
    refine ⟨by omega, by omega, ?_⟩
    intro ht
    rcases hc with hc | ⟨hc1, hc2⟩
    · omega
    · omega
  · refine ⟨by omega, by omega, ?_⟩
    intro ht
    have : ¬ (2 * r = den ∧ q % 2 = 1) := fun h => hc (Or.inr h)
    omega

/-- Scaling numerator and denominator does not change `roundHalfEven`. -/
theorem roundHalfEven_scale (c a b : Nat) (hc : 0 < c) :
    roundHalfEven (c * a) (c * b) = roundHalfEven a b := by
  unfold roundHalfEven
  simp only
  rw [Nat.mul_div_mul_left a b hc, Nat.mul_mod_mul_left]
  have e1 : (c * b < 2 * (c * (a % b))) ↔ (b < 2 * (a % b)) := by
    rw [show 2 * (c * (a % b)) = c * (2 * (a % b)) by ring]
    exact Nat.mul_lt_mul_left hc
  have e2 : (2 * (c * (a % b)) = c * b) ↔ (2 * (a % b) = b) := by
    rw [show 2 * (c * (a % b)) = c * (2 * (a % b)) by ring]
    exact Nat.mul_right_inj (by omega)
  simp only [e1, e2]

/-- A natural number below `2^53` is a double. -/
theorem ofNat_exact (N : Nat) (hN : N < 2 ^ 53) : F64.IsExact (F64.ofNat N) false N 0 :=
  round_exact false N 1 N 0 (by norm_num) (by ring) hN (by norm_num)

/-- The constant `Mb2Gb` is `2^52 * 2^-42`. -/
theorem Mb2Gb_eq : Mb2Gb = F64.fin false (2 ^ 52) (-42) := by decide

/-- Dividing an exact value by 1024 is exact. -/
theorem div_Mb2Gb_exact (x : F64) (s : Bool) (N k : Nat) (hx : F64.IsExact x s N k)
    (hN : N < 2 ^ 53) (hk : k + 10 ≤ 1074) : F64.IsExact (F64.div x Mb2Gb) s N (k + 10) := by
  obtain ⟨m, j, rfl, hm⟩ := hx
  rw [Mb2Gb_eq]
  unfold F64.div
  have h0 : ¬ ((2 : Nat) ^ 52 = 0) := by norm_num
  simp only [if_neg h0, Bool.xor_false]
  apply round_exact s _ _ N (k + 10) _ _ hN hk
  · unfold F64.shiftUp
    positivity
  · unfold F64.shiftUp
    have e1 : (-(j : Int)).toNat = 0 := by omega
    have e2 : (-(-42 : Int)).toNat = 42 := by decide
    have e3 : (-42 : Int).toNat = 0 := by decide
    have e4 : (-(-(j : Int))).toNat = j := by omega
    rw [e1, e2, e3, e4]
    simp only [pow_zero, Nat.mul_one]
    calc m * 2 ^ 42 * 2 ^ (k + 10) = m * 2 ^ k * 2 ^ 52 := by rw [pow_add]; ring
      _ = N * (2 ^ 52 * 2 ^ j) := by rw [hm]; ring

/-- The text of an exact value. -/
theorem formatFloat_exact (x : F64) (s : Bool) (N k prec : Nat) (hx : F64.IsExact x s N k) :
    FormatFloat x prec = renderFixed s (roundHalfEven (N * 10 ^ prec) (2 ^ k)) prec := by
  obtain ⟨m, j, rfl, hm⟩ := hx
  rw [formatFloat_fin]
  unfold F64.fixedDigits F64.shiftUp
  have e1 : (-(j : Int)).toNat = 0 := by omega
  have e4 : (-(-(j : Int))).toNat = j := by omega
  rw [e1, e4]
  simp only [pow_zero, Nat.mul_one, Nat.one_mul]
  rw [← roundHalfEven_scale (2 ^ k) (m * 10 ^ prec) (2 ^ j) (by positivity),
    ← roundHalfEven_scale (2 ^ j) (N * 10 ^ prec) (2 ^ k) (by positivity)]
  have a : 2 ^ k * (m * 10 ^ prec) = 2 ^ j * (N * 10 ^ prec) := by
    calc 2 ^ k * (m * 10 ^ prec) = m * 2 ^ k * 10 ^ prec := by ring
      _ = 2 ^ j * (N * 10 ^ prec) := by rw [hm]; ring
  rw [a, Nat.mul_comm (2 ^ k) (2 ^ j)]

/-- The difference of two exact non-negative values with a common denominator
is exact. -/
theorem sub_exact (x y : F64) (A B k : Nat) (hx : F64.IsExact x false A k)
    (hy : F64.IsExact y false B k) (hA : A < 2 ^ 53) (hB : B < 2 ^ 53) (hk : k ≤ 1074) :
    F64.IsExact (F64.sub x y) (decide (A < B)) (A - B + (B - A)) k := by
  obtain ⟨m1, j1, rfl, h1⟩ := hx
  obtain ⟨m2, j2, rfl, h2⟩ := hy
  unfold F64.sub F64.neg F64.add
  simp only [Bool.not_false, Bool.false_and, if_true, Bool.false_eq_true, if_false]
  have he : min (-(j1 : Int)) (-(j2 : Int)) = -((max j1 j2 : Nat) : Int) := by omega
  rw [he]
  generalize hJ : max j1 j2 = J
  have hJ1 : j1 ≤ J := by omega
  have hJ2 : j2 ≤ J := by omega
  unfold F64.shiftUp
  have e1 : (-(j1 : Int) - -(J : Int)).toNat = J - j1 := by omega
  have e2 : (-(j2 : Int) - -(J : Int)).toNat = J - j2 := by omega
  have e3 : (-(J : Int)).toNat = 0 := by omega
  have e4 : (-(-(J : Int))).toNat = J := by omega
  rw [e1, e2, e3, e4]
  simp only [pow_zero, Nat.mul_one, Nat.one_mul]
  have ha : m1 * 2 ^ (J - j1) * 2 ^ k = A * 2 ^ J := by
    calc m1 * 2 ^ (J - j1) * 2 ^ k = m1 * 2 ^ k * 2 ^ (J - j1) := by ring
      _ = A * (2 ^ j1 * 2 ^ (J - j1)) := by rw [h1]; ring
      _ = A * 2 ^ J := by rw [← pow_add, Nat.add_sub_cancel' hJ1]
  have hb : m2 * 2 ^ (J - j2) * 2 ^ k = B * 2 ^ J := by
    calc m2 * 2 ^ (J - j2) * 2 ^ k = m2 * 2 ^ k * 2 ^ (J - j2) := by ring
      _ = B * (2 ^ j2 * 2 ^ (J - j2)) := by rw [h2]; ring
      _ = B * 2 ^ J := by rw [← pow_add, Nat.add_sub_cancel' hJ2]
  generalize m1 * 2 ^ (J - j1) = a at ha ⊢
  generalize m2 * 2 ^ (J - j2) = b at hb ⊢
  have hpJ : 0 < 2 ^ J := by positivity
  have hpk : 0 < 2 ^ k := by positivity
  have hlt : a < b ↔ A < B := by
    constructor
    · intro h
      have : a * 2 ^ k < b * 2 ^ k := Nat.mul_lt_mul_of_pos_right h hpk
      rw [ha, hb] at this
      exact Nat.lt_of_mul_lt_mul_right this
    · intro h
      have : A * 2 ^ J < B * 2 ^ J := Nat.mul_lt_mul_of_pos_right h hpJ
      rw [← ha, ← hb] at this
      exact Nat.lt_of_mul_lt_mul_right this
  have hgt : b < a ↔ B < A := by
    constructor
    · intro h
      have : b * 2 ^ k < a * 2 ^ k := Nat.mul_lt_mul_of_pos_right h hpk
      rw [ha, hb] at this
      exact Nat.lt_of_mul_lt_mul_right this
    · intro h
      have : B * 2 ^ J < A * 2 ^ J := Nat.mul_lt_mul_of_pos_right h hpJ
      rw [← ha, ← hb] at this
      exact Nat.lt_of_mul_lt_mul_right this
  split_ifs with hc
  · have hab : A = B := by omega
    subst hab
    refine ⟨0, 0, ?_, by simp⟩
    simp
  · have hs : decide ((a : Int) + -(b : Int) < 0) = decide (A < B) := by
      apply decide_eq_decide.2
      rw [← hlt]
      omega
    rw [hs]
    apply round_exact _ _ _ _ k hpJ _ (by omega) hk
    have hn : ((a : Int) + -(b : Int)).natAbs = a - b + (b - a) := by omega
    rw [hn]
    rcases Nat.lt_or_ge a b with h | h
    · have h' := hlt.1 h
      have ea : a - b + (b - a) = b - a := by omega
      have eA : A - B + (B - A) = B - A := by omega
      rw [ea, eA, Nat.sub_mul, Nat.sub_mul, ha, hb]
    · have h' : B ≤ A := by
        by_contra hh
        have := hlt.2 (by omega)
        omega
      have ea : a - b + (b - a) = a - b := by omega
      have eA : A - B + (B - A) = A - B := by omega
      rw [ea, eA, Nat.sub_mul, Nat.sub_mul, ha, hb]

/-- The denominator `FormatFloat` divides by is positive. -/
theorem fixedDigits_nearest (man : Nat) (e : Int) (prec : Nat) :
    IsNearestEven (F64.fixedDigits man e prec) (F64.shiftUp (man * 10 ^ prec) e)
      (F64.shiftUp 1 (-e)) := by
  unfold F64.fixedDigits
  apply roundHalfEven_nearest
  unfold F64.shiftUp
  positivity

/-- The three capacities of a pool without FMC of `T` MiB with `F` MiB free,
both below `2^53`: every quotient and difference is exact, so that each text is
the nearest number of hundredths of `T/1024`, `F/1024` and `(T - F)/1024`. -/
theorem plain_texts (T F : Nat) (hT : T < 2 ^ 53) (hF : F < 2 ^ 53) :
    FormatFloat (F64.div (F64.ofNat T) Mb2Gb) 2 =
      renderFixed false (roundHalfEven (T * 100) 1024) 2 ∧
    FormatFloat (F64.div (F64.ofNat F) Mb2Gb) 2 =
      renderFixed false (roundHalfEven (F * 100) 1024) 2 ∧
    FormatFloat (F64.div (F64.sub (F64.ofNat T) (F64.ofNat F)) Mb2Gb) 2 =
      renderFixed (decide (T < F)) (roundHalfEven ((T - F + (F - T)) * 100) 1024) 2 ∧
    FormatFloat (F64.sub (F64.div (F64.ofNat T) Mb2Gb) (F64.div (F64.ofNat F) Mb2Gb)) 2 =
      renderFixed (decide (T < F)) (roundHalfEven ((T - F + (F - T)) * 100) 1024) 2 := by
  have hD : (T - F + (F - T)) < 2 ^ 53 := by omega
  have a : F64.IsExact (F64.ofNat T) false T 0 := ofNat_exact T hT
  have b : F64.IsExact (F64.ofNat F) false F 0 := ofNat_exact F hF
  have a1 : F64.IsExact (F64.div (F64.ofNat T) Mb2Gb) false T 10 :=
    div_Mb2Gb_exact _ false T 0 a hT (by norm_num)
  have b1 : F64.IsExact (F64.div (F64.ofNat F) Mb2Gb) false F 10 :=
    div_Mb2Gb_exact _ false F 0 b hF (by norm_num)
  have c : F64.IsExact (F64.sub (F64.ofNat T) (F64.ofNat F)) (decide (T < F))
      (T - F + (F - T)) 0 := sub_exact _ _ T F 0 a b hT hF (by norm_num)
  have c1 : F64.IsExact (F64.div (F64.sub (F64.ofNat T) (F64.ofNat F)) Mb2Gb) (decide (T < F))
      (T - F + (F - T)) 10 := div_Mb2Gb_exact _ _ _ 0 c hD (by norm_num)
  have d : F64.IsExact (F64.sub (F64.div (F64.ofNat T) Mb2Gb) (F64.div (F64.ofNat F) Mb2Gb))
      (decide (T < F)) (T - F + (F - T)) 10 := sub_exact _ _ T F 10 a1 b1 hT hF (by norm_num)
  have e100 : (10 : Nat) ^ 2 = 100 := by norm_num
  have e1024 : (2 : Nat) ^ 10 = 1024 := by norm_num
  have fa := formatFloat_exact _ _ _ _ 2 a1
  have fb := formatFloat_exact _ _ _ _ 2 b1
  have fc := formatFloat_exact _ _ _ _ 2 c1
  have fd := formatFloat_exact _ _ _ _ 2 d
  rw [e100, e1024] at fa fb fc fd
  exact ⟨fa, fb, fc, fd⟩

/-- Nearest hundredths of two parts and of their sum: the sum of the two
roundings is within one hundredth of the rounding of the sum. -/
theorem hundredths_sum (a b : Nat) :
    roundHalfEven (a * 100) 1024 + roundHalfEven (b * 100) 1024 ≤
      roundHalfEven ((a + b) * 100) 1024 + 1 ∧
    roundHalfEven ((a + b) * 100) 1024 ≤
      roundHalfEven (a * 100) 1024 + roundHalfEven (b * 100) 1024 + 1 := by
  have ha := roundHalfEven_nearest (a * 100) 1024 (by norm_num)
  have hb := roundHalfEven_nearest (b * 100) 1024 (by norm_num)
  have hc := roundHalfEven_nearest ((a + b) * 100) 1024 (by norm_num)
  unfold IsNearestEven at ha hb hc
  generalize roundHalfEven (a * 100) 1024 = x at ha ⊢
  generalize roundHalfEven (b * 100) 1024 = y at hb ⊢
  generalize roundHalfEven ((a + b) * 100) 1024 = z at hc ⊢
  omega

/-! ## C11 -/

set_option maxRecDepth 100000 in
set_option exponentiation.threshold 2000 in
/-- C11 fails as stated. For Scenario A (an FMC record) the loop body emits
total 4795.18, used 309.09 and free 8631.53: the three are read from three
independent elements of the record, and 309.09 + 8631.53 is not within 0.01 of
4795.18. A record without FMC departs from the bound as well once the
capacities leave the range in which `float64` subtraction is exact: the `RT`
pool of `2^57 + 384` MiB with 17 MiB free shows total 140737488355328.38, used
140737488355328.34 and free 0.02, whose sum misses the total by 0.02. -/
theorem C11_counterexample :
    (HasFMCFields scenarioA scenarioANumbers ∧
      (poolRecord (mainParams "stdout") scenarioA World.init).isOk = true ∧
      (emittedElement (mainParams "stdout") scenarioA World.init).totalPhysicalCapacity =
        renderFixed false 479518 2 ∧
      (emittedElement (mainParams "stdout") scenarioA World.init).usedPhysicalCapacity =
        renderFixed false 30909 2 ∧
      (emittedElement (mainParams "stdout") scenarioA World.init).availablePhysicalVolumeCapacity =
        renderFixed false 863153 2 ∧
      renderFixed false 479518 2 = "4795.18" ∧ renderFixed false 30909 2 = "309.09" ∧
      renderFixed false 863153 2 = "8631.53" ∧
      ¬ (30909 + 863153 ≤ 479518 + 1)) ∧
    (HasPlainFields (plainRecord "RT" (2 ^ 57 + 384) 17) (plainNumbers "RT" (2 ^ 57 + 384) 17) ∧
      (poolRecord (mainParams "stdout") (plainRecord "RT" (2 ^ 57 + 384) 17) World.init).isOk =
        true ∧
      (emittedElement (mainParams "stdout") (plainRecord "RT" (2 ^ 57 + 384) 17)
        World.init).totalPhysicalCapacity = renderFixed false 14073748835532838 2 ∧
      (emittedElement (mainParams "stdout") (plainRecord "RT" (2 ^ 57 + 384) 17)
        World.init).usedPhysicalCapacity = renderFixed false 14073748835532834 2 ∧
      (emittedElement (mainParams "stdout") (plainRecord "RT" (2 ^ 57 + 384) 17)
        World.init).availablePhysicalVolumeCapacity = renderFixed false 2 2 ∧
      renderFixed false 14073748835532838 2 = "140737488355328.38" ∧
      renderFixed false 14073748835532834 2 = "140737488355328.34" ∧
      renderFixed false 2 2 = "0.02" ∧
      ¬ (14073748835532838 ≤ 14073748835532834 + 2 + 1)) :=
  ⟨⟨scenarioA_fields, by decide, by decide, by decide, by decide, by decide, by decide,
      by decide, by decide⟩,
    ⟨plainRecord_fields "RT" (2 ^ 57 + 384) 17, by decide, by decide, by decide, by decide,
      by decide, by decide, by decide, by decide⟩⟩

/-- C11, amended. For a record without FMC elements (type `RT`, `HDT`, `HDP`
or `HTI`) whose `totalPoolCapacity` and effective free capacity are whole
numbers of MiB, `T` and `F`, below `2^53`, at precision 2: the total, the free
and the used capacity emitted are the nearest numbers of hundredths of
`T/1024`, `F/1024` and `(T - F)/1024` (the used one with a minus sign when
`T < F`), and used plus free differs from the total by at most one hundredth. -/
theorem C11_plain_sum_within_hundredth (p : Params) (m : List (String × Value))
    (r : PlainNumbers) (w : World) (T F : Nat) (hp : p.RoundPrecision = 2)
    (h : HasPlainFields m r)
    (ht : r.poolType = "RT" ∨ r.poolType = "HDT" ∨ r.poolType = "HDP" ∨ r.poolType = "HTI")
    (hT : r.totalPoolCapacity = F64.ofNat T) (hF : r.effectiveFree = F64.ofNat F)
    (hTb : T < 2 ^ 53) (hFb : F < 2 ^ 53) :
    (emittedElement p m w).totalPhysicalCapacity =
      renderFixed false (roundHalfEven (T * 100) 1024) 2 ∧
    (emittedElement p m w).availablePhysicalVolumeCapacity =
      renderFixed false (roundHalfEven (F * 100) 1024) 2 ∧
    (emittedElement p m w).usedPhysicalCapacity =
      renderFixed (decide (T < F)) (roundHalfEven ((T - F + (F - T)) * 100) 1024) 2 ∧
    (F ≤ T →
      roundHalfEven ((T - F + (F - T)) * 100) 1024 + roundHalfEven (F * 100) 1024 ≤
        roundHalfEven (T * 100) 1024 + 1 ∧
      roundHalfEven (T * 100) 1024 ≤
        roundHalfEven ((T - F + (F - T)) * 100) 1024 + roundHalfEven (F * 100) 1024 + 1) ∧
    (T < F →
      roundHalfEven (F * 100) 1024 ≤
        roundHalfEven (T * 100) 1024 + roundHalfEven ((T - F + (F - T)) * 100) 1024 + 1 ∧
      roundHalfEven (T * 100) 1024 + roundHalfEven ((T - F + (F - T)) * 100) 1024 ≤
        roundHalfEven (F * 100) 1024 + 1) := by
  obtain ⟨a, b, c, d⟩ := plain_texts T F hTb hFb
  have hfields : (emittedElement p m w).totalPhysicalCapacity =
        FormatFloat (F64.div (F64.ofNat T) Mb2Gb) 2 ∧
      (emittedElement p m w).availablePhysicalVolumeCapacity =
        FormatFloat (F64.div (F64.ofNat F) Mb2Gb) 2 ∧
      ((emittedElement p m w).usedPhysicalCapacity =
          FormatFloat (F64.div (F64.sub (F64.ofNat T) (F64.ofNat F)) Mb2Gb) 2 ∨
        (emittedElement p m w).usedPhysicalCapacity =
          FormatFloat (F64.sub (F64.div (F64.ofNat T) Mb2Gb) (F64.div (F64.ofNat F) Mb2Gb))
            2) := by
    by_cases ht1 : r.poolType = "RT" ∨ r.poolType = "HDT"
    · rw [(poolRecord_tiered_facts p m r w h ht1).2.2.1]
      simp only [tieredElement, hp, hT, hF]
      exact ⟨trivial, trivial, Or.inl trivial⟩
    · have ht2 : r.poolType = "HDP" ∨ r.poolType = "HTI" := by
        rcases ht with h1 | h1 | h1 | h1
        · exact absurd (Or.inl h1) ht1
        · exact absurd (Or.inr h1) ht1
        · exact Or.inl h1
        · exact Or.inr h1
      rw [(poolRecord_thin_facts p m r w h ht2).2.2.1]
      simp only [thinElement, hp, hT, hF]
      exact ⟨trivial, trivial, Or.inr trivial⟩
  obtain ⟨f1, f2, f3⟩ := hfields
  refine ⟨f1.trans a, f2.trans b, ?_, ?_, ?_⟩
  · rcases f3 with f3 | f3
    · exact f3.trans c
    · exact f3.trans d
  · intro hle
    have e : T - F + (F - T) = T - F := by omega
    have k := hundredths_sum (T - F) F
    rw [Nat.sub_add_cancel hle] at k
    rw [e]
    exact k
  · intro hlt
    have e : T - F + (F - T) = F - T := by omega
    have k := hundredths_sum T (F - T)
    rw [Nat.add_sub_cancel' (Nat.le_of_lt hlt)] at k
    rw [e]
    exact ⟨k.2, k.1⟩

set_option maxRecDepth 100000 in
/-- Witness of the amended C11 on Scenario B: 10000000 MiB with 4000000 MiB
free shows total 9765.62, free 3906.25 and used 5859.38, whose sum 9765.63 is one
hundredth above the total. -/
theorem C11_plain_sum_within_hundredth_witness :
    (mainParams "stdout").RoundPrecision = 2 ∧
    HasPlainFields scenarioB (plainNumbers "RT" 10000000 4000000) ∧
    (emittedElement (mainParams "stdout") scenarioB World.init).totalPhysicalCapacity =
      "9765.62" ∧
    (emittedElement (mainParams "stdout") scenarioB World.init).availablePhysicalVolumeCapacity =
      "3906.25" ∧
    (emittedElement (mainParams "stdout") scenarioB World.init).usedPhysicalCapacity =
      "5859.38" ∧
    roundHalfEven ((10000000 - 4000000 + (4000000 - 10000000)) * 100) 1024 +
        roundHalfEven (4000000 * 100) 1024 ≤ roundHalfEven (10000000 * 100) 1024 + 1 :=
  ⟨rfl, plainRecord_fields "RT" 10000000 4000000,
    ((C11_plain_sum_within_hundredth (mainParams "stdout") scenarioB
      (plainNumbers "RT" 10000000 4000000) World.init 10000000 4000000 rfl
      (plainRecord_fields "RT" 10000000 4000000) (Or.inl rfl) rfl rfl (by decide)
      (by decide)).1).trans (by decide),
    ((C11_plain_sum_within_hundredth (mainParams "stdout") scenarioB
      (plainNumbers "RT" 10000000 4000000) World.init 10000000 4000000 rfl
      (plainRecord_fields "RT" 10000000 4000000) (Or.inl rfl) rfl rfl (by decide)
      (by decide)).2.1).trans (by decide),
    ((C11_plain_sum_within_hundredth (mainParams "stdout") scenarioB
      (plainNumbers "RT" 10000000 4000000) World.init 10000000 4000000 rfl
      (plainRecord_fields "RT" 10000000 4000000) (Or.inl rfl) rfl rfl (by decide)
      (by decide)).2.2.1).trans (by decide),
    ((C11_plain_sum_within_hundredth (mainParams "stdout") scenarioB
      (plainNumbers "RT" 10000000 4000000) World.init 10000000 4000000 rfl
      (plainRecord_fields "RT" 10000000 4000000) (Or.inl rfl) rfl rfl (by decide)
      (by decide)).2.2.2.1 (by decide)).1⟩

/-! ## C12 -/

set_option maxRecDepth 100000 in
/-- C12 fails as stated. For the `RT` pool of 1024 MiB with 128 MiB free the
formula value of the free capacity is exactly 0.125; rounding it half up at 2
decimals (`RoundFloat64`) gives 0.13, but the loop body emits 0.12: the value
is written by `strconv.FormatFloat`, which rounds the tie to the even
neighbour. -/
theorem C12_counterexample :
    HasPlainFields (plainRecord "RT" 1024 128) (plainNumbers "RT" 1024 128) ∧
    (poolRecord (mainParams "stdout") (plainRecord "RT" 1024 128) World.init).isOk = true ∧
    F64.div (plainNumbers "RT" 1024 128).effectiveFree Mb2Gb = F64.round false 125 1000 ∧
    FormatFloat (RoundFloat64 (F64.div (plainNumbers "RT" 1024 128).effectiveFree Mb2Gb) 2) 2 =
      "0.13" ∧
    (emittedElement (mainParams "stdout") (plainRecord "RT" 1024 128)
      World.init).availablePhysicalVolumeCapacity = "0.12" ∧
    (emittedElement (mainParams "stdout") (plainRecord "RT" 1024 128)
      World.init).availablePhysicalVolumeCapacity ≠
      FormatFloat (RoundFloat64 (F64.div (plainNumbers "RT" 1024 128).effectiveFree Mb2Gb) 2) 2 :=
  ⟨plainRecord_fields "RT" 1024 128, by decide, by decide, by decide, by decide, by decide⟩

set_option maxRecDepth 100000 in
/-- C12, amended. At precision 2 every GB and ratio value the loop body emits
for a classified record is `strconv.FormatFloat(v, 'f', 2, 64)` of its formula
value `v`, or the literal `-1.00` for the two ratios of a pool without FMC; the
only half-up rounding (`RoundFloat64`) is applied to the total ratio inside the
product shown as `Effective total GB free` of an FMC record. `FormatFloat` of a
finite value writes the nearest number of hundredths and, when the value lies
halfway between two of them, the even one: 128 MiB = 0.125 GiB is written
0.12. -/
theorem C12_values_written_half_even (p : Params) (m : List (String × Value)) (w : World)
    (hp : p.RoundPrecision = 2) (h : Classifiable m) :
    ((∃ r, HasFMCFields m r ∧
        [(emittedElement p m w).totalPhysicalCapacity,
          (emittedElement p m w).usedPhysicalCapacity,
          (emittedElement p m w).availablePhysicalVolumeCapacity,
          (emittedElement p m w).FMCCompressionRatio,
          (emittedElement p m w).CompressionRatioTotal,
          (emittedElement p m w).EffectiveGBFree] =
        [FormatFloat (F64.div r.totalPhysicalCapacity Mb2Gb) 2,
          FormatFloat (F64.div r.usedPhysicalCapacity Mb2Gb) 2,
          FormatFloat (F64.div r.effectiveFree Mb2Gb) 2,
          FormatFloat
            (F64.div r.usedFMCPoolVolumesCapacity r.usedPhysicalFMCPoolVolumesCapacity) 2,
          FormatFloat
            (F64.div (F64.sub r.totalPoolCapacity r.effectiveFree) r.usedPhysicalCapacity) 2,
          FormatFloat
            (F64.mul (F64.div r.effectiveFree Mb2Gb)
              (RoundFloat64
                (F64.div (F64.sub r.totalPoolCapacity r.effectiveFree) r.usedPhysicalCapacity)
                2)) 2]) ∨
      (∃ r, HasPlainFields m r ∧ (r.poolType = "RT" ∨ r.poolType = "HDT") ∧
        [(emittedElement p m w).totalPhysicalCapacity,
          (emittedElement p m w).usedPhysicalCapacity,
          (emittedElement p m w).availablePhysicalVolumeCapacity,
          (emittedElement p m w).FMCCompressionRatio,
          (emittedElement p m w).CompressionRatioTotal,
          (emittedElement p m w).EffectiveGBFree] =
        [FormatFloat (F64.div r.totalPoolCapacity Mb2Gb) 2,
          FormatFloat (F64.div (F64.sub r.totalPoolCapacity r.effectiveFree) Mb2Gb) 2,
          FormatFloat (F64.div r.effectiveFree Mb2Gb) 2,
          "-1.00",
          "-1.00",
          FormatFloat (F64.div r.effectiveFree Mb2Gb) 2]) ∨
      (∃ r, HasPlainFields m r ∧ (r.poolType = "HDP" ∨ r.poolType = "HTI") ∧
        [(emittedElement p m w).totalPhysicalCapacity,
          (emittedElement p m w).usedPhysicalCapacity,
          (emittedElement p m w).availablePhysicalVolumeCapacity,
          (emittedElement p m w).FMCCompressionRatio,
          (emittedElement p m w).CompressionRatioTotal,
          (emittedElement p m w).EffectiveGBFree] =
        [FormatFloat (F64.div r.totalPoolCapacity Mb2Gb) 2,
          FormatFloat
            (F64.sub (F64.div r.totalPoolCapacity Mb2Gb) (F64.div r.effectiveFree Mb2Gb)) 2,
          FormatFloat (F64.div r.effectiveFree Mb2Gb) 2,
          "-1.00",
          "-1.00",
          FormatFloat (F64.div r.effectiveFree Mb2Gb) 2])) ∧
    (∀ (s : Bool) (man : Nat) (e : Int),
      FormatFloat (F64.fin s man e) 2 = renderFixed s (F64.fixedDigits man e 2) 2 ∧
      IsNearestEven (F64.fixedDigits man e 2) (F64.shiftUp (man * 10 ^ 2) e)
        (F64.shiftUp 1 (-e))) ∧
    F64.div (F64.ofNat 128) Mb2Gb = F64.round false 125 1000 ∧
    FormatFloat (F64.div (F64.ofNat 128) Mb2Gb) 2 = "0.12" := by
  refine ⟨?_, fun s man e => ⟨formatFloat_fin s man e 2, fixedDigits_nearest man e 2⟩,
    by decide, by decide⟩
  rcases h with ⟨r, h⟩ | ⟨r, h, hpt⟩
  · refine Or.inl ⟨r, h, ?_⟩
    rw [(poolRecord_fmc_facts p m r w h).2.1]
    simp only [fmcElement, hp]
  · by_cases ht : r.poolType = "RT" ∨ r.poolType = "HDT"
    · refine Or.inr (Or.inl ⟨r, h, ht, ?_⟩)
      rw [(poolRecord_tiered_facts p m r w h ht).2.2.1]
      simp only [tieredElement, hp]
    · have ht2 : r.poolType = "HDP" ∨ r.poolType = "HTI" := by
        rcases hpt with h1 | h1 | h1 | h1
        · exact absurd (Or.inl h1) ht
        · exact absurd (Or.inr h1) ht
        · exact Or.inl h1
        · exact Or.inr h1
      refine Or.inr (Or.inr ⟨r, h, ht2, ?_⟩)
      rw [(poolRecord_thin_facts p m r w h ht2).2.2.1]
      simp only [thinElement, hp]

/-- Witness of the amended C12 on the `RT` pool of 1024 MiB with 128 MiB free:
the value 0.125 = `1 * 2^-3` is written as 12 hundredths, one of the two nearest
numbers of hundredths and the even one. -/
theorem C12_values_written_half_even_witness :
    (mainParams "stdout").RoundPrecision = 2 ∧ Classifiable (plainRecord "RT" 1024 128) ∧
    FormatFloat (F64.fin false 1 (-3)) 2 = renderFixed false (F64.fixedDigits 1 (-3) 2) 2 ∧
    IsNearestEven (F64.fixedDigits 1 (-3) 2) (F64.shiftUp (1 * 10 ^ 2) (-3))
      (F64.shiftUp 1 (-(-3))) ∧
    F64.fixedDigits 1 (-3) 2 = 12 ∧
    FormatFloat (F64.div (F64.ofNat 128) Mb2Gb) 2 = "0.12" :=
  ⟨rfl, Or.inr ⟨plainNumbers "RT" 1024 128, plainRecord_fields "RT" 1024 128, Or.inl rfl⟩,
    ((C12_values_written_half_even (mainParams "stdout") (plainRecord "RT" 1024 128) World.init
      rfl (Or.inr ⟨plainNumbers "RT" 1024 128, plainRecord_fields "RT" 1024 128,
        Or.inl rfl⟩)).2.1 false 1 (-3)).1,
    ((C12_values_written_half_even (mainParams "stdout") (plainRecord "RT" 1024 128) World.init
      rfl (Or.inr ⟨plainNumbers "RT" 1024 128, plainRecord_fields "RT" 1024 128,
        Or.inl rfl⟩)).2.1 false 1 (-3)).2,
    by decide,
    (C12_values_written_half_even (mainParams "stdout") (plainRecord "RT" 1024 128) World.init
      rfl (Or.inr ⟨plainNumbers "RT" 1024 128, plainRecord_fields "RT" 1024 128,
        Or.inl rfl⟩)).2.2.2⟩

/-! ## C13 -/

set_option maxRecDepth 100000 in
/-- C13. In `float64` arithmetic `RoundFloat64(x, 2)` is `math.Ceil(100*x)/100`
when the fractional part that `math.Modf` returns for the product `100*x` is
`>= 0.5`, and `math.Floor(100*x)/100` otherwise, for every `x` (the infinities
and NaN included); on the doubles nearest to 3.005 and to 3.004 it returns the
doubles nearest to 3.01 and to 3.00 (the product `100 * 3.005` rounds to
exactly 300.5). -/
theorem C13_round_float64 :
    (∀ x : F64,
      RoundFloat64 x 2 =
        if F64.ge (F64.Modf (F64.mul (F64.ofNat 100) x)).2 (F64.round false 1 2) = true
        then F64.div (F64.Ceil (F64.mul (F64.ofNat 100) x)) (F64.ofNat 100)
        else F64.div (F64.Floor (F64.mul (F64.ofNat 100) x)) (F64.ofNat 100)) ∧
    RoundFloat64 (F64.round false 3005 1000) 2 = F64.round false 301 100 ∧
    F64.eq (F64.Modf (F64.mul (F64.ofNat 100) (F64.round false 3005 1000))).2
      (F64.round false 1 2) = true ∧
    FormatFloat (RoundFloat64 (F64.round false 3005 1000) 2) 2 = "3.01" ∧
    RoundFloat64 (F64.round false 3004 1000) 2 = F64.ofNat 3 ∧
    FormatFloat (RoundFloat64 (F64.round false 3004 1000) 2) 2 = "3.00" := by
  refine ⟨fun x => ?_, by decide, by decide, by decide, by decide, by decide⟩
  have h100 : F64.ofNat (10 ^ 2) = F64.ofNat 100 := rfl
  unfold RoundFloat64 F64.Pow10
  simp only [h100]
  split_ifs <;> rfl

/-! ## C14 -/

/-- A quotient by a zero is NaN or an infinity. -/
theorem div_zero_nonfinite (x y : F64) (h : F64.eq y F64.zero = true) :
    IsNonFiniteText (FormatFloat (F64.div x y) 2) ∧
    ∀ prec, IsNonFiniteText (FormatFloat (F64.div x y) prec) := by
  have key : ∀ prec, IsNonFiniteText (FormatFloat (F64.div x y) prec) := by
    intro prec
    cases y with
    | nan => simp [F64.eq] at h
    | inf s => simp [F64.eq, F64.zero] at h
    | fin s m e =>
      have hm : m = 0 := by
        by_contra hne
        have h1 := shiftUp_eq_zero m (e - min e 0)
        simp [F64.eq, F64.zero, hne] at h
        have h2 : ∀ k, F64.shiftUp 0 k = 0 := fun k => (shiftUp_eq_zero 0 k).2 rfl
        rw [h2] at h
        exact hne (h1.1 h.2)
      subst hm
      cases x with
      | nan => exact Or.inr (Or.inr rfl)
      | inf t =>
        simp only [F64.div]
        cases (xor t s)
        · exact Or.inl rfl
        · exact Or.inr (Or.inl rfl)
      | fin t n f =>
        simp only [F64.div, if_true]
        split
        · exact Or.inr (Or.inr rfl)
        · cases (xor t s)
          · exact Or.inl rfl
          · exact Or.inr (Or.inl rfl)
  exact ⟨key 2, key⟩


/-- Scenario C is a record with the FMC elements. -/
theorem scenarioC_fields : HasFMCFields scenarioC scenarioCNumbers :=
  ⟨rfl, rfl, fun _ => rfl, rfl, rfl, rfl, rfl, rfl, rfl⟩

set_option maxRecDepth 100000 in
/-- C14 fails as stated: Scenario C is an all-flash record with
`usedPhysicalCapacity` 0; the loop body returns normally and emits the block of
the record, whose total ratio and effective free capacity read `+Inf`. -/
theorem C14_counterexample :
    HasFMCFields scenarioC scenarioCNumbers ∧
    F64.eq scenarioCNumbers.usedPhysicalCapacity F64.zero = true ∧
    (poolRecord (mainParams "stdout") scenarioC World.init).isOk = true ∧
    (poolRecord (mainParams "stdout") scenarioC World.init).world.rendered =
      [[["Lacsap-Hitachi-Start"],
        ["Pool ID", "20"],
        ["Pool name", "FMC_HDP"],
        ["Total physical capacity [GB]", "4795.18"],
        ["Used physical capacity [GB]", "0.00"],
        ["Free physical capacity [GB]", "8631.53"],
        ["Compression ratio FMC", "3.87"],
        ["Compression ratio total", "+Inf"],
        ["Effective total GB free [GB]", "+Inf"],
        ["Lacsap-Hitachi-End"]]] :=
  ⟨scenarioC_fields, by decide, by decide, by decide⟩

/-- C14, amended. For a record with the FMC elements nothing fails, also when
a divisor is zero: the loop body returns and emits the block of the record, and
when `usedPhysicalCapacity` (or `usedPhysicalFMCPoolVolumesCapacity`) is zero
the total ratio (or the FMC ratio) is the `float64` quotient by zero, written
`+Inf`, `-Inf` or `NaN`. -/
theorem C14_zero_divisor_emitted (p : Params) (m : List (String × Value)) (r : FMCNumbers)
    (w : World) (h : HasFMCFields m r) :
    (poolRecord p m w).isOk = true ∧
    EmittedBlock p w (poolRecord p m w).world (emittedElement p m w) ∧
    (F64.eq r.usedPhysicalCapacity F64.zero = true →
      IsNonFiniteText (emittedElement p m w).CompressionRatioTotal) ∧
    (F64.eq r.usedPhysicalFMCPoolVolumesCapacity F64.zero = true →
      IsNonFiniteText (emittedElement p m w).FMCCompressionRatio) := by
  obtain ⟨a, b, c⟩ := poolRecord_fmc_facts p m r w h
  refine ⟨a, c, ?_, ?_⟩
  · intro h0
    rw [b]
    exact (div_zero_nonfinite _ _ h0).2 _
  · intro h0
    rw [b]
    exact (div_zero_nonfinite _ _ h0).2 _

set_option maxRecDepth 100000 in
/-- Witness of the amended C14 on Scenario C. -/
theorem C14_zero_divisor_emitted_witness :
    HasFMCFields scenarioC scenarioCNumbers ∧
    F64.eq scenarioCNumbers.usedPhysicalCapacity F64.zero = true ∧
    (poolRecord (mainParams "csv") scenarioC World.init).isOk = true ∧
    IsNonFiniteText (emittedElement (mainParams "csv") scenarioC World.init).CompressionRatioTotal :=
  ⟨scenarioC_fields, by decide,
    (C14_zero_divisor_emitted (mainParams "csv") scenarioC scenarioCNumbers World.init
      scenarioC_fields).1,
    (C14_zero_divisor_emitted (mainParams "csv") scenarioC scenarioCNumbers World.init
      scenarioC_fields).2.2.1 (by decide)⟩

/-! ## C15 -/

set_option maxRecDepth 100000 in
/-- C15 fails as stated: for Scenario B the total physical capacity emitted is
9765.62, not 9765.63 (10000000/1024 is exactly 9765.625, halfway between the
two, and `FormatFloat` rounds it to the even neighbour). -/
theorem C15_counterexample :
    (poolRecord (mainParams "stdout") scenarioB World.init).isOk = true ∧
    (emittedElement (mainParams "stdout") scenarioB World.init).totalPhysicalCapacity =
      "9765.62" ∧
    (emittedElement (mainParams "stdout") scenarioB World.init).totalPhysicalCapacity ≠
      "9765.63" :=
  ⟨by decide, by decide, by decide⟩

set_option maxRecDepth 100000 in
/-- C15, amended. For Scenario B the loop body writes the line of the tiered
block and emits total 9765.62, used 5859.38, free 3906.25, both ratios -1.00
and effective free 3906.25, in `stdout` mode as one table and in `csv` mode as
ten rows. -/
theorem C15_scenarioB_values :
    (poolRecord (mainParams "stdout") scenarioB World.init).isOk = true ∧
    (poolRecord (mainParams "stdout") scenarioB World.init).world.verbose =
      ["No FMC HDT Pool"] ∧
    (poolRecord (mainParams "stdout") scenarioB World.init).world.rendered =
      [[["Lacsap-Hitachi-Start"],
        ["Pool ID", "0"],
        ["Pool name", "FMD_Pool"],
        ["Total physical capacity [GB]", "9765.62"],
        ["Used physical capacity [GB]", "5859.38"],
        ["Free physical capacity [GB]", "3906.25"],
        ["Compression ratio FMC", "-1.00"],
        ["Compression ratio total", "-1.00"],
        ["Effective total GB free [GB]", "3906.25"],
        ["Lacsap-Hitachi-End"]]] ∧
    (poolRecord (mainParams "csv") scenarioB World.init).world.OutData =
      [["Lacsap-Hitachi-Start"],
        ["Pool ID(string)", "0"],
        ["Pool name(string)", "FMD_Pool"],
        ["Total physical capacity [GB](float64)", "9765.62"],
        ["Used physical capacity [GB](float64)", "5859.38"],
        ["Free physical capacity [GB](float64)", "3906.25"],
        ["Compression ratio FMC", "-1.00"],
        ["Compression ratio total(string)", "-1.00"],
        ["Effective total GB free [GB](float64)", "3906.25"],
        ["Lacsap-Hitachi-End"]] := by
  refine ⟨by decide, by decide, by decide, by decide⟩

/-! ## Blocks and the loop -/

/-- The loop body on a record without FMC elements whose pool type is none of
the four known ones changes nothing. -/
theorem poolRecord_unclassifiable (p : Params) (m : List (String × Value)) (poolType : String)
    (w : World) (h : IsUnclassifiable m poolType) : poolRecord p m w = .ok () w := by
  obtain ⟨⟨poolId, hid⟩, ⟨poolName, hname⟩, ⟨free, hfree⟩, hnil, hty, h1, h2, h3, h4⟩ := h
  rw [poolRecord_head p m w poolId poolName free hid hname (hfree w)]
  simp only [poolBranches, hnil, Value.notNil, noFMCBranches, bind_apply, Exec.bind,
    assertString, hty, Value.eqString, h1, h2, h3, h4, or_self, if_false, pure_apply,
    decide_False, Bool.false_eq_true]

/-- The rows of a classified record do not depend on the state the loop body
starts in: every field the rows show is overwritten. -/
theorem rows_independent (p : Params) (m : List (String × Value)) (h : Classifiable m)
    (w : World) :
    (PoolInfoFormatCSV [] (emittedElement p m w) p).1 = csvRows p m ∧
    (PoolInfoFormatTable (emittedElement p m w) p).1 = tableRows p m := by
  unfold csvRows tableRows
  rcases h with ⟨r, h⟩ | ⟨r, h, hpt⟩
  · rw [(poolRecord_fmc_facts p m r w h).2.1, (poolRecord_fmc_facts p m r World.init h).2.1]
    exact ⟨rfl, rfl⟩
  · by_cases ht : r.poolType = "RT" ∨ r.poolType = "HDT"
    · rw [(poolRecord_tiered_facts p m r w h ht).2.2.1,
        (poolRecord_tiered_facts p m r World.init h ht).2.2.1]
      exact ⟨rfl, rfl⟩
    · have ht2 : r.poolType = "HDP" ∨ r.poolType = "HTI" := by
        rcases hpt with h1 | h1 | h1 | h1
        · exact absurd (Or.inl h1) ht
        · exact absurd (Or.inr h1) ht
        · exact Or.inl h1
        · exact Or.inr h1
      rw [(poolRecord_thin_facts p m r w h ht2).2.2.1,
        (poolRecord_thin_facts p m r World.init h ht2).2.2.1]
      exact ⟨rfl, rfl⟩

/-- A classified record returns and emits its block. -/
theorem classifiable_facts (p : Params) (m : List (String × Value)) (h : Classifiable m)
    (w : World) :
    (poolRecord p m w).isOk = true ∧
    EmittedBlock p w (poolRecord p m w).world (emittedElement p m w) := by
  rcases h with ⟨r, h⟩ | ⟨r, h, hpt⟩
  · exact ⟨(poolRecord_fmc_facts p m r w h).1, (poolRecord_fmc_facts p m r w h).2.2⟩
  · by_cases ht : r.poolType = "RT" ∨ r.poolType = "HDT"
    · exact ⟨(poolRecord_tiered_facts p m r w h ht).1, (poolRecord_tiered_facts p m r w h ht).2.2.2⟩
    · have ht2 : r.poolType = "HDP" ∨ r.poolType = "HTI" := by
        rcases hpt with h1 | h1 | h1 | h1
        · exact absurd (Or.inl h1) ht
        · exact absurd (Or.inr h1) ht
        · exact Or.inl h1
        · exact Or.inr h1
      exact ⟨(poolRecord_thin_facts p m r w h ht2).1, (poolRecord_thin_facts p m r w h ht2).2.2.2⟩

/-- A result that is a normal return is `ok` of its state. -/
theorem res_of_isOk (r : Res Unit) (h : r.isOk = true) : r = .ok () r.world := by
  cases r with
  | ok a w => rfl
  | panic w => simp [Res.isOk] at h
  | exit c w => simp [Res.isOk] at h

/-- What a classified record adds, from any state: its own rows, after the rows
collected so far (`csv`), or its own table, after the tables rendered so far
(`stdout`). -/
theorem classifiable_step (p : Params) (m : List (String × Value)) (h : Classifiable m)
    (w : World) :
    poolRecord p m w = .ok () (poolRecord p m w).world ∧
    (p.OutputStyle = "csv" →
      (poolRecord p m w).world.OutData = w.OutData ++ csvRows p m ∧
      (poolRecord p m w).world.rendered = w.rendered) ∧
    (p.OutputStyle = "stdout" →
      (poolRecord p m w).world.rendered = w.rendered ++ [tableRows p m]) := by
  obtain ⟨a, b⟩ := classifiable_facts p m h w
  obtain ⟨c, d⟩ := rows_independent p m h w
  refine ⟨res_of_isOk _ a, ?_, ?_⟩
  · intro hc
    rw [← c]
    exact b.2 hc
  · intro hs
    rw [← d]
    exact b.1 hs

/-- What an element of the array that does not panic adds, from any state: the
rows (`csv`) or the tables (`stdout`) it produces on its own. -/
theorem record_step (p : Params) (m : List (String × Value))
    (h : Classifiable m ∨ ∃ poolType, IsUnclassifiable m poolType) (w : World) :
    poolRecord p m w = .ok () (poolRecord p m w).world ∧
    (p.OutputStyle = "csv" →
      (poolRecord p m w).world.OutData = w.OutData ++ recordRows p (.map m) ∧
      (poolRecord p m w).world.rendered = w.rendered) ∧
    (p.OutputStyle = "stdout" →
      (poolRecord p m w).world.rendered = w.rendered ++ recordTables p (.map m)) := by
  rcases h with h | ⟨poolType, h⟩
  · obtain ⟨a, b, c⟩ := classifiable_step p m h w
    obtain ⟨_, b0, c0⟩ := classifiable_step p m h World.init
    refine ⟨a, ?_, ?_⟩
    · intro hc
      have e : recordRows p (.map m) = csvRows p m := by
        simp only [recordRows, (b0 hc).1]
        rfl
      rw [e]
      exact b hc
    · intro hs
      have e : recordTables p (.map m) = [tableRows p m] := by
        simp only [recordTables, c0 hs]
        rfl
      rw [e]
      exact c hs
  · have e := poolRecord_unclassifiable p m poolType w h
    have e0 := poolRecord_unclassifiable p m poolType World.init h
    have r0 : recordRows p (.map m) = [] := by
      show (poolRecord p m World.init).world.OutData = []
      rw [e0]; rfl
    have t0 : recordTables p (.map m) = [] := by
      show (poolRecord p m World.init).world.rendered = []
      rw [e0]; rfl
    rw [e, r0, t0]
    refine ⟨rfl, ?_, ?_⟩
    · intro _
      simp only [Res.world, List.append_nil, and_self]
    · intro _
      simp only [Res.world, List.append_nil]

/-- The loop over an array none of whose elements panics returns, and adds the
rows (`csv`) or the tables (`stdout`) of its elements in the order of the array. -/
theorem recordLoop_run (p : Params) (data : List Value) (hall : AllRecordsRun data) :
    ∀ w : World,
      recordLoop p data w = .ok () (recordLoop p data w).world ∧
      (p.OutputStyle = "csv" →
        (recordLoop p data w).world.OutData = w.OutData ++ data.flatMap (recordRows p) ∧
        (recordLoop p data w).world.rendered = w.rendered) ∧
      (p.OutputStyle = "stdout" →
        (recordLoop p data w).world.rendered =
          w.rendered ++ data.flatMap (recordTables p)) := by
  induction data with
  | nil =>
    intro w
    simp [recordLoop, pure_apply, Res.world]
  | cons v rest ih =>
    intro w
    obtain ⟨m, hv, hm⟩ := hall v (List.mem_cons_self _ _)
    subst hv
    have hrest : AllRecordsRun rest := fun u hu => hall u (List.mem_cons_of_mem _ hu)
    obtain ⟨a, b, c⟩ := record_step p m hm w
    obtain ⟨a1, b1, c1⟩ := ih hrest (poolRecord p m w).world
    have e : recordLoop p (.map m :: rest) w = recordLoop p rest (poolRecord p m w).world := by
      simp only [recordLoop, bind_apply, Exec.bind, assertMap]
      conv_lhs => rw [a]
    rw [e]
    refine ⟨a1, ?_, ?_⟩
    · intro hc
      rw [(b1 hc).1, (b1 hc).2, (b hc).1, (b hc).2, List.flatMap_cons, List.append_assoc]
      exact ⟨rfl, rfl⟩
    · intro hs
      rw [c1 hs, c hs, List.flatMap_cons, List.append_assoc]

/-- In `csv` mode, on a response in which the name of the data element occurs,
whose only key is `data` and none of whose records panics, `PoolsGet` returns
and has handed the renderer one thing: the rows of the records in the order of
the array. -/
theorem PoolsGet_csv (p : Params) (Out : String) (data : List Value)
    (hc : p.OutputStyle = "csv")
    (hOut : containsString Out.data p.DataElement.data = true)
    (hall : AllRecordsRun data) :
    (PoolsGet p Out [("data", .slice data)] World.init).isOk = true ∧
    (PoolsGet p Out [("data", .slice data)] World.init).world.rendered =
      [data.flatMap (recordRows p)] := by
  obtain ⟨a, b, _⟩ := recordLoop_run p data hall World.atLoop
  obtain ⟨b1, b2⟩ := b hc
  have a1 : recordLoop p data (⟨World.init.PoolElement, [], false,
      World.init.verbose ++ ["Get general information of all Pools start"] ++
        ["Get general information of all Pools end"],
      World.init.rendered⟩ : World) = .ok () (recordLoop p data World.atLoop).world := a
  have e : PoolsGet p Out [("data", .slice data)] World.init =
      .ok ("", false)
        { (recordLoop p data World.atLoop).world with
          rendered := (recordLoop p data World.atLoop).world.rendered ++
            [(recordLoop p data World.atLoop).world.OutData] } := by
    simp only [PoolsGet, bind_apply, Exec.bind, VerbosePrintln, CheckIsInString, hOut,
      Bool.true_eq_false, Bool.false_eq_true, List.length_singleton, ne_eq,
      not_true_eq_false, if_false, pure_apply, index, if_true, assertSlice, hc,
      OutputStandardFormat, a1]
  rw [e]
  refine ⟨rfl, ?_⟩
  show (recordLoop p data World.atLoop).world.rendered ++
    [(recordLoop p data World.atLoop).world.OutData] = _
  rw [b1, b2]
  rfl

/-! ## C16 -/

/-- C16. An array of records none of which panics, in `csv` mode: the loop
returns, renders nothing, and leaves in `OutData` the rows collected before
followed by the rows of the elements in the order of the array, where a
classified record contributes its block of ten rows and a record of unknown
pool type contributes none; `PoolsGet`, on a response in which the name of the
data element occurs (so that `CheckIsInString` lets it through) and whose only
key `data` holds the array, then hands exactly these rows to the renderer,
once. In `stdout` mode the tables rendered are those of the elements
in the order of the array. Every call of `PoolInfoFormatCSV` returns the rows
it was given followed by the ten rows of the pool. -/
theorem C16_blocks_in_input_order (p : Params) (data : List Value) (w : World)
    (hall : AllRecordsRun data) :
    (recordLoop p data w).isOk = true ∧
    (p.OutputStyle = "csv" →
      (recordLoop p data w).world.OutData = w.OutData ++ data.flatMap (recordRows p) ∧
      (recordLoop p data w).world.rendered = w.rendered ∧
      ∀ Out : String, containsString Out.data p.DataElement.data = true →
        (PoolsGet p Out [("data", .slice data)] World.init).isOk = true ∧
        (PoolsGet p Out [("data", .slice data)] World.init).world.rendered =
          [data.flatMap (recordRows p)]) ∧
    (p.OutputStyle = "stdout" →
      (recordLoop p data w).world.rendered = w.rendered ++ data.flatMap (recordTables p)) ∧
    (∀ m, Classifiable m →
      (p.OutputStyle = "csv" →
        recordRows p (.map m) = csvRows p m ∧ (recordRows p (.map m)).length = 10) ∧
      (p.OutputStyle = "stdout" → recordTables p (.map m) = [tableRows p m])) ∧
    (∀ m poolType, IsUnclassifiable m poolType →
      recordRows p (.map m) = [] ∧ recordTables p (.map m) = []) ∧
    (∀ (OutData : List (List String)) (e : PoolInfo),
      (PoolInfoFormatCSV OutData e p).1 = OutData ++ (PoolInfoFormatCSV [] e p).1 ∧
      ((PoolInfoFormatCSV [] e p).1).length = 10) := by
  obtain ⟨a, b, c⟩ := recordLoop_run p data hall w
  refine ⟨by rw [a]; rfl, ?_, c, ?_, ?_, ?_⟩
  · intro hc
    exact ⟨(b hc).1, (b hc).2, fun Out hOut => PoolsGet_csv p Out data hc hOut hall⟩
  · intro m hm
    obtain ⟨_, b0, c0⟩ := classifiable_step p m hm World.init
    constructor
    · intro hc
      have e : recordRows p (.map m) = csvRows p m := by
        simp only [recordRows, (b0 hc).1]
        rfl
      rw [e]
      exact ⟨rfl, rfl⟩
    · intro hs
      simp only [recordTables, c0 hs]
      rfl
  · intro m poolType hm
    have e0 := poolRecord_unclassifiable p m poolType World.init hm
    constructor
    · show (poolRecord p m World.init).world.OutData = []
      rw [e0]; rfl
    · show (poolRecord p m World.init).world.rendered = []
      rw [e0]; rfl
  · intro OutData e
    simp [PoolInfoFormatCSV]

/-- No element of `sampleArray` panics. -/
theorem sampleArray_runs : AllRecordsRun sampleArray := by
  intro v hv
  simp only [sampleArray, List.mem_cons, List.mem_singleton, List.not_mem_nil, or_false] at hv
  rcases hv with h | h | h
  · exact ⟨_, h, Or.inl (Or.inl ⟨_, scenarioA_fields⟩)⟩
  · exact ⟨_, h, Or.inr ⟨"XYZ", ⟨_, rfl⟩, ⟨_, rfl⟩, ⟨_, fun _ => rfl⟩, rfl, rfl, by decide,
      by decide, by decide, by decide⟩⟩
  · exact ⟨_, h, Or.inl (Or.inr ⟨_, plainRecord_fields "HDP" 11739672 2808204,
      Or.inr (Or.inr (Or.inl rfl))⟩)⟩

set_option maxRecDepth 100000 in
/-- Witness of C16 on `sampleArray` in `csv` mode: the twenty rows collected are
the block of Scenario A followed by the block of the `HDP` pool. -/
theorem C16_blocks_in_input_order_witness :
    AllRecordsRun sampleArray ∧
    (recordLoop (mainParams "csv") sampleArray World.init).isOk = true ∧
    (recordLoop (mainParams "csv") sampleArray World.init).world.OutData =
      World.init.OutData ++ sampleArray.flatMap (recordRows (mainParams "csv")) ∧
    (PoolsGet (mainParams "csv") sampleOut [("data", .slice sampleArray)]
        World.init).world.rendered = [sampleArray.flatMap (recordRows (mainParams "csv"))] ∧
    sampleArray.flatMap (recordRows (mainParams "csv")) =
      csvRows (mainParams "csv") scenarioA ++
        csvRows (mainParams "csv") (plainRecord "HDP" 11739672 2808204) :=
  ⟨sampleArray_runs,
    (C16_blocks_in_input_order (mainParams "csv") sampleArray World.init sampleArray_runs).1,
    ((C16_blocks_in_input_order (mainParams "csv") sampleArray World.init sampleArray_runs).2.1
      rfl).1,
    (((C16_blocks_in_input_order (mainParams "csv") sampleArray World.init sampleArray_runs).2.1
      rfl).2.2 sampleOut (by decide)).2,
    by decide⟩

/-! ## C17 -/

/-- C17. `PoolInfoFormatTable` returns ten rows whatever the `PoolInfo` and the
parameters are: the start marker, the eight (label, value) pairs in the fixed
order with every value taken unchanged from the `PoolInfo`, and the end marker;
its state is `false`. -/
theorem C17_table_rows (e : PoolInfo) (p : Params) :
    PoolInfoFormatTable e p =
      ([[p.ElementStringStart],
        ["Pool ID", e.PoolID],
        ["Pool name", e.PoolName],
        ["Total physical capacity [GB]", e.totalPhysicalCapacity],
        ["Used physical capacity [GB]", e.usedPhysicalCapacity],
        ["Free physical capacity [GB]", e.availablePhysicalVolumeCapacity],
        ["Compression ratio FMC", e.FMCCompressionRatio],
        ["Compression ratio total", e.CompressionRatioTotal],
        ["Effective total GB free [GB]", e.EffectiveGBFree],
        [p.ElementStringEnd]], false) ∧
    (PoolInfoFormatTable e p).1.length = 10 :=
  ⟨rfl, rfl⟩

/-! ## C18 -/

/-- C18. The block a classified record emits is a function of the record and
the parameters alone: from every state (whatever records came before) the loop
body returns, in `csv` mode it appends the rows `csvRows p m` to the rows
collected so far, in `stdout` mode it renders the table `tableRows p m`; the
rows built from the `PoolElement` it leaves are the same for any two starting
states, although the other fields of `PoolElement` are carried over; and after
any array of records that do not panic, the block emitted for the record is
that same block. -/
theorem C18_block_depends_on_record_alone (p : Params) (m : List (String × Value))
    (h : Classifiable m) :
    (∀ w, (poolRecord p m w).isOk = true) ∧
    (p.OutputStyle = "csv" →
      ∀ w, (poolRecord p m w).world.OutData = w.OutData ++ csvRows p m) ∧
    (p.OutputStyle = "stdout" →
      ∀ w, (poolRecord p m w).world.rendered = w.rendered ++ [tableRows p m]) ∧
    (∀ w1 w2,
      PoolInfoFormatCSV [] (emittedElement p m w1) p =
        PoolInfoFormatCSV [] (emittedElement p m w2) p ∧
      PoolInfoFormatTable (emittedElement p m w1) p =
        PoolInfoFormatTable (emittedElement p m w2) p) ∧
    (∀ (pre : List Value) (w : World), AllRecordsRun pre →
      (p.OutputStyle = "csv" →
        (recordLoop p (pre ++ [.map m]) w).world.OutData =
          (recordLoop p pre w).world.OutData ++ csvRows p m) ∧
      (p.OutputStyle = "stdout" →
        (recordLoop p (pre ++ [.map m]) w).world.rendered =
          (recordLoop p pre w).world.rendered ++ [tableRows p m])) := by
  refine ⟨fun w => (classifiable_facts p m h w).1,
    fun hc w => ((classifiable_step p m h w).2.1 hc).1,
    fun hs w => (classifiable_step p m h w).2.2 hs, ?_, ?_⟩
  · intro w1 w2
    obtain ⟨a1, b1⟩ := rows_independent p m h w1
    obtain ⟨a2, b2⟩ := rows_independent p m h w2
    constructor
    · exact Prod.ext (a1.trans a2.symm) rfl
    · exact Prod.ext (b1.trans b2.symm) rfl
  · intro pre w hpre
    have hall : AllRecordsRun (pre ++ [.map m]) := by
      intro v hv
      rcases List.mem_append.1 hv with hv | hv
      · exact hpre v hv
      · exact ⟨m, List.mem_singleton.1 hv, Or.inl h⟩
    obtain ⟨_, b, c⟩ := recordLoop_run p (pre ++ [.map m]) hall w
    obtain ⟨_, b0, c0⟩ := recordLoop_run p pre hpre w
    obtain ⟨_, b1, c1⟩ := classifiable_step p m h World.init
    constructor
    · intro hc
      have e : recordRows p (.map m) = csvRows p m := by
        simp only [recordRows, (b1 hc).1]
        rfl
      rw [(b hc).1, (b0 hc).1, List.flatMap_append, List.flatMap_cons, List.flatMap_nil,
        List.append_nil, e, List.append_assoc]
    · intro hs
      have e : recordTables p (.map m) = [tableRows p m] := by
        simp only [recordTables, c1 hs]
        rfl
      rw [c hs, c0 hs, List.flatMap_append, List.flatMap_cons, List.flatMap_nil,
        List.append_nil, e, List.append_assoc]

set_option maxRecDepth 100000 in
/-- Witness of C18: the `HDP` pool 0 of the test data, processed after Scenario A
and a pool of unknown type, adds the same ten rows as on its own. -/
theorem C18_block_depends_on_record_alone_witness :
    Classifiable (plainRecord "HDP" 11739672 2808204) ∧
    (recordLoop (mainParams "csv")
        ([.map scenarioA, .map (plainRecord "XYZ" 1024 128)] ++
          [.map (plainRecord "HDP" 11739672 2808204)]) World.init).world.OutData =
      (recordLoop (mainParams "csv") [.map scenarioA, .map (plainRecord "XYZ" 1024 128)]
        World.init).world.OutData ++
        csvRows (mainParams "csv") (plainRecord "HDP" 11739672 2808204) ∧
    csvRows (mainParams "csv") (plainRecord "HDP" 11739672 2808204) =
      [["Lacsap-Hitachi-Start"],
        ["Pool ID(string)", "0"],
        ["Pool name(string)", "FMD_Pool"],
        ["Total physical capacity [GB](float64)", "11464.52"],
        ["Used physical capacity [GB](float64)", "8722.14"],
        ["Free physical capacity [GB](float64)", "2742.39"],
        ["Compression ratio FMC", "-1.00"],
        ["Compression ratio total(string)", "-1.00"],
        ["Effective total GB free [GB](float64)", "2742.39"],
        ["Lacsap-Hitachi-End"]] :=
  ⟨Or.inr ⟨_, plainRecord_fields "HDP" 11739672 2808204, Or.inr (Or.inr (Or.inl rfl))⟩,
    ((C18_block_depends_on_record_alone (mainParams "csv") (plainRecord "HDP" 11739672 2808204)
      (Or.inr ⟨_, plainRecord_fields "HDP" 11739672 2808204,
        Or.inr (Or.inr (Or.inl rfl))⟩)).2.2.2.2
      [.map scenarioA, .map (plainRecord "XYZ" 1024 128)] World.init
      (fun v hv => sampleArray_runs v (by
        simp only [sampleArray, List.mem_cons, List.mem_singleton, List.not_mem_nil,
          or_false] at hv ⊢
        rcases hv with h | h
        · exact Or.inl h
        · exact Or.inr (Or.inl h)))).1 rfl,
    by decide⟩

/-! ## C19 -/

/-- C19. On a record with the FMC elements the all-flash branch and the mixed
branch both return and leave the same `PoolElement`, the same `OutData`, the
same rendered tables and the same `State`; they differ by the line written
through `Verbose.Println` only. Hence two records that agree on every element
but `availablePhysicalFMCPoolVolumesCapacity` emit the same eight fields. -/
theorem C19_fmc_branches_agree (p : Params) (m : List (String × Value)) (r : FMCNumbers)
    (w : World) (h : HasFMCFields m r) :
    ((allFlashBranch p m r.effectiveFree w).isOk = true ∧
      (mixedBranch p m r.effectiveFree w).isOk = true ∧
      (allFlashBranch p m r.effectiveFree w).world.PoolElement =
        (mixedBranch p m r.effectiveFree w).world.PoolElement ∧
      (allFlashBranch p m r.effectiveFree w).world.OutData =
        (mixedBranch p m r.effectiveFree w).world.OutData ∧
      (allFlashBranch p m r.effectiveFree w).world.rendered =
        (mixedBranch p m r.effectiveFree w).world.rendered ∧
      (allFlashBranch p m r.effectiveFree w).world.State =
        (mixedBranch p m r.effectiveFree w).world.State) ∧
    (∀ (m2 : List (String × Value)) (apf : F64),
      HasFMCFields m2 { r with availablePhysicalFMCPoolVolumesCapacity := apf } →
        emittedElement p m2 w = emittedElement p m w ∧
        (poolRecord p m2 w).world.OutData = (poolRecord p m w).world.OutData ∧
        (poolRecord p m2 w).world.rendered = (poolRecord p m w).world.rendered) := by
  have key : ∀ (l1 l2 : List String) (e : PoolInfo),
      (afterOutput p { w with verbose := l1, PoolElement := e }).PoolElement =
        (afterOutput p { w with verbose := l2, PoolElement := e }).PoolElement ∧
      (afterOutput p { w with verbose := l1, PoolElement := e }).OutData =
        (afterOutput p { w with verbose := l2, PoolElement := e }).OutData ∧
      (afterOutput p { w with verbose := l1, PoolElement := e }).rendered =
        (afterOutput p { w with verbose := l2, PoolElement := e }).rendered ∧
      (afterOutput p { w with verbose := l1, PoolElement := e }).State =
        (afterOutput p { w with verbose := l2, PoolElement := e }).State := by
    intro l1 l2 e
    unfold afterOutput selectOutput
    split
    · exact ⟨rfl, rfl, rfl, rfl⟩
    · split <;> exact ⟨rfl, rfl, rfl, rfl⟩
  refine ⟨?_, ?_⟩
  · rw [allFlashBranch_run p m r w h, mixedBranch_run p m r w h]
    exact ⟨rfl, rfl, key _ _ _⟩
  · intro m2 apf h2
    unfold emittedElement
    rw [poolRecord_fmc p m2 _ w h2, poolRecord_fmc p m r w h]
    have hf : fmcElement p w.PoolElement
        { r with availablePhysicalFMCPoolVolumesCapacity := apf } =
        fmcElement p w.PoolElement r := rfl
    rw [hf]
    simp only [Res.world]
    exact ⟨(key _ _ _).1, (key _ _ _).2.1, (key _ _ _).2.2.1⟩

/-- Witness of C19 on Scenario A. -/
theorem C19_fmc_branches_agree_witness :
    HasFMCFields scenarioA scenarioANumbers ∧
    (allFlashBranch (mainParams "csv") scenarioA scenarioANumbers.effectiveFree
      World.init).world.PoolElement =
      (mixedBranch (mainParams "csv") scenarioA scenarioANumbers.effectiveFree
        World.init).world.PoolElement ∧
    (allFlashBranch (mainParams "csv") scenarioA scenarioANumbers.effectiveFree
      World.init).world.OutData =
      (mixedBranch (mainParams "csv") scenarioA scenarioANumbers.effectiveFree
        World.init).world.OutData :=
  ⟨scenarioA_fields,
    (C19_fmc_branches_agree (mainParams "csv") scenarioA scenarioANumbers World.init
      scenarioA_fields).1.2.2.1,
    (C19_fmc_branches_agree (mainParams "csv") scenarioA scenarioANumbers World.init
      scenarioA_fields).1.2.2.2.1⟩

/-! ## C20 -/

/-- C20. A record without `usedFMCPoolVolumesCapacity` whose `poolType` is a
string other than `RT`, `HDT`, `HDP` and `HTI`: the loop body returns without
a panic or an exit and leaves the state as it was (no row is added to `OutData`,
nothing is rendered, no line is written), and the loop goes on with the
records after it from that same state. -/
theorem C20_unknown_type_skipped (p : Params) (m : List (String × Value)) (poolType : String)
    (w : World) (rest : List Value) (h : IsUnclassifiable m poolType) :
    poolRecord p m w = .ok () w ∧
    recordLoop p (.map m :: rest) w = recordLoop p rest w := by
  have h1 := poolRecord_unclassifiable p m poolType w h
  refine ⟨h1, ?_⟩
  simp only [recordLoop, bind_apply, Exec.bind, assertMap, h1]

/-- Witness of C20: a pool of the unknown type `XYZ` followed by an `HDP` pool;
the ten rows collected are those of the second pool. -/
theorem C20_unknown_type_skipped_witness :
    IsUnclassifiable (plainRecord "XYZ" 1024 128) "XYZ" ∧
    poolRecord (mainParams "csv") (plainRecord "XYZ" 1024 128) World.init = .ok () World.init ∧
    recordLoop (mainParams "csv")
        [.map (plainRecord "XYZ" 1024 128), .map (plainRecord "HDP" 4096 1024)] World.init =
      recordLoop (mainParams "csv") [.map (plainRecord "HDP" 4096 1024)] World.init :=
  ⟨⟨⟨_, rfl⟩, ⟨_, rfl⟩, ⟨_, fun _ => rfl⟩, rfl, rfl, by decide, by decide, by decide, by decide⟩,
    (C20_unknown_type_skipped (mainParams "csv") (plainRecord "XYZ" 1024 128) "XYZ" World.init
      [.map (plainRecord "HDP" 4096 1024)]
      ⟨⟨_, rfl⟩, ⟨_, rfl⟩, ⟨_, fun _ => rfl⟩, rfl, rfl, by decide, by decide, by decide,
        by decide⟩).1,
    (C20_unknown_type_skipped (mainParams "csv") (plainRecord "XYZ" 1024 128) "XYZ" World.init
      [.map (plainRecord "HDP" 4096 1024)]
      ⟨⟨_, rfl⟩, ⟨_, rfl⟩, ⟨_, fun _ => rfl⟩, rfl, rfl, by decide, by decide, by decide,
        by decide⟩).2⟩

/-! ## C21 -/

/-- C21, counterexample. The answers `{}` (no key) and `{"a":1,"b":2}` (two
keys) decode to objects that do not have exactly one key, yet `PoolsGet` ends in
`os.Exit(202)`, not in `os.Exit(41)`: the text `data` does not occur in them, and
`CheckIsInString` ends the program before the answer is decoded and its keys are
counted. -/
theorem C21_counterexample :
    ([] : List (String × Value)).length ≠ 1 ∧
    PoolsGet (mainParams "csv") "\x7b\x7d" [] World.init =
      .exit 202 { World.init with
        verbose := ["Get general information of all Pools start"] } ∧
    (∀ w : World, PoolsGet (mainParams "csv") "\x7b\x7d" [] World.init ≠ .exit 41 w) ∧
    [("a", Value.float64 (F64.ofNat 1)), ("b", Value.float64 (F64.ofNat 2))].length ≠ 1 ∧
    PoolsGet (mainParams "csv") "\x7b\"a\":1,\"b\":2\x7d"
        [("a", Value.float64 (F64.ofNat 1)), ("b", Value.float64 (F64.ofNat 2))] World.init =
      .exit 202 { World.init with
        verbose := ["Get general information of all Pools start"] } := by
  have e : PoolsGet (mainParams "csv") "\x7b\x7d" [] World.init =
      .exit 202 { World.init with
        verbose := ["Get general information of all Pools start"] } := rfl
  refine ⟨by decide, e, ?_, by decide, rfl⟩
  intro w h
  rw [e] at h
  exact absurd (Res.exit.inj h).1 (by decide)

/-- C21, amended. When the decoded top-level object does not have exactly one
key, `PoolsGet` does not return: it ends in `os.Exit(41)` if the name of the
data element occurs in the text of the answer, and in `os.Exit(202)` of
`CheckIsInString` if it does not. In both cases only the first of its two lines
has been written, no element of the `data` array has been looked at
(`PoolElement` is untouched), no row has been collected and nothing has been
rendered. -/
theorem C21_wrong_shape_exits (p : Params) (Out : String)
    (JSONUnmarshalOut : List (String × Value)) (w : World)
    (h : JSONUnmarshalOut.length ≠ 1) :
    (containsString Out.data p.DataElement.data = true →
      PoolsGet p Out JSONUnmarshalOut w =
        .exit 41 { w with
          State := false
          verbose := w.verbose ++ ["Get general information of all Pools start"] }) ∧
    (containsString Out.data p.DataElement.data = false →
      PoolsGet p Out JSONUnmarshalOut w =
        .exit 202 { w with
          verbose := w.verbose ++ ["Get general information of all Pools start"] }) ∧
    (PoolsGet p Out JSONUnmarshalOut w).isOk = false ∧
    (PoolsGet p Out JSONUnmarshalOut w).world.PoolElement = w.PoolElement ∧
    (PoolsGet p Out JSONUnmarshalOut w).world.OutData = w.OutData ∧
    (PoolsGet p Out JSONUnmarshalOut w).world.rendered = w.rendered := by
  have e1 : containsString Out.data p.DataElement.data = true →
      PoolsGet p Out JSONUnmarshalOut w =
        .exit 41 { w with
          State := false
          verbose := w.verbose ++ ["Get general information of all Pools start"] } := by
    intro hOut
    simp only [PoolsGet, bind_apply, Exec.bind, VerbosePrintln, CheckIsInString, hOut,
      Bool.true_eq_false, Bool.false_eq_true, if_false, pure_apply, h, ne_eq,
      not_false_eq_true, if_true, osExit]
  have e2 : containsString Out.data p.DataElement.data = false →
      PoolsGet p Out JSONUnmarshalOut w =
        .exit 202 { w with
          verbose := w.verbose ++ ["Get general information of all Pools start"] } := by
    intro hOut
    simp only [PoolsGet, bind_apply, Exec.bind, VerbosePrintln, CheckIsInString, hOut,
      if_true]
  refine ⟨e1, e2, ?_⟩
  cases hOut : containsString Out.data p.DataElement.data
  · rw [e2 hOut]
    exact ⟨rfl, rfl, rfl, rfl⟩
  · rw [e1 hOut]
    exact ⟨rfl, rfl, rfl, rfl⟩

/-- Witness of C21: an answer with the two keys `data` and `errorSource`, the
first of which holds Scenario A, exits with status 41 and shows no row. -/
theorem C21_wrong_shape_exits_witness :
    [("data", Value.slice [.map scenarioA]), ("errorSource", Value.string "x")].length ≠ 1 ∧
    containsString twoKeysOut.data (mainParams "csv").DataElement.data = true ∧
    PoolsGet (mainParams "csv") twoKeysOut
        [("data", Value.slice [.map scenarioA]), ("errorSource", Value.string "x")] World.init =
      .exit 41 { World.init with
        State := false
        verbose := World.init.verbose ++ ["Get general information of all Pools start"] } ∧
    (PoolsGet (mainParams "csv") twoKeysOut
        [("data", Value.slice [.map scenarioA]), ("errorSource", Value.string "x")]
        World.init).world.rendered = [] :=
  ⟨by decide, by decide,
    (C21_wrong_shape_exits (mainParams "csv") twoKeysOut
      [("data", Value.slice [.map scenarioA]), ("errorSource", Value.string "x")] World.init
      (by decide)).1 (by decide),
    (C21_wrong_shape_exits (mainParams "csv") twoKeysOut
      [("data", Value.slice [.map scenarioA]), ("errorSource", Value.string "x")] World.init
      (by decide)).2.2.2.2.2⟩

/-! ## The LDEV string -/

/-- The conversion to `int64` of the double of a natural number below `2^53`. -/
theorem toInt64_ofNat (n : Nat) (h : n < 2 ^ 53) : F64.toInt64 (F64.ofNat n) = (n : Int) := by
  obtain ⟨m, j, e, hm⟩ := ofNat_exact n h
  rw [e]
  unfold F64.toInt64 F64.shiftUp
  have e1 : (-(j : Int)).toNat = 0 := by omega
  have e2 : (-(-(j : Int))).toNat = j := by omega
  simp only [e1, e2, pow_zero, Nat.mul_one, Nat.one_mul, Bool.false_eq_true, if_false]
  have hmn : m / 2 ^ j = n := by
    rw [pow_zero, Nat.mul_one] at hm
    rw [hm]
    exact Nat.mul_div_cancel _ (by positivity)
  rw [hmn]
  have h63 : (n : Int) < 2 ^ 63 := by
    have : (2 : Nat) ^ 53 ≤ 2 ^ 63 := Nat.pow_le_pow_right (by norm_num) (by norm_num)
    have h2 : n < 2 ^ 63 := lt_of_lt_of_le h this
    exact_mod_cast h2
  have h0 : -(2 ^ 63 : Int) ≤ (n : Int) := by
    have : (0 : Int) ≤ (n : Int) := Int.ofNat_nonneg n
    have : (0 : Int) < 2 ^ 63 := by norm_num
    omega
  rw [if_pos ⟨h0, h63⟩]

/-- The hexadecimal digits of a number below `16^4`: as many as it needs. -/
theorem toDigits_hex (n : Nat) (h : n < 65536) :
    Nat.toDigits 16 n =
      if n < 16 then [Nat.digitChar n]
      else if n < 256 then [Nat.digitChar (n / 16), Nat.digitChar (n % 16)]
      else if n < 4096 then
        [Nat.digitChar (n / 256), Nat.digitChar (n / 16 % 16), Nat.digitChar (n % 16)]
      else [Nat.digitChar (n / 4096), Nat.digitChar (n / 256 % 16),
        Nat.digitChar (n / 16 % 16), Nat.digitChar (n % 16)] := by
  unfold Nat.toDigits
  by_cases h1 : n < 16
  · rw [if_pos h1]
    have a : n / 16 = 0 := by omega
    have b : n % 16 = n := by omega
    simp only [Nat.toDigitsCore, a, b, if_true]
  · rw [if_neg h1]
    obtain ⟨k, hk⟩ : ∃ k, n + 1 = k + 4 := ⟨n - 3, by omega⟩
    rw [hk]
    by_cases h2 : n < 256
    · rw [if_pos h2]
      have a : n / 16 ≠ 0 := by omega
      have b : n / 16 / 16 = 0 := by omega
      have c : n / 16 % 16 = n / 16 := by omega
      simp only [Nat.toDigitsCore, a, b, c, if_true, if_false]
    · rw [if_neg h2]
      by_cases h3 : n < 4096
      · rw [if_pos h3]
        have a : n / 16 ≠ 0 := by omega
        have b : n / 16 / 16 ≠ 0 := by omega
        have c : n / 16 / 16 / 16 = 0 := by omega
        have d : n / 16 / 16 % 16 = n / 256 := by omega
        simp only [Nat.toDigitsCore, a, b, c, d, if_true, if_false]
      · rw [if_neg h3]
        have a : n / 16 ≠ 0 := by omega
        have b : n / 16 / 16 ≠ 0 := by omega
        have c : n / 16 / 16 / 16 ≠ 0 := by omega
        have d : n / 16 / 16 / 16 / 16 = 0 := by omega
        have e : n / 16 / 16 / 16 % 16 = n / 4096 := by omega
        have f : n / 16 / 16 % 16 = n / 256 % 16 := by omega
        simp only [Nat.toDigitsCore, a, b, c, d, e, f, if_true, if_false]

/-- The hexadecimal digit characters are read back as their values. -/
theorem hexValue_digitChar (d : Nat) (h : d < 16) :
    hexValue (Nat.digitChar d) = d ∧ Nat.digitChar d ∈ "0123456789abcdef".toList := by
  interval_cases d <;> exact ⟨by decide, by decide⟩

/-- The LDEV string of a number below `16^4`, digit by digit. -/
theorem ldevString_digits (n : Nat) (h : n ≤ 65535) :
    LdevString (F64.ofNat n) =
      String.mk [Nat.digitChar (n / 4096), Nat.digitChar (n / 256 % 16), ':',
        Nat.digitChar (n / 16 % 16), Nat.digitChar (n % 16)] := by
  have h53 : n < 2 ^ 53 := by
    have : (65536 : Nat) ≤ 2 ^ 53 := by norm_num
    omega
  unfold LdevString FormatInt
  rw [toInt64_ofNat n h53]
  have hneg : ¬ ((n : Int) < 0) := by omega
  simp only [hneg, if_false, List.nil_append, Int.natAbs_ofNat]
  rw [toDigits_hex n (by omega)]
  have z : Nat.digitChar 0 = '0' := rfl
  by_cases h1 : n < 16
  · have a : n / 4096 = 0 := by omega
    have b : n / 256 % 16 = 0 := by omega
    have c : n / 16 % 16 = 0 := by omega
    have d : n % 16 = n := by omega
    simp [h1, a, b, c, d, z, List.replicate]
  · by_cases h2 : n < 256
    · have a : n / 4096 = 0 := by omega
      have b : n / 256 % 16 = 0 := by omega
      have c : n / 16 % 16 = n / 16 := by omega
      simp [h1, h2, a, b, c, z, List.replicate]
    · by_cases h3 : n < 4096
      · have a : n / 4096 = 0 := by omega
        have b : n / 256 % 16 = n / 256 := by omega
        simp [h1, h2, h3, a, b, z, List.replicate]
      · simp [h1, h2, h3]
/-- A hexadecimal digit character is not the colon. -/
theorem digitChar_ne_colon (d : Nat) (h : d < 16) : Nat.digitChar d ≠ ':' := by
  interval_cases d <;> decide

/-! ## C22 -/

/-- C22. For every `ldevId` from 0 to 65535 the LDEV string is the five
characters `hh:hh`: the four hexadecimal digits of `ldevId` (lower case, leading
zeros included), a colon between the second and the third; without the colon it
reads back as `ldevId` in base 16. The LDEV 13312 is written `34:00`. -/
theorem C22_ldev_hex (n : Nat) (h : n ≤ 65535) :
    LdevString (F64.ofNat n) =
      String.mk [Nat.digitChar (n / 4096), Nat.digitChar (n / 256 % 16), ':',
        Nat.digitChar (n / 16 % 16), Nat.digitChar (n % 16)] ∧
    (LdevString (F64.ofNat n)).length = 5 ∧
    (∀ c ∈ (LdevString (F64.ofNat n)).data, c = ':' ∨ c ∈ "0123456789abcdef".toList) ∧
    readHex ((LdevString (F64.ofNat n)).data.filter fun c => c ≠ ':') = n ∧
    LdevString (F64.ofNat 13312) = "34:00" := by
  have e := ldevString_digits n h
  have h3 : n / 4096 < 16 := by omega
  have h2 : n / 256 % 16 < 16 := by omega
  have h1 : n / 16 % 16 < 16 := by omega
  have h0 : n % 16 < 16 := by omega
  refine ⟨e, ?_, ?_, ?_, ?_⟩
  · rw [e]; rfl
  · rw [e]
    intro c hc
    simp only [List.mem_cons, List.mem_singleton, List.not_mem_nil, or_false] at hc
    rcases hc with rfl | rfl | rfl | rfl | rfl
    · exact Or.inr (hexValue_digitChar _ h3).2
    · exact Or.inr (hexValue_digitChar _ h2).2
    · exact Or.inl rfl
    · exact Or.inr (hexValue_digitChar _ h1).2
    · exact Or.inr (hexValue_digitChar _ h0).2
  · rw [e]
    simp only [List.filter, digitChar_ne_colon _ h3, digitChar_ne_colon _ h2,
      digitChar_ne_colon _ h1, digitChar_ne_colon _ h0, ne_eq, not_false_eq_true,
      decide_True, not_true_eq_false, decide_False, readHex, List.foldl,
      (hexValue_digitChar _ h3).1, (hexValue_digitChar _ h2).1, (hexValue_digitChar _ h1).1,
      (hexValue_digitChar _ h0).1]
    omega
  · have k := ldevString_digits 13312 (by norm_num)
    rw [k]
    decide

/-- Witness of C22 on the largest LDEV number: 65535 is written `ff:ff`. -/
theorem C22_ldev_hex_witness :
    65535 ≤ 65535 ∧ LdevString (F64.ofNat 65535) = "ff:ff" ∧
    readHex ((LdevString (F64.ofNat 65535)).data.filter fun c => c ≠ ':') = 65535 :=
  ⟨le_refl _, (C22_ldev_hex 65535 (le_refl _)).1.trans (by decide),
    (C22_ldev_hex 65535 (le_refl _)).2.2.2.1⟩
/-! ## The reservations -/

/-- The accumulator of `String.intercalate` behind an opening parenthesis. -/
theorem intercalate_go_paren (s : String) (l : List String) :
    ∀ acc : String, "(" ++ String.intercalate.go acc s l = String.intercalate.go ("(" ++ acc) s l := by
  induction l with
  | nil => intro acc; rfl
  | cons a as ih =>
    intro acc
    simp only [String.intercalate.go]
    rw [ih, String.append_assoc, String.append_assoc, String.append_assoc]

/-- A string that ends in `true` is not empty. -/
theorem append_true_ne_empty (x : String) : x ++ "true" ≠ "" := by
  intro h
  have k := congrArg String.length h
  rw [String.length_append] at k
  have : "true".length = 4 := rfl
  have : "".length = 0 := rfl
  omega

/-- The loop over the flags from a non-empty `ReserveString`. -/
theorem reserveLoop_nonempty (flags : List (String × Bool)) :
    ∀ (acc : String) (b : Bool), acc ≠ "" →
      reserveLoop (flagMap flags) (acc, b) =
        some (String.intercalate.go acc "; " ((trueKeys flags).map fun k => k ++ "=true"),
          b || !(trueKeys flags).isEmpty) := by
  induction flags with
  | nil => intro acc b _; simp [flagMap, trueKeys, reserveLoop, String.intercalate.go]
  | cons kb rest ih =>
    intro acc b hacc
    obtain ⟨k, v⟩ := kb
    cases v with
    | false =>
      have e : trueKeys ((k, false) :: rest) = trueKeys rest := by simp [trueKeys]
      rw [e]
      have := ih acc b hacc
      simpa [flagMap, reserveLoop, reserveStep] using this
    | true =>
      have e : trueKeys ((k, true) :: rest) = k :: trueKeys rest := by simp [trueKeys]
      rw [e]
      have hne : acc ++ "; " ++ k ++ "=" ++ "true" ≠ "" := append_true_ne_empty _
      have := ih (acc ++ "; " ++ k ++ "=" ++ "true") true hne
      have e2 : acc ++ "; " ++ k ++ "=" ++ "true" = acc ++ "; " ++ (k ++ "=true") := by
        rw [String.append_assoc _ "=" "true", String.append_assoc _ k _]
        rfl
      rw [e2] at this
      simp only [flagMap] at this
      simp only [flagMap, List.map_cons, reserveLoop, reserveStep, hacc, if_false,
        Option.some_bind, String.intercalate.go, List.isEmpty_cons, Bool.not_false,
        Bool.or_true]
      rw [e2, this]
      simp

/-- The loop over the flags from the initial state. -/
theorem reserveLoop_init (flags : List (String × Bool)) :
    reserveLoop (flagMap flags) ("", false) =
      some (if trueKeys flags = [] then ("", false)
        else ("(" ++ String.intercalate "; " ((trueKeys flags).map fun k => k ++ "=true"),
          true)) := by
  induction flags with
  | nil => simp [flagMap, trueKeys, reserveLoop]
  | cons kb rest ih =>
    obtain ⟨k, v⟩ := kb
    cases v with
    | false =>
      have e : trueKeys ((k, false) :: rest) = trueKeys rest := by simp [trueKeys]
      rw [e, ← ih]
      simp [flagMap, reserveLoop, reserveStep]
    | true =>
      have e : trueKeys ((k, true) :: rest) = k :: trueKeys rest := by simp [trueKeys]
      rw [e]
      have hne : "(" ++ k ++ "=" ++ "true" ≠ "" := append_true_ne_empty _
      have := reserveLoop_nonempty rest ("(" ++ k ++ "=" ++ "true") true hne
      have e2 : "(" ++ k ++ "=" ++ "true" = "(" ++ (k ++ "=true") := by
        rw [String.append_assoc _ "=" "true", String.append_assoc _ k _]
        rfl
      simp only [flagMap] at this
      simp only [flagMap, List.map_cons, reserveLoop, reserveStep, if_true, Option.some_bind,
        List.cons_ne_nil, if_false, String.intercalate]
      rw [this, Bool.true_or, e2, intercalate_go_paren]

/-- A string that opens with a parenthesis is not `none`. -/
theorem paren_ne_none (x : String) : "(" ++ x ≠ "none" := by
  intro h
  have k := congrArg String.data h
  rw [String.data_append] at k
  have a : "(".data = ['('] := rfl
  have b : "none".data = ['n', 'o', 'n', 'e'] := rfl
  rw [a, b] at k
  simp at k
/-! ## C23 -/

/-- C23. For every map of boolean flags, in whatever order the loop visits
its entries: the reservations shown are `none` exactly when every flag is
false; otherwise they are the flags that are set, each as `key=true`, separated
by `; ` and between parentheses, so that a single set flag `k` shows `(k=true)`;
a flag that is false is not listed. -/
theorem C23_reservations (flags : List (String × Bool)) :
    reservations (flagMap flags) =
      some (if trueKeys flags = [] then "none"
        else "(" ++ String.intercalate "; " ((trueKeys flags).map fun k => k ++ "=true") ++
          ")") ∧
    (reservations (flagMap flags) = some "none" ↔ ∀ kb ∈ flags, kb.2 = false) ∧
    (∀ k, trueKeys flags = [k] → reservations (flagMap flags) = some ("(" ++ k ++ "=true" ++ ")")) ∧
    (∀ k, k ∈ trueKeys flags ↔ (k, true) ∈ flags) ∧
    reservations (flagMap [("openSystem", false), ("persistent", false), ("pgrKey", true),
      ("mainframe", false), ("acaReserve", false)]) = some "(pgrKey=true)" ∧
    reservations (flagMap [("openSystem", false), ("persistent", false), ("pgrKey", false),
      ("mainframe", false), ("acaReserve", false)]) = some "none" := by
  have main : reservations (flagMap flags) =
      some (if trueKeys flags = [] then "none"
        else "(" ++ String.intercalate "; " ((trueKeys flags).map fun k => k ++ "=true") ++
          ")") := by
    unfold reservations
    rw [reserveLoop_init]
    by_cases h : trueKeys flags = []
    · simp [h]
    · simp [h]
  have hall : trueKeys flags = [] ↔ ∀ kb ∈ flags, kb.2 = false := by
    unfold trueKeys
    rw [List.map_eq_nil_iff, List.filter_eq_nil_iff]
    constructor
    · intro h kb hkb
      have := h kb hkb
      simpa using this
    · intro h kb hkb
      simp [h kb hkb]
  refine ⟨main, ?_, ?_, ?_, by decide, by decide⟩
  · rw [main, ← hall]
    by_cases h : trueKeys flags = []
    · simp [h]
    · simp only [h, if_false, iff_false]
      intro hc
      have hc1 := Option.some.inj hc
      rw [String.append_assoc] at hc1
      exact paren_ne_none _ hc1
  · intro k hk
    rw [main, hk]
    simp only [List.cons_ne_nil, if_false, List.map_cons, List.map_nil, String.intercalate,
      String.intercalate.go]
    rw [String.append_assoc "(" k "=true"]
  · intro k
    unfold trueKeys
    simp only [List.mem_map, List.mem_filter]
    constructor
    · rintro ⟨⟨k1, b⟩, ⟨hmem, hb⟩, rfl⟩
      simp only at hb
      subst hb
      exact hmem
    · intro h
      exact ⟨(k, true), ⟨h, rfl⟩, rfl⟩
/-! ## Version strings -/

/-- A decimal digit is neither the separator nor a sign. -/
theorem digit_ne (c : Char) (h : c.isDigit = true) : c ≠ '.' ∧ c ≠ '+' ∧ c ≠ '-' := by
  refine ⟨?_, ?_, ?_⟩ <;> rintro rfl <;> exact absurd h (by decide)

/-- The equation of `Index` on a non-empty string. -/
theorem index_cons (c : Char) (rest : List Char) (sep : Char) :
    Index (c :: rest) sep =
      if c = sep then 0 else if Index rest sep < 0 then -1 else Index rest sep + 1 := rfl

/-- The equation of `LastIndex` on a non-empty string. -/
theorem lastIndex_cons (c : Char) (rest : List Char) (sep : Char) :
    LastIndex (c :: rest) sep =
      if 0 ≤ LastIndex rest sep then LastIndex rest sep + 1 else if c = sep then 0 else -1 :=
  rfl

/-- The first separator behind a run of other characters. -/
theorem index_append (a rest : List Char) (h : ∀ c ∈ a, c ≠ '.') :
    Index (a ++ '.' :: rest) '.' = (a.length : Int) := by
  induction a with
  | nil => simp [Index]
  | cons x xs ih =>
    have hx : x ≠ '.' := h x (List.mem_cons_self _ _)
    have ih1 := ih (fun c hc => h c (List.mem_cons_of_mem _ hc))
    have : ¬ ((xs.length : Int) < 0) := by omega
    rw [List.cons_append, index_cons, if_neg hx, ih1, if_neg this, List.length_cons]
    push_cast
    rfl

/-- No separator, no last position. -/
theorem lastIndex_none (s : List Char) (h : ∀ c ∈ s, c ≠ '.') : LastIndex s '.' = -1 := by
  induction s with
  | nil => rfl
  | cons x xs ih =>
    have hx : x ≠ '.' := h x (List.mem_cons_self _ _)
    have ih1 := ih (fun c hc => h c (List.mem_cons_of_mem _ hc))
    simp [LastIndex, ih1, hx]

/-- The last separator in front of a run of other characters. -/
theorem lastIndex_append (pre tail : List Char) (h : ∀ c ∈ tail, c ≠ '.') :
    LastIndex (pre ++ '.' :: tail) '.' = (pre.length : Int) := by
  induction pre with
  | nil => simp [LastIndex, lastIndex_none tail h]
  | cons x xs ih =>
    have : (0 : Int) ≤ (xs.length : Int) := by omega
    rw [List.cons_append, lastIndex_cons, ih, if_pos this, List.length_cons]
    push_cast
    rfl

/-- The slice that is a prefix. -/
theorem slice_prefix (a rest : List Char) :
    slice (a ++ rest) 0 (a.length : Int) = some a := by
  unfold slice
  have h : (0 : Int) ≤ 0 ∧ (0 : Int) ≤ (a.length : Int) ∧
      (a.length : Int) ≤ ((a ++ rest).length : Int) := by
    simp only [List.length_append]
    omega
  rw [if_pos h]
  simp

/-- The slice between two positions. -/
theorem slice_middle (a b rest : List Char) (x : Char) :
    slice (a ++ x :: (b ++ rest)) ((a.length : Int) + 1) ((a.length : Int) + 1 + b.length) =
      some b := by
  unfold slice
  have h : (0 : Int) ≤ (a.length : Int) + 1 ∧
      (a.length : Int) + 1 ≤ (a.length : Int) + 1 + b.length ∧
      (a.length : Int) + 1 + b.length ≤ ((a ++ x :: (b ++ rest)).length : Int) := by
    simp only [List.length_append, List.length_cons]
    omega
  rw [if_pos h]
  have e1 : ((a.length : Int) + 1 + b.length).toNat = a.length + 1 + b.length := by omega
  have e2 : ((a.length : Int) + 1).toNat = a.length + 1 := by omega
  rw [e1, e2]
  have e3 : a ++ x :: (b ++ rest) = (a ++ [x] ++ b) ++ rest := by simp
  have e4 : a.length + 1 + b.length = (a ++ [x] ++ b).length := by
    rw [List.length_append, List.length_append]
    rfl
  rw [e3, e4, List.take_left']
  · have e5 : a.length + 1 = (a ++ [x]).length := by
      rw [List.length_append]
      rfl
    rw [e5, List.drop_left']
    rfl
  · rfl

/-- The slice that is a suffix. -/
theorem slice_suffix (pre tail : List Char) (x : Char) :
    slice (pre ++ x :: tail) ((pre.length : Int) + 1) ((pre ++ x :: tail).length : Int) =
      some tail := by
  unfold slice
  have h : (0 : Int) ≤ (pre.length : Int) + 1 ∧
      (pre.length : Int) + 1 ≤ ((pre ++ x :: tail).length : Int) ∧
      ((pre ++ x :: tail).length : Int) ≤ ((pre ++ x :: tail).length : Int) := by
    simp only [List.length_append, List.length_cons]
    omega
  rw [if_pos h]
  have e1 : ((pre ++ x :: tail).length : Int).toNat = (pre ++ x :: tail).length := by omega
  have e2 : ((pre.length : Int) + 1).toNat = pre.length + 1 := by omega
  rw [e1, e2, List.take_length]
  have e3 : pre ++ x :: tail = (pre ++ [x]) ++ tail := by simp
  have e5 : pre.length + 1 = (pre ++ [x]).length := by
    rw [List.length_append]
    rfl
  rw [e3, e5, List.drop_left']
  rfl

/-- What `ParseInt` returns on a string of digits whose value fits `int64`. -/
theorem parseInt_decimal (s : List Char) (h : IsDecimal s) (hv : decimalValue s < 2 ^ 63) :
    ParseInt s = some (decimalValue s : Int) := by
  obtain ⟨hne, hd⟩ := h
  cases s with
  | nil => exact absurd rfl hne
  | cons c rest =>
    have hc := digit_ne c (hd c (List.mem_cons_self _ _))
    have hall : (c :: rest).all Char.isDigit = true := by
      rw [List.all_eq_true]
      exact hd
    unfold ParseInt
    simp only [hc.2.1, hc.2.2, if_false]
    unfold parseDigits
    rw [if_pos ⟨hne, hall⟩]
    simp only [Option.some_bind, hv, if_true]
/-- The three conversions of a version string `a.b.c` of decimal components
within `int64`. -/
theorem versionPart_dotted (a b c : List Char) (ha : IsDecimal a) (hb : IsDecimal b)
    (hc : IsDecimal c) (va : decimalValue a < 2 ^ 63) (vb : decimalValue b < 2 ^ 63)
    (vc : decimalValue c < 2 ^ 63) :
    versionPart (a ++ '.' :: (b ++ '.' :: c)) 0 (Index (a ++ '.' :: (b ++ '.' :: c)) '.') =
      .returns (decimalValue a : Int) ∧
    versionPart (a ++ '.' :: (b ++ '.' :: c)) (Index (a ++ '.' :: (b ++ '.' :: c)) '.' + 1)
      (LastIndex (a ++ '.' :: (b ++ '.' :: c)) '.') = .returns (decimalValue b : Int) ∧
    versionPart (a ++ '.' :: (b ++ '.' :: c)) (LastIndex (a ++ '.' :: (b ++ '.' :: c)) '.' + 1)
      ((a ++ '.' :: (b ++ '.' :: c)).length : Int) = .returns (decimalValue c : Int) := by
  have i1 : Index (a ++ '.' :: (b ++ '.' :: c)) '.' = (a.length : Int) :=
    index_append a _ (fun x hx => (digit_ne x (ha.2 x hx)).1)
  have e : a ++ '.' :: (b ++ '.' :: c) = (a ++ '.' :: b) ++ '.' :: c := by simp
  have i2 : LastIndex (a ++ '.' :: (b ++ '.' :: c)) '.' = (a.length : Int) + 1 + b.length := by
    rw [e, lastIndex_append (a ++ '.' :: b) c (fun x hx => (digit_ne x (hc.2 x hx)).1)]
    simp only [List.length_append, List.length_cons]
    push_cast
    ring
  refine ⟨?_, ?_, ?_⟩
  · rw [i1]
    simp only [versionPart, slice_prefix, parseInt_decimal a ha va]
  · rw [i1, i2]
    simp only [versionPart, slice_middle, parseInt_decimal b hb vb]
  · rw [i2]
    have i3 : (a.length : Int) + 1 + b.length = ((a ++ '.' :: b).length : Int) := by
      simp only [List.length_append, List.length_cons]
      push_cast
      ring
    rw [i3]
    rw [e]
    simp only [versionPart, slice_suffix, parseInt_decimal c hc vc]

/-- No separator, no first position. -/
theorem index_none (s : List Char) (h : ∀ c ∈ s, c ≠ '.') : Index s '.' = -1 := by
  induction s with
  | nil => rfl
  | cons x xs ih =>
    have hx : x ≠ '.' := h x (List.mem_cons_self _ _)
    have ih1 := ih (fun c hc => h c (List.mem_cons_of_mem _ hc))
    rw [index_cons, if_neg hx, ih1]
    rfl

/-! ## C24 -/

set_option maxRecDepth 100000 in
/-- C24 fails as stated: the actual version `99999999999999999999.0.0` has three
decimal components and is not below `1.5.0`, yet `CheckVersion` does not return:
the first component does not fit `int64`, `ParseInt` reports an error and the
program stops with status 203. -/
theorem C24_counterexample :
    IsDecimal "99999999999999999999".data ∧ IsDecimal "0".data ∧
    ¬ LexBelow (decimalValue "99999999999999999999".data) (decimalValue "0".data)
      (decimalValue "0".data) (decimalValue "1".data) (decimalValue "5".data)
      (decimalValue "0".data) ∧
    versionString "99999999999999999999".data "0".data "0".data = "99999999999999999999.0.0" ∧
    CheckVersion "99999999999999999999.0.0" "1.5.0" = .exits 203 ∧
    CheckVersion "99999999999999999999.0.0" "1.5.0" ≠ .returns false := by
  refine ⟨⟨by decide, by decide⟩, ⟨by decide, by decide⟩, by decide, by decide, by decide,
    by decide⟩

/-- C24, amended. For every pair of version strings `a.b.c` and `x.y.z` whose
components are strings of decimal digits with values that fit `int64` (below
`2^63`), `CheckVersion` stops with exit status 204 if and only if the triple of
the actual version is below the triple of the minimum version in the
lexicographic order of the numbers, and otherwise returns false. -/
theorem C24_version_order (a b c x y z : List Char) (ha : IsDecimal a) (hb : IsDecimal b)
    (hc : IsDecimal c) (hx : IsDecimal x) (hy : IsDecimal y) (hz : IsDecimal z)
    (va : decimalValue a < 2 ^ 63) (vb : decimalValue b < 2 ^ 63) (vc : decimalValue c < 2 ^ 63)
    (vx : decimalValue x < 2 ^ 63) (vy : decimalValue y < 2 ^ 63)
    (vz : decimalValue z < 2 ^ 63) :
    (CheckVersion (versionString a b c) (versionString x y z) = .exits 204 ↔
      LexBelow (decimalValue a) (decimalValue b) (decimalValue c)
        (decimalValue x) (decimalValue y) (decimalValue z)) ∧
    (¬ LexBelow (decimalValue a) (decimalValue b) (decimalValue c)
        (decimalValue x) (decimalValue y) (decimalValue z) →
      CheckVersion (versionString a b c) (versionString x y z) = .returns false) := by
  obtain ⟨p1, p2, p3⟩ := versionPart_dotted a b c ha hb hc va vb vc
  obtain ⟨q1, q2, q3⟩ := versionPart_dotted x y z hx hy hz vx vy vz
  have e : CheckVersion (versionString a b c) (versionString x y z) =
      if (decimalValue a : Int) < (decimalValue x : Int) then .exits 204
      else if (decimalValue a : Int) = (decimalValue x : Int) then
        if (decimalValue b : Int) < (decimalValue y : Int) then .exits 204
        else if (decimalValue b : Int) = (decimalValue y : Int) then
          if (decimalValue c : Int) < (decimalValue z : Int) then .exits 204 else .returns false
        else .returns false
      else .returns false := by
    unfold CheckVersion versionString
    simp only [p1, p2, p3, q1, q2, q3, Outcome.bind]
  rw [e]
  unfold LexBelow
  generalize decimalValue a = A
  generalize decimalValue b = B
  generalize decimalValue c = C
  generalize decimalValue x = X
  generalize decimalValue y = Y
  generalize decimalValue z = Z
  constructor
  · split_ifs <;> simp <;> omega
  · intro h
    split_ifs <;> first | rfl | (exfalso; omega)

set_option maxRecDepth 100000 in
/-- Witness of the amended C24: `1.11.2` is accepted against `1.5.0` (11 is
compared with 5 as a number), `1.4.9` is refused. -/
theorem C24_version_order_witness :
    IsDecimal "1".data ∧ IsDecimal "11".data ∧ IsDecimal "2".data ∧
    decimalValue "11".data < 2 ^ 63 ∧
    versionString "1".data "11".data "2".data = "1.11.2" ∧
    CheckVersion (versionString "1".data "11".data "2".data)
      (versionString "1".data "5".data "0".data) = .returns false ∧
    CheckVersion "1.4.9" "1.5.0" = .exits 204 :=
  ⟨⟨by decide, by decide⟩, ⟨by decide, by decide⟩, ⟨by decide, by decide⟩, by decide, by decide,
    (C24_version_order "1".data "11".data "2".data "1".data "5".data "0".data
      ⟨by decide, by decide⟩ ⟨by decide, by decide⟩ ⟨by decide, by decide⟩
      ⟨by decide, by decide⟩ ⟨by decide, by decide⟩ ⟨by decide, by decide⟩
      (by decide) (by decide) (by decide) (by decide) (by decide) (by decide)).2 (by decide),
    by decide⟩

/-! ## C25 -/

set_option maxRecDepth 100000 in
/-- C25, the behaviour of the code. An actual version without a dot makes
`CheckVersion` panic: `strings.Index` returns `-1` and the slice expression
`InputValue[0:-1]` is out of range before anything is converted. So does a
version with a single dot such as `1.6` (the slice `InputValue[2:1]`). A version
with two dots or more whose pieces are not all numbers, such as `1.6.x`,
`1.2.3.4` or `1..2`, stops with status 203. -/
theorem C25_no_dot_panics (InputValue VersionToCheckAgainst : String)
    (h : ∀ c ∈ InputValue.data, c ≠ '.') :
    CheckVersion InputValue VersionToCheckAgainst = .panics ∧
    CheckVersion "16" "1.5.0" = .panics ∧
    CheckVersion "1.6" "1.5.0" = .panics ∧
    CheckVersion "1.6.x" "1.5.0" = .exits 203 ∧
    CheckVersion "1.2.3.4" "1.5.0" = .exits 203 ∧
    CheckVersion "1..2" "1.5.0" = .exits 203 := by
  refine ⟨?_, by decide, by decide, by decide, by decide, by decide⟩
  have e : versionPart InputValue.data 0 (Index InputValue.data '.') = .panics := by
    rw [index_none _ h]
    rfl
  unfold CheckVersion
  simp only [e, Outcome.bind]

/-- Witness of the panic on the version `16`. -/
theorem C25_no_dot_panics_witness :
    (∀ c ∈ "16".data, c ≠ '.') ∧ CheckVersion "16" "1.5.0" = .panics :=
  ⟨by decide, (C25_no_dot_panics "16" "1.5.0" (by decide)).1⟩

/-! ## C26 -/

/-- C26, the behaviour of the code. With `n` storage systems listed as the
options 2 to `n+1`, the option `n+2` passes the three checks (it is not greater
than `ElementNumber = n+2`, not 0 and not 1) and the selection then indexes the
slice at `n`, out of its bounds: the function panics. A negative option passes
the checks as well and panics. The options 2 to `n+1` select the entries 0 to
`n-1`; an option above `n+2` and the option 0 end the program with status
100. -/
theorem C26_option_past_the_end (StorageDeviceIDSlice : List String) (registered : String) :
    chooseStorage StorageDeviceIDSlice registered (2 + StorageDeviceIDSlice.length) = .panics ∧
    (∀ inputint : Int, inputint < 0 →
      chooseStorage StorageDeviceIDSlice registered inputint = .panics) ∧
    (∀ i : Nat, i < StorageDeviceIDSlice.length →
      chooseStorage StorageDeviceIDSlice registered (2 + i) =
        match StorageDeviceIDSlice.get? i with
        | some id => .returns id
        | none => .panics) ∧
    (∀ inputint : Int, 2 + (StorageDeviceIDSlice.length : Int) < inputint →
      chooseStorage StorageDeviceIDSlice registered inputint = .exits 100) ∧
    chooseStorage StorageDeviceIDSlice registered 0 = .exits 100 ∧
    chooseStorage ["800000050679", "834000470018"] registered 4 = .panics ∧
    chooseStorage ["800000050679", "834000470018"] registered 3 = .returns "834000470018" ∧
    chooseStorage [] registered 2 = .panics := by
  refine ⟨?_, ?_, ?_, ?_, ?_, rfl, rfl, rfl⟩
  · unfold chooseStorage
    simp only
    have h1 : ¬ ((2 : Int) + StorageDeviceIDSlice.length > 2 + StorageDeviceIDSlice.length) := by
      omega
    have h2 : ¬ ((2 : Int) + StorageDeviceIDSlice.length = 0) := by omega
    have h3 : ¬ ((2 : Int) + StorageDeviceIDSlice.length = 1) := by omega
    have h4 : ¬ ((0 : Int) ≤ 2 + StorageDeviceIDSlice.length - 2 ∧
        (2 : Int) + StorageDeviceIDSlice.length - 2 < StorageDeviceIDSlice.length) := by omega
    rw [if_neg h1, if_neg h2, if_neg h3, if_neg h4]
  · intro inputint hneg
    unfold chooseStorage
    simp only
    have h1 : ¬ (inputint > 2 + StorageDeviceIDSlice.length) := by omega
    have h2 : ¬ (inputint = 0) := by omega
    have h3 : ¬ (inputint = 1) := by omega
    have h4 : ¬ ((0 : Int) ≤ inputint - 2 ∧ inputint - 2 < StorageDeviceIDSlice.length) := by
      omega
    rw [if_neg h1, if_neg h2, if_neg h3, if_neg h4]
  · intro i hi
    unfold chooseStorage
    simp only
    have h1 : ¬ ((2 : Int) + i > 2 + StorageDeviceIDSlice.length) := by omega
    have h2 : ¬ ((2 : Int) + i = 0) := by omega
    have h3 : ¬ ((2 : Int) + i = 1) := by omega
    have h4 : (0 : Int) ≤ 2 + i - 2 ∧ (2 : Int) + i - 2 < StorageDeviceIDSlice.length := by
      omega
    have h5 : ((2 : Int) + i - 2).toNat = i := by omega
    rw [if_neg h1, if_neg h2, if_neg h3, if_pos h4, h5]
  · intro inputint hbig
    unfold chooseStorage
    simp only
    rw [if_pos (by omega)]
  · unfold chooseStorage
    simp only
    have h1 : ¬ ((0 : Int) > 2 + StorageDeviceIDSlice.length) := by omega
    rw [if_neg h1, if_pos trivial]

/-! ## Hundredths of exact values -/

/-- The text of a finite value is the text of its number of hundredths. -/
theorem formatFloat_hundredths (s : Bool) (m : Nat) (e : Int) :
    FormatFloat (F64.fin s m e) 2 = renderFixed s (F64.hundredths (F64.fin s m e)).natAbs 2 := by
  rw [formatFloat_fin]
  unfold F64.hundredths
  cases s <;> simp

/-- The text of a finite value is the text of its hundredths, sign included. -/
theorem formatFloat_isText (s : Bool) (m : Nat) (e : Int) :
    IsTextOfHundredths (FormatFloat (F64.fin s m e) 2) (F64.hundredths (F64.fin s m e)) := by
  refine ⟨s, formatFloat_hundredths s m e, ?_, ?_⟩
  · intro h
    cases s with
    | true => rfl
    | false =>
      exfalso
      have : (0 : Int) ≤ (F64.fixedDigits m e 2 : Int) := Int.ofNat_nonneg _
      simp only [F64.hundredths, Bool.false_eq_true, if_false] at h
      omega
  · intro h
    cases s with
    | false => rfl
    | true =>
      exfalso
      have : (0 : Int) ≤ (F64.fixedDigits m e 2 : Int) := Int.ofNat_nonneg _
      simp only [F64.hundredths, if_true] at h
      omega

/-- The hundredths written for the value `v / 2^K` are within one half of
`100 * v / 2^K`. -/
theorem hundredths_near (x : F64) (v : Int) (K : Nat) (h : F64.HasValue x v K) :
    2 * (F64.hundredths x * 2 ^ K - 100 * v) ≤ 2 ^ K ∧
    2 * (100 * v - F64.hundredths x * 2 ^ K) ≤ 2 ^ K := by
  obtain ⟨s, m, e, rfl, hv⟩ := h
  obtain ⟨n1, n2, _⟩ := fixedDigits_nearest m e 2
  have hP : F64.shiftUp (m * 10 ^ 2) e = m * 100 * F64.shiftUp 1 e := by
    unfold F64.shiftUp
    ring
  rw [hP] at n1 n2
  have hQ : 0 < F64.shiftUp 1 (-e) := by
    unfold F64.shiftUp
    positivity
  generalize F64.shiftUp 1 e = P at hv n1 n2
  generalize F64.shiftUp 1 (-e) = Q at hv n1 n2 hQ
  have hh : F64.hundredths (F64.fin s m e) =
      if s then -(F64.fixedDigits m e 2 : Int) else (F64.fixedDigits m e 2 : Int) := rfl
  rw [hh]
  generalize F64.fixedDigits m e 2 = n at n1 n2 ⊢
  have hQi : (0 : Int) < (Q : Int) := by exact_mod_cast hQ
  have hW : (0 : Int) < 2 ^ K := by positivity
  have c1 : (2 : Int) * (m * 100 * P) ≤ 2 * (n * Q) + Q := by exact_mod_cast n1
  have c2 : (2 : Int) * (n * Q) ≤ 2 * (m * 100 * P) + Q := by exact_mod_cast n2
  have d1 := mul_le_mul_of_nonneg_right c1 (le_of_lt hW)
  have d2 := mul_le_mul_of_nonneg_right c2 (le_of_lt hW)
  cases s with
  | false =>
    simp only [Bool.false_eq_true, if_false] at hv ⊢
    constructor
    · have k : (2 * ((n : Int) * 2 ^ K - 100 * v)) * Q ≤ 2 ^ K * Q := by
        have : (2 * ((n : Int) * 2 ^ K - 100 * v)) * Q =
            2 * (n * Q) * 2 ^ K - 200 * (v * Q) := by ring
        rw [this, ← hv]
        nlinarith
      exact le_of_mul_le_mul_right k hQi
    · have k : (2 * (100 * v - (n : Int) * 2 ^ K)) * Q ≤ 2 ^ K * Q := by
        have : (2 * (100 * v - (n : Int) * 2 ^ K)) * Q =
            200 * (v * Q) - 2 * (n * Q) * 2 ^ K := by ring
        rw [this, ← hv]
        nlinarith
      exact le_of_mul_le_mul_right k hQi
  | true =>
    simp only [if_true] at hv ⊢
    constructor
    · have k : (2 * (-(n : Int) * 2 ^ K - 100 * v)) * Q ≤ 2 ^ K * Q := by
        have : (2 * (-(n : Int) * 2 ^ K - 100 * v)) * Q =
            -(2 * (n * Q) * 2 ^ K) - 200 * (v * Q) := by ring
        rw [this, ← hv]
        nlinarith
      exact le_of_mul_le_mul_right k hQi
    · have k : (2 * (100 * v - -(n : Int) * 2 ^ K)) * Q ≤ 2 ^ K * Q := by
        have : (2 * (100 * v - -(n : Int) * 2 ^ K)) * Q =
            200 * (v * Q) + 2 * (n * Q) * 2 ^ K := by ring
        rw [this, ← hv]
        nlinarith
      exact le_of_mul_le_mul_right k hQi

/-- Hundredths of two exact values and of their exact sum. -/
theorem hundredths_of_sum (u f t : F64) (vu vf : Int) (K : Nat) (hu : F64.HasValue u vu K)
    (hf : F64.HasValue f vf K) (ht : F64.HasValue t (vu + vf) K) :
    -1 ≤ F64.hundredths u + F64.hundredths f - F64.hundredths t ∧
    F64.hundredths u + F64.hundredths f - F64.hundredths t ≤ 1 := by
  obtain ⟨a1, a2⟩ := hundredths_near u vu K hu
  obtain ⟨b1, b2⟩ := hundredths_near f vf K hf
  obtain ⟨c1, c2⟩ := hundredths_near t (vu + vf) K ht
  have hW : (0 : Int) < 2 ^ K := by positivity
  generalize F64.hundredths u = x at a1 a2 ⊢
  generalize F64.hundredths f = y at b1 b2 ⊢
  generalize F64.hundredths t = z at c1 c2 ⊢
  generalize (2 : Int) ^ K = W at a1 a2 b1 b2 c1 c2 hW
  constructor
  · by_contra hc
    have : x + y - z ≤ -2 := by omega
    nlinarith
  · by_contra hc
    have : 2 ≤ x + y - z := by omega
    nlinarith

/-- An exact magnitude with its sign bit is an exact value. -/
theorem hasValue_of_isExact (x : F64) (s : Bool) (N k : Nat) (h : F64.IsExact x s N k) :
    F64.HasValue x (if s then -(N : Int) else (N : Int)) k := by
  obtain ⟨m, j, rfl, hm⟩ := h
  refine ⟨s, m, -(j : Int), rfl, ?_⟩
  unfold F64.shiftUp
  have e1 : (-(j : Int)).toNat = 0 := by omega
  have e2 : (-(-(j : Int))).toNat = j := by omega
  rw [e1, e2]
  have hmi : (m : Int) * 2 ^ k = N * 2 ^ j := by exact_mod_cast hm
  cases s with
  | false =>
    simp only [Bool.false_eq_true, if_false]
    push_cast
    linarith
  | true =>
    simp only [if_true]
    push_cast
    linarith
/-- On two capacities that are multiples of `2^-k` below `2^53` such multiples
every operation of the two formulas of the used capacity is exact, and the two
write the same text. -/
theorem used_texts_agree (x y : F64) (A B k prec : Nat) (hx : F64.IsExact x false A k)
    (hy : F64.IsExact y false B k) (hA : A < 2 ^ 53) (hB : B < 2 ^ 53) (hk : k + 10 ≤ 1074) :
    F64.IsExact (F64.div (F64.sub x y) Mb2Gb) (decide (A < B)) (A - B + (B - A)) (k + 10) ∧
    F64.IsExact (F64.sub (F64.div x Mb2Gb) (F64.div y Mb2Gb)) (decide (A < B))
      (A - B + (B - A)) (k + 10) ∧
    FormatFloat (F64.div (F64.sub x y) Mb2Gb) prec =
      FormatFloat (F64.sub (F64.div x Mb2Gb) (F64.div y Mb2Gb)) prec := by
  have hD : (A - B + (B - A)) < 2 ^ 53 := by omega
  have a1 : F64.IsExact (F64.div x Mb2Gb) false A (k + 10) := div_Mb2Gb_exact x false A k hx hA hk
  have b1 : F64.IsExact (F64.div y Mb2Gb) false B (k + 10) := div_Mb2Gb_exact y false B k hy hB hk
  have c : F64.IsExact (F64.sub x y) (decide (A < B)) (A - B + (B - A)) k :=
    sub_exact x y A B k hx hy hA hB (by omega)
  have c1 : F64.IsExact (F64.div (F64.sub x y) Mb2Gb) (decide (A < B)) (A - B + (B - A))
      (k + 10) := div_Mb2Gb_exact _ _ _ k c hD hk
  have d : F64.IsExact (F64.sub (F64.div x Mb2Gb) (F64.div y Mb2Gb)) (decide (A < B))
      (A - B + (B - A)) (k + 10) := sub_exact _ _ A B (k + 10) a1 b1 hA hB hk
  refine ⟨c1, d, ?_⟩
  rw [formatFloat_exact _ _ _ _ prec c1, formatFloat_exact _ _ _ _ prec d]

/-! ## RoundFloat64 on negative values -/

/-- The double of 100. -/
theorem ofNat_100 : F64.ofNat 100 = F64.fin false (100 * 2 ^ 46) (-46) := by decide

/-- The constant `roundOn = 0.5`. -/
theorem roundOn_eq : F64.round false 1 2 = F64.fin false (2 ^ 52) (-53) := by decide

/-- A value with the sign bit set is not `>=` a positive value. -/
theorem ge_of_negative (r M : Nat) (e E : Int) (hM : M ≠ 0) :
    F64.ge (F64.fin true r e) (F64.fin false M E) = false := by
  unfold F64.ge F64.lt F64.eq
  simp only [Bool.false_eq_true, if_false, if_true, hM, and_false, false_and,
    decide_False, Bool.or_false]
  generalize F64.shiftUp M (E - min E e) = a
  generalize F64.shiftUp r (e - min E e) = b
  have h3 : ¬ ((a : Int) < -(b : Int)) := by omega
  simp only [h3, decide_False, Bool.false_or, decide_eq_false_iff_not]
  rintro ⟨h, _⟩
  exact Bool.noConfusion h

/-- A value with the sign bit set is not `>= 0.5`. -/
theorem ge_half_of_negative (r : Nat) (e : Int) :
    F64.ge (F64.fin true r e) (F64.round false 1 2) = false := by
  rw [roundOn_eq]
  exact ge_of_negative r _ e _ (by positivity)

/-- The fractional part that `math.Modf` returns for a negative value is never
`>= 0.5`. -/
theorem modf_negative_not_ge (x : F64)
    (h : (∃ m e, x = F64.fin true m e) ∨ x = F64.inf true) :
    F64.ge (F64.Modf x).2 (F64.round false 1 2) = false := by
  rcases h with ⟨m, e, rfl⟩ | rfl
  · by_cases he : 0 ≤ e
    · have k : (F64.Modf (F64.fin true m e)).2 = F64.fin true 0 0 := by
        simp only [F64.Modf, he, if_true]
      rw [k]
      exact ge_half_of_negative _ _
    · have k : (F64.Modf (F64.fin true m e)).2 = F64.fin true (m % 2 ^ (-e).toNat) e := by
        simp only [F64.Modf, he, if_false]
      rw [k]
      exact ge_half_of_negative _ _
  · rw [roundOn_eq]
    rfl

/-- On a value with the sign bit set `RoundFloat64` takes the floor. -/
theorem roundFloat64_negative (m : Nat) (e : Int) :
    RoundFloat64 (F64.fin true m e) 2 =
      F64.div (F64.Floor (F64.mul (F64.ofNat 100) (F64.fin true m e))) (F64.ofNat 100) := by
  have h100 : F64.Pow10 2 = F64.ofNat 100 := rfl
  have hd : (∃ a b, F64.mul (F64.ofNat 100) (F64.fin true m e) = F64.fin true a b) ∨
      F64.mul (F64.ofNat 100) (F64.fin true m e) = F64.inf true := by
    rw [ofNat_100]
    unfold F64.mul
    simp only [Bool.false_xor]
    exact round_sign true _ _
  unfold RoundFloat64
  simp only [h100]
  rw [modf_negative_not_ge _ hd]
  simp

/-! ## Rounding error of one operation -/

/-- For a quotient below `2^t` the binary logarithm found by `ilog2` is below
`t`. -/
theorem ilog2_lt (num den t : Nat) (hnum : 0 < num) (h : num < den * 2 ^ t) :
    F64.ilog2 num den < (t : Int) := by
  unfold F64.ilog2
  simp only
  have hbn := bitLength_le num hnum
  have hbn1 : 1 ≤ F64.bitLength num := by
    by_contra hc
    have h0 : F64.bitLength num = 0 := by omega
    have := bitLength_lt num
    rw [h0] at this
    simp at this
    omega
  have hbd := bitLength_lt den
  generalize F64.bitLength num = bn at hbn hbn1 ⊢
  generalize F64.bitLength den = bd at hbd ⊢
  split
  · rename_i hchk
    unfold F64.shiftUp at hchk
    have e1 : ((bn : Int) - (bd : Int)).toNat = bn - bd := by omega
    have e2 : (-((bn : Int) - (bd : Int))).toNat = bd - bn := by omega
    rw [e1, e2] at hchk
    have h1 : den * 2 ^ (bn - bd) < den * 2 ^ (t + (bd - bn)) := by
      calc den * 2 ^ (bn - bd) ≤ num * 2 ^ (bd - bn) := hchk
        _ < den * 2 ^ t * 2 ^ (bd - bn) := Nat.mul_lt_mul_of_pos_right h (by positivity)
        _ = den * 2 ^ (t + (bd - bn)) := by rw [pow_add]; ring
    have h2 := Nat.lt_of_mul_lt_mul_left h1
    have h3 := (Nat.pow_lt_pow_iff_right (by norm_num : 1 < 2)).1 h2
    omega
  · have h1 : 2 ^ (bn - 1) < 2 ^ (bd + t) := by
      calc 2 ^ (bn - 1) ≤ num := hbn
        _ < den * 2 ^ t := h
        _ < 2 ^ bd * 2 ^ t := Nat.mul_lt_mul_of_pos_right hbd (by positivity)
        _ = 2 ^ (bd + t) := by rw [pow_add]
    have h2 := (Nat.pow_lt_pow_iff_right (by norm_num : 1 < 2)).1 h1
    omega

/-- What `round` returns for a non-zero quotient below `2^t`, `t ≤ 52`: the
mantissa is a nearest natural number to the quotient scaled by `2^i`, for an
`i` that is at least `52 - t + 1`. -/
theorem round_small (s : Bool) (num den t : Nat) (hnum : 0 < num) (hden : 0 < den)
    (h : num < den * 2 ^ t) (ht : t ≤ 52) :
    ∃ i a : Nat, 53 ≤ i + t ∧ i ≤ 1074 ∧
      F64.round s num den = (if a = 0 then F64.fin s 0 0 else F64.fin s a (-(i : Int))) ∧
      IsNearestEven a (num * 2 ^ i) den := by
  have hL := ilog2_lt num den t hnum h
  unfold F64.round
  rw [if_neg (by omega)]
  simp only
  generalize F64.ilog2 num den = L at hL
  obtain ⟨i, hi, hi1, hi2⟩ : ∃ i : Nat, max (L - 52) F64.minExp = -(i : Int) ∧ 53 ≤ i + t ∧
      i ≤ 1074 := by
    refine ⟨(-(max (L - 52) F64.minExp)).toNat, ?_, ?_, ?_⟩ <;> unfold F64.minExp <;> omega
  rw [hi]
  have hn : F64.shiftUp num (- -(i : Int)) = num * 2 ^ i := by
    unfold F64.shiftUp
    have : (- -(i : Int)).toNat = i := by omega
    rw [this]
  have hd : F64.shiftUp den (-(i : Int)) = den := by
    unfold F64.shiftUp
    have : (-(i : Int)).toNat = 0 := by omega
    rw [this]; simp
  rw [hn, hd]
  have hnear := roundHalfEven_nearest (num * 2 ^ i) den hden
  unfold roundHalfEven at hnear
  simp only at hnear
  refine ⟨i, _, hi1, hi2, ?_, hnear⟩
  split_ifs <;> first | rfl | (exfalso; omega)

/-- Comparison with `0.5` of a non-negative value with a negative exponent. -/
theorem ge_half (r i : Nat) (hi : 1 ≤ i) :
    F64.ge (F64.fin false r (-(i : Int))) (F64.round false 1 2) = true ↔ 2 ^ i ≤ 2 * r := by
  rw [roundOn_eq]
  unfold F64.ge F64.lt F64.eq
  have hM : ¬ ((2 : Nat) ^ 52 = 0) := by positivity
  simp only [Bool.false_eq_true, if_false, hM, and_false, true_and, Bool.or_eq_true,
    decide_eq_true_eq]
  unfold F64.shiftUp
  by_cases h53 : i ≤ 53
  · have m1 : min (-53 : Int) (-(i : Int)) = -53 := by omega
    have m2 : min (-(i : Int)) (-53 : Int) = -53 := by omega
    have e1 : ((-53 : Int) - -53).toNat = 0 := by omega
    have e2 : (-(i : Int) - -53).toNat = 53 - i := by omega
    rw [m1, m2, e1, e2]
    simp only [pow_zero, Nat.mul_one]
    have key : 2 ^ 52 ≤ r * 2 ^ (53 - i) ↔ 2 ^ i ≤ 2 * r := by
      have p1 : (2 : Nat) ^ 53 = 2 ^ i * 2 ^ (53 - i) := by
        rw [← pow_add, Nat.add_sub_cancel' h53]
      have p2 : (2 : Nat) ^ 53 = 2 * 2 ^ 52 := by norm_num
      have hpos : 0 < 2 ^ (53 - i) := by positivity
      constructor
      · intro h
        have h1 : 2 ^ i * 2 ^ (53 - i) ≤ 2 * r * 2 ^ (53 - i) := by
          rw [← p1, p2]
          calc 2 * 2 ^ 52 ≤ 2 * (r * 2 ^ (53 - i)) := Nat.mul_le_mul_left 2 h
            _ = 2 * r * 2 ^ (53 - i) := by ring
        exact Nat.le_of_mul_le_mul_right h1 hpos
      · intro h
        have h1 : 2 ^ i * 2 ^ (53 - i) ≤ 2 * r * 2 ^ (53 - i) := Nat.mul_le_mul_right _ h
        rw [← p1, p2] at h1
        have h2 : 2 * 2 ^ 52 ≤ 2 * (r * 2 ^ (53 - i)) := by
          calc 2 * 2 ^ 52 ≤ 2 * r * 2 ^ (53 - i) := h1
            _ = 2 * (r * 2 ^ (53 - i)) := by ring
        exact Nat.le_of_mul_le_mul_left h2 (by norm_num)
    rw [← key]
    constructor
    · rintro (h | h)
      · exact le_of_lt (by exact_mod_cast h)
      · exact le_of_eq h.symm
    · intro h
      rcases Nat.lt_or_ge (2 ^ 52) (r * 2 ^ (53 - i)) with h1 | h1
      · exact Or.inl (by exact_mod_cast h1)
      · exact Or.inr (le_antisymm h1 h)
  · have m1 : min (-53 : Int) (-(i : Int)) = -(i : Int) := by omega
    have m2 : min (-(i : Int)) (-53 : Int) = -(i : Int) := by omega
    have e1 : ((-53 : Int) - -(i : Int)).toNat = i - 53 := by omega
    have e2 : (-(i : Int) - -(i : Int)).toNat = 0 := by omega
    rw [m1, m2, e1, e2]
    simp only [pow_zero, Nat.mul_one]
    have p1 : (2 : Nat) ^ i = 2 * (2 ^ 52 * 2 ^ (i - 53)) := by
      have : i = 1 + (52 + (i - 53)) := by omega
      conv_lhs => rw [this]
      rw [pow_add, pow_add]
      norm_num
    rw [p1]
    constructor
    · rintro (h | h)
      · have : 2 ^ 52 * 2 ^ (i - 53) < r := by exact_mod_cast h
        omega
      · omega
    · intro h
      have h0 : 2 ^ 52 * 2 ^ (i - 53) ≤ r := by omega
      rcases Nat.lt_or_ge (2 ^ 52 * 2 ^ (i - 53)) r with h1 | h1
      · exact Or.inl (by exact_mod_cast h1)
      · exact Or.inr (le_antisymm h1 h0)

/-- Unary minus of a rounded quotient. -/
theorem neg_round (s : Bool) (num den : Nat) :
    F64.neg (F64.round s num den) = F64.round (!s) num den := by
  unfold F64.round
  simp only
  split_ifs <;> rfl

/-- What `RoundFloat64` returns when the product `100 * x` is the positive
double `a * 2^-i`: the integer part of the product, plus one when its
fractional part is at least one half, divided by 100. -/
theorem roundFloat64_of_digit (x : F64) (a i : Nat) (ha : a ≠ 0) (hi : 1 ≤ i)
    (hd : F64.mul (F64.ofNat 100) x = F64.fin false a (-(i : Int))) :
    RoundFloat64 x 2 =
      F64.div (F64.ofNat (if 2 ^ i ≤ 2 * (a % 2 ^ i) then a / 2 ^ i + 1 else a / 2 ^ i))
        (F64.ofNat 100) := by
  have h100 : F64.Pow10 2 = F64.ofNat 100 := rfl
  have hneg : ¬ ((0 : Int) ≤ -(i : Int)) := by omega
  have e2 : (-(-(i : Int))).toNat = i := by omega
  have hmodf : (F64.Modf (F64.fin false a (-(i : Int)))).2 =
      F64.fin false (a % 2 ^ i) (-(i : Int)) := by
    simp only [F64.Modf, hneg, if_false, e2]
  have hfloor : F64.Floor (F64.fin false a (-(i : Int))) = F64.ofNat (a / 2 ^ i) := by
    have : ¬ (a = 0 ∨ (0 : Int) ≤ -(i : Int)) := by omega
    simp only [F64.Floor, this, if_false, e2, Bool.false_eq_true]
    rfl
  have hceil : F64.Ceil (F64.fin false a (-(i : Int))) =
      F64.ofNat (a / 2 ^ i + (if a % 2 ^ i = 0 then 0 else 1)) := by
    have : ¬ (a = 0 ∨ (0 : Int) ≤ -(i : Int)) := by omega
    have hf : F64.Floor (F64.neg (F64.fin false a (-(i : Int)))) =
        F64.round true (a / 2 ^ i + (if a % 2 ^ i = 0 then 0 else 1)) 1 := by
      simp only [F64.neg, Bool.not_false, F64.Floor, this, if_false, e2, if_true]
    unfold F64.Ceil
    rw [hf, neg_round]
    rfl
  unfold RoundFloat64
  simp only [h100, hd, hmodf]
  by_cases hge : 2 ^ i ≤ 2 * (a % 2 ^ i)
  · rw [if_pos ((ge_half _ i hi).2 hge), if_pos hge, hceil]
    have hr : a % 2 ^ i ≠ 0 := by
      intro h0
      rw [h0] at hge
      have : 0 < 2 ^ i := by positivity
      omega
    rw [if_neg hr]
  · have hg : ¬ (F64.ge (F64.fin false (a % 2 ^ i) (-(i : Int))) (F64.round false 1 2) = true) :=
      fun h => hge ((ge_half _ i hi).1 h)
    rw [if_neg hg, if_neg hge, hfloor]

/-- A number that is nearer to `n` than to the natural numbers next to `n` is
rounded to `n`. -/
theorem roundHalfEven_of_close (x n D : Nat) (h1 : 2 * x < 2 * (n * D) + D)
    (h2 : 2 * (n * D) < 2 * x + D) : roundHalfEven x D = n := by
  have hD : 0 < D := by
    rcases Nat.eq_zero_or_pos D with h | h
    · subst h
      omega
    · exact h
  obtain ⟨a1, a2, _⟩ := roundHalfEven_nearest x D hD
  generalize roundHalfEven x D = q at a1 a2
  rcases Nat.lt_trichotomy q n with h | h | h
  · exfalso
    have : (q + 1) * D ≤ n * D := Nat.mul_le_mul_right D h
    have e : (q + 1) * D = q * D + D := by ring
    omega
  · exact h
  · exfalso
    have : (n + 1) * D ≤ q * D := Nat.mul_le_mul_right D h
    have e : (n + 1) * D = n * D + D := by ring
    omega

/-- The text of `n / 100` rounded to a double is `n` hundredths, for `n` below
`100 * 2^46`. -/
theorem formatFloat_round_hundredths (num den n : Nat) (hden : 0 < den)
    (heq : num * 100 = n * den) (hn : n < 100 * 2 ^ 46) :
    FormatFloat (F64.round false num den) 2 = renderFixed false n 2 := by
  have hzero : FormatFloat (F64.fin false 0 0) 2 = renderFixed false 0 2 := by decide
  rcases Nat.eq_zero_or_pos num with h0 | hpos
  · subst h0
    have hn0 : n = 0 := by
      rcases Nat.mul_eq_zero.1 (by simpa using heq.symm : n * den = 0) with h | h
      · exact h
      · omega
    subst hn0
    rw [round_zero]
    exact hzero
  · have hlt : num < den * 2 ^ 46 := by
      have h1 : num * 100 < den * 2 ^ 46 * 100 := by
        rw [heq]
        calc n * den < 100 * 2 ^ 46 * den := Nat.mul_lt_mul_of_pos_right hn hden
          _ = den * 2 ^ 46 * 100 := by ring
      exact Nat.lt_of_mul_lt_mul_right h1
    obtain ⟨i, a, hi, _, hr, hnear⟩ := round_small false num den 46 hpos hden hlt (by norm_num)
    obtain ⟨n1, n2, _⟩ := hnear
    have hI : 128 ≤ 2 ^ i := by
      have : (2 : Nat) ^ 7 ≤ 2 ^ i := Nat.pow_le_pow_right (by norm_num) (by omega)
      simpa using this
    have c1 : 2 * (n * 2 ^ i) ≤ 2 * (100 * a) + 100 := by
      have k : 2 * (n * 2 ^ i) * den ≤ (2 * (100 * a) + 100) * den := by
        calc 2 * (n * 2 ^ i) * den = 2 * (num * 100 * 2 ^ i) := by rw [heq]; ring
          _ = 100 * (2 * (num * 2 ^ i)) := by ring
          _ ≤ 100 * (2 * (a * den) + den) := Nat.mul_le_mul_left 100 n1
          _ = (2 * (100 * a) + 100) * den := by ring
      exact Nat.le_of_mul_le_mul_right k hden
    have c2 : 2 * (100 * a) ≤ 2 * (n * 2 ^ i) + 100 := by
      have k : 2 * (100 * a) * den ≤ (2 * (n * 2 ^ i) + 100) * den := by
        calc 2 * (100 * a) * den = 100 * (2 * (a * den)) := by ring
          _ ≤ 100 * (2 * (num * 2 ^ i) + den) := Nat.mul_le_mul_left 100 n2
          _ = 2 * (num * 100 * 2 ^ i) + 100 * den := by ring
          _ = (2 * (n * 2 ^ i) + 100) * den := by rw [heq]; ring
      exact Nat.le_of_mul_le_mul_right k hden
    rw [hr]
    by_cases ha : a = 0
    · rw [if_pos ha]
      subst ha
      have hn0 : n = 0 := by
        rcases Nat.eq_zero_or_pos n with h | h
        · exact h
        · exfalso
          have : 1 * 2 ^ i ≤ n * 2 ^ i := Nat.mul_le_mul_right _ h
          omega
      subst hn0
      exact hzero
    · rw [if_neg ha, formatFloat_fin]
      unfold F64.fixedDigits F64.shiftUp
      have e1 : (-(i : Int)).toNat = 0 := by omega
      have e2 : (-(-(i : Int))).toNat = i := by omega
      rw [e1, e2]
      simp only [pow_zero, Nat.mul_one, Nat.one_mul]
      have e100 : (10 : Nat) ^ 2 = 100 := by norm_num
      rw [e100, roundHalfEven_of_close (a * 100) n (2 ^ i) (by omega) (by omega)]

/-- The text of `n / 100` computed in `float64`. -/
theorem formatFloat_div_100 (n : Nat) (hn : n < 100 * 2 ^ 46) :
    FormatFloat (F64.div (F64.ofNat n) (F64.ofNat 100)) 2 = renderFixed false n 2 := by
  have h53 : n < 2 ^ 53 := by
    have : (100 : Nat) * 2 ^ 46 ≤ 2 ^ 53 := by norm_num
    omega
  obtain ⟨mn, jn, e, hm⟩ := ofNat_exact n h53
  rw [e, ofNat_100]
  unfold F64.div
  have h0 : ¬ (100 * 2 ^ 46 = 0) := by norm_num
  simp only [if_neg h0, Bool.xor_false]
  apply formatFloat_round_hundredths _ _ n _ _ hn
  · unfold F64.shiftUp
    positivity
  · unfold F64.shiftUp
    have e1 : (-(jn : Int)).toNat = 0 := by omega
    have e2 : (-(-46 : Int)).toNat = 46 := by decide
    have e3 : (-46 : Int).toNat = 0 := by decide
    have e4 : (-(-(jn : Int))).toNat = jn := by omega
    rw [e1, e2, e3, e4]
    simp only [pow_zero, Nat.mul_one] at hm ⊢
    rw [hm]
    ring

/-- The integer part plus one when the fractional part is at least one half:
`k` when `a / I` lies between `k - 1/2` and `k + 1/2`. -/
theorem halfUp_eq (a I k : Nat) (lo : 2 * (k * I) ≤ 2 * a + I)
    (hi : 2 * a + I < 2 * (k * I) + 2 * I) :
    (if I ≤ 2 * (a % I) then a / I + 1 else a / I) = k := by
  have hI : 0 < I := by
    rcases Nat.eq_zero_or_pos I with h | h
    · subst h
      omega
    · exact h
  have h1 := Nat.div_add_mod a I
  have h2 := Nat.mod_lt a hI
  have h3 : I * (a / I) = a / I * I := Nat.mul_comm _ _
  generalize a / I = qa at h1 h3 ⊢
  generalize a % I = ra at h1 h2 ⊢
  split_ifs with hc
  · have u1 : k * I < (qa + 2) * I := by
      have e : (qa + 2) * I = qa * I + 2 * I := by ring
      omega
    have u2 : qa * I < k * I := by omega
    have v1 := Nat.lt_of_mul_lt_mul_right u1
    have v2 := Nat.lt_of_mul_lt_mul_right u2
    omega
  · have u1 : k * I < (qa + 1) * I := by
      have e : (qa + 1) * I = qa * I + I := by ring
      omega
    have u2 : qa * I < (k + 1) * I := by
      have e : (k + 1) * I = k * I + I := by ring
      omega
    have v1 := Nat.lt_of_mul_lt_mul_right u1
    have v2 := Nat.lt_of_mul_lt_mul_right u2
    omega
/-- The product `100 * x` as `float64` multiplication computes it, for a
finite `x` with a non-positive exponent. -/
theorem mul_100 (s : Bool) (m j : Nat) :
    F64.mul (F64.ofNat 100) (F64.fin s m (-(j : Int))) =
      F64.round s (100 * 2 ^ 46 * m) (2 ^ (46 + j)) := by
  rw [ofNat_100]
  unfold F64.mul F64.shiftUp
  have e1 : ((-46 : Int) + -(j : Int)).toNat = 0 := by omega
  have e2 : (-((-46 : Int) + -(j : Int))).toNat = 46 + j := by omega
  simp only [e1, e2, pow_zero, Nat.mul_one, Nat.one_mul, Bool.false_xor]

/-- A product that is zero is rounded to zero. -/
theorem roundFloat64_of_zero_digit (x : F64)
    (hd : F64.mul (F64.ofNat 100) x = F64.fin false 0 0) :
    RoundFloat64 x 2 = F64.fin false 0 0 := by
  have h100 : F64.Pow10 2 = F64.ofNat 100 := rfl
  unfold RoundFloat64
  simp only [h100, hd]
  decide

/-- Zero is rounded to zero. -/
theorem roundFloat64_zero (j : Nat) :
    RoundFloat64 (F64.fin false 0 (-(j : Int))) 2 = F64.fin false 0 0 := by
  apply roundFloat64_of_zero_digit
  rw [mul_100, Nat.mul_zero, round_zero]

/-- For a ratio `m / 2^j` below `2^20` whose hundredfold is away from the
midpoints, rounding half up the `float64` product (`RoundFloat64`) and rounding
the exact value to nearest (`FormatFloat`) give the same number of hundredths. -/
theorem round_display_agree (m j : Nat) (hm : m < 2 ^ 20 * 2 ^ j)
    (hmid : AwayFromMidpoint m j) :
    FormatFloat (RoundFloat64 (F64.fin false m (-(j : Int))) 2) 2 =
      FormatFloat (F64.fin false m (-(j : Int))) 2 := by
  have hD : 0 < 2 ^ j := by positivity
  have hrhs : FormatFloat (F64.fin false m (-(j : Int))) 2 =
      renderFixed false (roundHalfEven (100 * m) (2 ^ j)) 2 := by
    rw [formatFloat_fin]
    unfold F64.fixedDigits F64.shiftUp
    have e1 : (-(j : Int)).toNat = 0 := by omega
    have e2 : (-(-(j : Int))).toNat = j := by omega
    have e100 : (10 : Nat) ^ 2 = 100 := by norm_num
    rw [e1, e2, e100]
    simp only [pow_zero, Nat.mul_one, Nat.one_mul]
    rw [Nat.mul_comm m 100]
  rw [hrhs]
  unfold AwayFromMidpoint at hmid
  generalize hDdef : 2 ^ j = D at hm hmid hD ⊢
  rcases Nat.eq_zero_or_pos m with h0 | hpos
  · subst h0
    rw [roundFloat64_zero, roundHalfEven_of_close (100 * 0) 0 D (by omega) (by omega)]
    decide
  · have hden : 0 < 2 ^ (46 + j) := by positivity
    have hdenD : 2 ^ (46 + j) = 2 ^ 46 * D := by rw [pow_add, hDdef]
    have hlt : 100 * 2 ^ 46 * m < 2 ^ (46 + j) * 2 ^ 27 := by
      rw [hdenD]
      have : 100 * m < D * 2 ^ 27 := by
        have h27 : (2 : Nat) ^ 27 = 128 * 2 ^ 20 := by norm_num
        rw [h27]
        have : 100 * m < 128 * (2 ^ 20 * D) := by omega
        calc 100 * m < 128 * (2 ^ 20 * D) := this
          _ = D * (128 * 2 ^ 20) := by ring
      calc 100 * 2 ^ 46 * m = 2 ^ 46 * (100 * m) := by ring
        _ < 2 ^ 46 * (D * 2 ^ 27) := Nat.mul_lt_mul_of_pos_left this (by positivity)
        _ = 2 ^ 46 * D * 2 ^ 27 := by ring
    obtain ⟨i, a, hi, _, hr, hnear⟩ :=
      round_small false (100 * 2 ^ 46 * m) (2 ^ (46 + j)) 27 (by positivity) hden hlt
        (by norm_num)
    obtain ⟨n1, n2, _⟩ := hnear
    rw [hdenD] at n1 n2
    have hI : 2 ^ 26 ≤ 2 ^ i := Nat.pow_le_pow_right (by norm_num) (by omega)
    have hd := mul_100 false m j
    rw [hr] at hd
    have hof := roundFloat64_of_digit (F64.fin false m (-(j : Int))) a i
    generalize 2 ^ i = I at n1 n2 hI hof
    have hI1 : 1 ≤ I := le_trans (by norm_num) hI
    have c1 : 2 * (100 * m * I) ≤ 2 * (a * D) + D := by
      have k : 2 ^ 46 * (2 * (100 * m * I)) ≤ 2 ^ 46 * (2 * (a * D) + D) := by
        calc 2 ^ 46 * (2 * (100 * m * I)) = 2 * (100 * 2 ^ 46 * m * I) := by ring
          _ ≤ 2 * (a * (2 ^ 46 * D)) + 2 ^ 46 * D := n1
          _ = 2 ^ 46 * (2 * (a * D) + D) := by ring
      exact Nat.le_of_mul_le_mul_left k (by positivity)
    have c2 : 2 * (a * D) ≤ 2 * (100 * m * I) + D := by
      have k : 2 ^ 46 * (2 * (a * D)) ≤ 2 ^ 46 * (2 * (100 * m * I) + D) := by
        calc 2 ^ 46 * (2 * (a * D)) = 2 * (a * (2 ^ 46 * D)) := by ring
          _ ≤ 2 * (100 * 2 ^ 46 * m * I) + 2 ^ 46 * D := n2
          _ = 2 ^ 46 * (2 * (100 * m * I) + D) := by ring
      exact Nat.le_of_mul_le_mul_left k (by positivity)
    have hqr := Nat.div_add_mod (100 * m) D
    have hrD := Nat.mod_lt (100 * m) hD
    have hq : 100 * m / D < 100 * 2 ^ 20 := by
      rw [Nat.div_lt_iff_lt_mul hD]
      calc 100 * m < 100 * (2 ^ 20 * D) := Nat.mul_lt_mul_of_pos_left hm (by norm_num)
        _ = 100 * 2 ^ 20 * D := by ring
    have hsplit : 100 * m * I = (100 * m / D) * (D * I) + (100 * m % D) * I := by
      conv_lhs => rw [← hqr]
      ring
    have hrhe : roundHalfEven (100 * m) D =
        if D < 2 * (100 * m % D) then 100 * m / D + 1 else 100 * m / D := by
      unfold roundHalfEven
      simp only
      by_cases hc : D < 2 * (100 * m % D)
      · rw [if_pos (Or.inl hc), if_pos hc]
      · have hne : ¬ (2 * (100 * m % D) = D) := by
          intro he
          rcases hmid with h | h
          · rw [he, Nat.sub_self] at h; omega
          · rw [he, Nat.sub_self] at h; omega
        rw [if_neg hc, if_neg]
        rintro (h | ⟨h, _⟩)
        · exact hc h
        · exact hne h
    rw [hrhe]
    generalize 100 * m / D = q at hqr hq hsplit ⊢
    generalize 100 * m % D = r at hqr hrD hmid hsplit ⊢
    have hrI : r * I + I ≤ D * I := by
      have : (r + 1) * I ≤ D * I := Nat.mul_le_mul_right I hrD
      have e : (r + 1) * I = r * I + I := by ring
      omega
    have hDI : D ≤ D * I := Nat.le_mul_of_pos_right D hI1
    have key : ∀ k : Nat, 2 * (k * (D * I)) ≤ 2 * (a * D) + D * I →
        2 * (a * D) + D * I < 2 * (k * (D * I)) + 2 * (D * I) →
        (if I ≤ 2 * (a % I) then a / I + 1 else a / I) = k := by
      intro k lo hi
      apply halfUp_eq
      · have : 2 * (k * I) * D ≤ (2 * a + I) * D := by
          calc 2 * (k * I) * D = 2 * (k * (D * I)) := by ring
            _ ≤ 2 * (a * D) + D * I := lo
            _ = (2 * a + I) * D := by ring
        exact Nat.le_of_mul_le_mul_right this hD
      · have : (2 * a + I) * D < (2 * (k * I) + 2 * I) * D := by
          calc (2 * a + I) * D = 2 * (a * D) + D * I := by ring
            _ < 2 * (k * (D * I)) + 2 * (D * I) := hi
            _ = (2 * (k * I) + 2 * I) * D := by ring
        exact Nat.lt_of_mul_lt_mul_right this
    have hn2 : (if I ≤ 2 * (a % I) then a / I + 1 else a / I) =
        if D < 2 * r then q + 1 else q := by
      by_cases hc : D < 2 * r
      · rw [if_pos hc]
        have hmar : D * I + D < 2 * (r * I) := by
          rcases hmid with h | h
          · have h1 : 2 ^ 26 * (2 * r - D) ≤ I * (2 * r - D) := Nat.mul_le_mul_right _ hI
            have h2 : I * (2 * r - D) = 2 * (r * I) - D * I := by
              rw [Nat.mul_sub]
              ring_nf
            omega
          · have : 2 ^ 26 * (D - 2 * r) = 0 := by
              rw [Nat.sub_eq_zero_of_le (le_of_lt hc), Nat.mul_zero]
            omega
        apply key (q + 1)
        · have e : (q + 1) * (D * I) = q * (D * I) + D * I := by ring
          omega
        · have e : (q + 1) * (D * I) = q * (D * I) + D * I := by ring
          omega
      · rw [if_neg hc]
        have hmar : 2 * (r * I) + D < D * I := by
          rcases hmid with h | h
          · have : 2 ^ 26 * (2 * r - D) = 0 := by
              rw [Nat.sub_eq_zero_of_le (by omega), Nat.mul_zero]
            omega
          · have h1 : 2 ^ 26 * (D - 2 * r) ≤ I * (D - 2 * r) := Nat.mul_le_mul_right _ hI
            have h2 : I * (D - 2 * r) = D * I - 2 * (r * I) := by
              rw [Nat.mul_sub]
              ring_nf
            omega
        apply key q
        · omega
        · omega
    have hzero : FormatFloat (F64.fin false 0 0) 2 = renderFixed false 0 2 := by decide
    by_cases ha : a = 0
    · rw [if_pos ha] at hd
      subst ha
      have hval : (if D < 2 * r then q + 1 else q) = 0 := by
        rw [← hn2, Nat.zero_mod, Nat.zero_div, if_neg (by omega)]
      rw [hval, roundFloat64_of_zero_digit _ hd]
      exact hzero
    · rw [if_neg ha] at hd
      rw [hof ha (by omega) hd, hn2]
      apply formatFloat_div_100
      have h1 : (if D < 2 * r then q + 1 else q) ≤ q + 1 := by
        split_ifs <;> omega
      have h2 : (100 : Nat) * 2 ^ 20 + 1 ≤ 100 * 2 ^ 46 := by norm_num
      omega

/-! ## C27 -/

/-- C27. For a record without FMC elements (type `RT`, `HDT`, `HDP` or `HTI`)
on which the arithmetic is exact, that is, whose used capacity as computed is
exactly the total `vt / 2^K` minus the free capacity `vf / 2^K` as computed: at
precision 2 the three values emitted are the texts of their nearest numbers of
hundredths (written by `FormatFloat`), and the hundredths of used plus those of
free differ from the hundredths of the total by at most one. -/
theorem C27_exact_sum_within_hundredth (p : Params) (m : List (String × Value))
    (r : PlainNumbers) (w : World) (vt vf : Int) (K : Nat) (hp : p.RoundPrecision = 2)
    (h : HasPlainFields m r)
    (ht : r.poolType = "RT" ∨ r.poolType = "HDT" ∨ r.poolType = "HDP" ∨ r.poolType = "HTI")
    (htot : F64.HasValue (F64.div r.totalPoolCapacity Mb2Gb) vt K)
    (hfree : F64.HasValue (F64.div r.effectiveFree Mb2Gb) vf K)
    (hused : F64.HasValue (usedGB r) (vt - vf) K) :
    IsTextOfHundredths (emittedElement p m w).totalPhysicalCapacity
      (F64.hundredths (F64.div r.totalPoolCapacity Mb2Gb)) ∧
    IsTextOfHundredths (emittedElement p m w).usedPhysicalCapacity
      (F64.hundredths (usedGB r)) ∧
    IsTextOfHundredths (emittedElement p m w).availablePhysicalVolumeCapacity
      (F64.hundredths (F64.div r.effectiveFree Mb2Gb)) ∧
    -1 ≤ F64.hundredths (usedGB r) + F64.hundredths (F64.div r.effectiveFree Mb2Gb) -
      F64.hundredths (F64.div r.totalPoolCapacity Mb2Gb) ∧
    F64.hundredths (usedGB r) + F64.hundredths (F64.div r.effectiveFree Mb2Gb) -
      F64.hundredths (F64.div r.totalPoolCapacity Mb2Gb) ≤ 1 := by
  have hfields : (emittedElement p m w).totalPhysicalCapacity =
        FormatFloat (F64.div r.totalPoolCapacity Mb2Gb) 2 ∧
      (emittedElement p m w).usedPhysicalCapacity = FormatFloat (usedGB r) 2 ∧
      (emittedElement p m w).availablePhysicalVolumeCapacity =
        FormatFloat (F64.div r.effectiveFree Mb2Gb) 2 := by
    by_cases ht1 : r.poolType = "RT" ∨ r.poolType = "HDT"
    · rw [(poolRecord_tiered_facts p m r w h ht1).2.2.1]
      simp only [tieredElement, hp, usedGB, ht1, if_true]
      exact ⟨trivial, trivial, trivial⟩
    · have ht2 : r.poolType = "HDP" ∨ r.poolType = "HTI" := by
        rcases ht with h1 | h1 | h1 | h1
        · exact absurd (Or.inl h1) ht1
        · exact absurd (Or.inr h1) ht1
        · exact Or.inl h1
        · exact Or.inr h1
      rw [(poolRecord_thin_facts p m r w h ht2).2.2.1]
      simp only [thinElement, hp, usedGB, ht1, if_false]
      exact ⟨trivial, trivial, trivial⟩
  obtain ⟨f1, f2, f3⟩ := hfields
  have hsum : F64.HasValue (F64.div r.totalPoolCapacity Mb2Gb) (vt - vf + vf) K := by
    rw [sub_add_cancel]
    exact htot
  obtain ⟨b1, b2⟩ := hundredths_of_sum _ _ _ _ _ K hused hfree hsum
  obtain ⟨st, mt, et, e1, _⟩ := htot
  obtain ⟨su, mu, eu, e2, _⟩ := hused
  obtain ⟨sf, mf, ef, e3, _⟩ := hfree
  refine ⟨?_, ?_, ?_, b1, b2⟩
  · rw [f1, e1]; exact formatFloat_isText st mt et
  · rw [f2, e2]; exact formatFloat_isText su mu eu
  · rw [f3, e3]; exact formatFloat_isText sf mf ef

set_option maxRecDepth 100000 in
/-- Witness of C27 on Scenario B (10000000 MiB, 4000000 MiB free, exact
values 10000000/1024, 4000000/1024 and 6000000/1024): 585938 + 390625 hundredths
against 976562. -/
theorem C27_exact_sum_within_hundredth_witness :
    (mainParams "stdout").RoundPrecision = 2 ∧
    HasPlainFields scenarioB (plainNumbers "RT" 10000000 4000000) ∧
    F64.HasValue (usedGB (plainNumbers "RT" 10000000 4000000)) (10000000 - 4000000) 10 ∧
    F64.hundredths (usedGB (plainNumbers "RT" 10000000 4000000)) = 585938 ∧
    F64.hundredths (usedGB (plainNumbers "RT" 10000000 4000000)) +
        F64.hundredths (F64.div (plainNumbers "RT" 10000000 4000000).effectiveFree Mb2Gb) -
        F64.hundredths (F64.div (plainNumbers "RT" 10000000 4000000).totalPoolCapacity Mb2Gb) ≤
      1 :=
  ⟨rfl, plainRecord_fields "RT" 10000000 4000000,
    ⟨false, 6442450944000000, -40, by decide, by decide⟩, by decide,
    (C27_exact_sum_within_hundredth (mainParams "stdout") scenarioB
      (plainNumbers "RT" 10000000 4000000) World.init 10000000 4000000 10 rfl
      (plainRecord_fields "RT" 10000000 4000000) (Or.inl rfl)
      ⟨false, 5368709120000000, -39, by decide, by decide⟩
      ⟨false, 8589934592000000, -41, by decide, by decide⟩
      ⟨false, 6442450944000000, -40, by decide, by decide⟩).2.2.2.2⟩

/-! ## C28 -/

/-- The record `tieRecord` has the FMC elements. -/
theorem tieRecord_fields : HasFMCFields tieRecord tieNumbers :=
  ⟨rfl, rfl, fun _ => rfl, rfl, rfl, rfl, rfl, rfl, rfl⟩

set_option maxRecDepth 100000 in
/-- C28 fails as stated. The record `tieRecord` has the FMC elements and the
non-zero `usedPhysicalCapacity` 160000; its total ratio is exactly 5.125. The
ratio displayed is 5.12 (`FormatFloat` rounds the tie to the even neighbour),
the ratio multiplied into `Effective total GB free` is `RoundFloat64(5.125, 2)`,
the double 5.13. -/
theorem C28_counterexample :
    HasFMCFields tieRecord tieNumbers ∧
    F64.eq tieNumbers.usedPhysicalCapacity F64.zero = false ∧
    F64.eq (totalRatio tieNumbers) (F64.round false 5125 1000) = true ∧
    (poolRecord (mainParams "stdout") tieRecord World.init).isOk = true ∧
    (emittedElement (mainParams "stdout") tieRecord World.init).CompressionRatioTotal = "5.12" ∧
    RoundFloat64 (totalRatio tieNumbers) 2 = F64.round false 513 100 ∧
    FormatFloat (RoundFloat64 (totalRatio tieNumbers) 2) 2 = "5.13" ∧
    (emittedElement (mainParams "stdout") tieRecord World.init).EffectiveGBFree =
      FormatFloat (F64.mul (F64.div tieNumbers.effectiveFree Mb2Gb) (F64.round false 513 100))
        2 :=
  ⟨tieRecord_fields, by decide, by decide, by decide, by decide, by decide, by decide,
    by decide⟩

/-- C28, amended. For a record with the FMC elements whose total ratio is a
non-negative double `m / 2^j` below `2^20` such that 100 times the ratio is
farther than `2^-27` from every midpoint `k + 1/2`, at precision 2: the
`Compression ratio total` displayed is the 2-decimal text of
`RoundFloat64(ratio, 2)`, the number that is multiplied into
`Effective total GB free`. -/
theorem C28_displayed_ratio_is_factor (p : Params) (m : List (String × Value))
    (r : FMCNumbers) (w : World) (man j : Nat) (hp : p.RoundPrecision = 2)
    (h : HasFMCFields m r) (hx : totalRatio r = F64.fin false man (-(j : Int)))
    (hm : man < 2 ^ 20 * 2 ^ j) (hmid : AwayFromMidpoint man j) :
    (emittedElement p m w).CompressionRatioTotal = FormatFloat (totalRatio r) 2 ∧
    (emittedElement p m w).CompressionRatioTotal =
      FormatFloat (RoundFloat64 (totalRatio r) 2) 2 ∧
    (emittedElement p m w).EffectiveGBFree =
      FormatFloat (F64.mul (F64.div r.effectiveFree Mb2Gb) (RoundFloat64 (totalRatio r) 2))
        2 := by
  have hagree := round_display_agree man j hm hmid
  rw [← hx] at hagree
  obtain ⟨_, b, _⟩ := poolRecord_fmc_facts p m r w h
  refine ⟨?_, ?_, ?_⟩
  · rw [b]; simp only [fmcElement, hp, totalRatio]
  · rw [hagree, b]; simp only [fmcElement, hp, totalRatio]
  · rw [b]; simp only [fmcElement, hp, totalRatio]

set_option maxRecDepth 100000 in
/-- Witness of the amended C28 on Scenario A: the ratio 1223334 / 316512 is
displayed as 3.87 and multiplied as 3.87. -/
theorem C28_displayed_ratio_is_factor_witness :
    (mainParams "stdout").RoundPrecision = 2 ∧ HasFMCFields scenarioA scenarioANumbers ∧
    totalRatio scenarioANumbers = F64.fin false 8703313849948277 (-((51 : Nat) : Int)) ∧
    8703313849948277 < 2 ^ 20 * 2 ^ 51 ∧ AwayFromMidpoint 8703313849948277 51 ∧
    (emittedElement (mainParams "stdout") scenarioA World.init).CompressionRatioTotal =
      FormatFloat (RoundFloat64 (totalRatio scenarioANumbers) 2) 2 ∧
    FormatFloat (RoundFloat64 (totalRatio scenarioANumbers) 2) 2 = "3.87" :=
  ⟨rfl, scenarioA_fields, by decide, by decide, by decide,
    (C28_displayed_ratio_is_factor (mainParams "stdout") scenarioA scenarioANumbers World.init
      8703313849948277 51 rfl scenarioA_fields (by decide) (by decide) (by decide)).2.1,
    by decide⟩

/-! ## C29 -/

/-- C29. Two records without FMC elements, one of type `RT` or `HDT` and one
of type `HDP` or `HTI`, with the same pool id, name, `totalPoolCapacity` and
effective free capacity, on which the arithmetic is exact (the two capacities
are multiples of `2^-k` MiB below `2^53` such multiples, whole numbers of MiB
below `2^53` for `k = 0`): the two blocks leave the same eight fields, and so
the same table rows and the same CSV rows. -/
theorem C29_tiered_thin_agree (p : Params) (m1 m2 : List (String × Value))
    (r1 r2 : PlainNumbers) (w1 w2 : World) (A B k : Nat)
    (h1 : HasPlainFields m1 r1) (h2 : HasPlainFields m2 r2)
    (t1 : r1.poolType = "RT" ∨ r1.poolType = "HDT")
    (t2 : r2.poolType = "HDP" ∨ r2.poolType = "HTI")
    (hid : r1.poolId = r2.poolId) (hname : r1.poolName = r2.poolName)
    (htot : r1.totalPoolCapacity = r2.totalPoolCapacity)
    (hfree : r1.effectiveFree = r2.effectiveFree)
    (eT : F64.IsExact r1.totalPoolCapacity false A k)
    (eF : F64.IsExact r1.effectiveFree false B k)
    (hA : A < 2 ^ 53) (hB : B < 2 ^ 53) (hk : k + 10 ≤ 1074) :
    [(emittedElement p m1 w1).PoolID, (emittedElement p m1 w1).PoolName,
      (emittedElement p m1 w1).totalPhysicalCapacity,
      (emittedElement p m1 w1).usedPhysicalCapacity,
      (emittedElement p m1 w1).availablePhysicalVolumeCapacity,
      (emittedElement p m1 w1).FMCCompressionRatio,
      (emittedElement p m1 w1).CompressionRatioTotal,
      (emittedElement p m1 w1).EffectiveGBFree] =
    [(emittedElement p m2 w2).PoolID, (emittedElement p m2 w2).PoolName,
      (emittedElement p m2 w2).totalPhysicalCapacity,
      (emittedElement p m2 w2).usedPhysicalCapacity,
      (emittedElement p m2 w2).availablePhysicalVolumeCapacity,
      (emittedElement p m2 w2).FMCCompressionRatio,
      (emittedElement p m2 w2).CompressionRatioTotal,
      (emittedElement p m2 w2).EffectiveGBFree] ∧
    (PoolInfoFormatTable (emittedElement p m1 w1) p).1 =
      (PoolInfoFormatTable (emittedElement p m2 w2) p).1 ∧
    (PoolInfoFormatCSV [] (emittedElement p m1 w1) p).1 =
      (PoolInfoFormatCSV [] (emittedElement p m2 w2) p).1 := by
  have hu := (used_texts_agree r1.totalPoolCapacity r1.effectiveFree A B k p.RoundPrecision
    eT eF hA hB hk).2.2
  rw [htot, hfree] at hu
  rw [(poolRecord_tiered_facts p m1 r1 w1 h1 t1).2.2.1,
    (poolRecord_thin_facts p m2 r2 w2 h2 t2).2.2.1]
  simp only [tieredElement, thinElement, PoolInfoFormatTable, PoolInfoFormatCSV, hu, hid, hname,
    htot, hfree]
  exact ⟨trivial, trivial, trivial⟩

set_option maxRecDepth 100000 in
/-- Witness of C29: the pool 0 of the test data kept in the source (11739672
MiB, 2808204 MiB free) as an `RT` pool and as an `HDP` pool shows the same
rows, with 8722.14 GB used. -/
theorem C29_tiered_thin_agree_witness :
    HasPlainFields (plainRecord "RT" 11739672 2808204) (plainNumbers "RT" 11739672 2808204) ∧
    HasPlainFields (plainRecord "HDP" 11739672 2808204) (plainNumbers "HDP" 11739672 2808204) ∧
    F64.IsExact (plainNumbers "RT" 11739672 2808204).totalPoolCapacity false 11739672 0 ∧
    (PoolInfoFormatTable
      (emittedElement (mainParams "stdout") (plainRecord "RT" 11739672 2808204) World.init)
      (mainParams "stdout")).1 =
    (PoolInfoFormatTable
      (emittedElement (mainParams "stdout") (plainRecord "HDP" 11739672 2808204) World.init)
      (mainParams "stdout")).1 ∧
    (emittedElement (mainParams "stdout") (plainRecord "RT" 11739672 2808204)
      World.init).usedPhysicalCapacity = "8722.14" :=
  ⟨plainRecord_fields "RT" 11739672 2808204, plainRecord_fields "HDP" 11739672 2808204,
    ofNat_exact 11739672 (by decide),
    (C29_tiered_thin_agree (mainParams "stdout") (plainRecord "RT" 11739672 2808204)
      (plainRecord "HDP" 11739672 2808204) (plainNumbers "RT" 11739672 2808204)
      (plainNumbers "HDP" 11739672 2808204) World.init World.init 11739672 2808204 0
      (plainRecord_fields "RT" 11739672 2808204) (plainRecord_fields "HDP" 11739672 2808204)
      (Or.inl rfl) (Or.inl rfl) rfl rfl rfl rfl (ofNat_exact 11739672 (by decide))
      (ofNat_exact 2808204 (by decide)) (by decide) (by decide) (by decide)).2.1,
    by decide⟩

/-! ## C30 -/

set_option maxRecDepth 100000 in
/-- C30, the behaviour of the code. For a negative value the fractional part
that `math.Modf` returns is negative, hence never `>= 0.5`, and `RoundFloat64`
always takes the floor of `100 * x`: it rounds every negative value that is not
a multiple of 0.01 away from zero. The double nearest to -0.001 is rounded to
-0.01 (0.009 away, the nearest multiple being 0), the double nearest to -1.234
to -1.24 (the nearest multiple being -1.23), while 0.001 and 1.234 are rounded
to 0 and 1.23. -/
theorem C30_negative_rounds_to_floor :
    (∀ (m : Nat) (e : Int),
      RoundFloat64 (F64.fin true m e) 2 =
        F64.div (F64.Floor (F64.mul (F64.ofNat 100) (F64.fin true m e))) (F64.ofNat 100)) ∧
    RoundFloat64 (F64.round true 1 1000) 2 = F64.round true 1 100 ∧
    FormatFloat (RoundFloat64 (F64.round true 1 1000) 2) 2 = "-0.01" ∧
    FormatFloat (F64.round true 1 1000) 2 = "-0.00" ∧
    RoundFloat64 (F64.round true 1234 1000) 2 = F64.round true 124 100 ∧
    FormatFloat (RoundFloat64 (F64.round true 1234 1000) 2) 2 = "-1.24" ∧
    FormatFloat (F64.round true 1234 1000) 2 = "-1.23" ∧
    FormatFloat (RoundFloat64 (F64.round false 1 1000) 2) 2 = "0.00" ∧
    FormatFloat (RoundFloat64 (F64.round false 1234 1000) 2) 2 = "1.23" :=
  ⟨roundFloat64_negative, by decide, by decide, by decide, by decide, by decide, by decide,
    by decide, by decide⟩

end HiCHPoolInfo

